import Mathlib

/-!
dentalAss-front: turn pipeline and session store.

A shallow embedding of the conversational relay (`src/services/aiService.js`,
`src/services/conversationManager.js`, `src/services/speechService.js`,
`src/routes/chat.js`, `src/config/systemPrompts.js`) and the properties of its
behaviour.

Conventions of the embedding:
* JavaScript strings are Lean strings; every text the program handles lies in the
  Basic Multilingual Plane, where code points and UTF-16 code units coincide.
* `Option α` renders a value that may be `undefined`/`null`.
* A function that may throw returns `Except JsError α`.
* Clock readings are explicit `Nat` arguments (milliseconds), one per synchronous call.
* The remote services (recognition, generation, synthesis) are parameters of a turn.
* Conversation objects are shared by reference; the store keeps every object created and
  marks the ones its `Map` holds.
-/

namespace DentalAss

/-! ## Values -/

/-- Primitive JavaScript values carried in free-form objects (metadata, annotations).
Numeric payloads are passed through uninterpreted. -/
inductive JsVal where
  | undefined
  | null
  | bool (b : Bool)
  | num (n : Int)
  | str (s : String)
deriving DecidableEq

/-- A plain object literal: its own properties, in insertion order. -/
abbrev JsObj := List (String × JsVal)

/-- The fields of a thrown error that the program inspects: `error.code`,
`error.message` and `error.response?.status`. -/
structure JsError where
  code : Option String
  message : Option String
  status : Option Nat
deriving DecidableEq

deriving instance DecidableEq for Except

/-- The result of `new Error(message)`. -/
def JsError.ofMessage (msg : String) : JsError :=
  { code := none, message := some msg, status := none }

/-- Names of the properties every object literal inherits from `Object.prototype`;
`obj[key]` for such a key yields an inherited (truthy) value, not `undefined`. -/
def objectPrototypeKeys : List String :=
  ["constructor", "__defineGetter__", "__defineSetter__", "hasOwnProperty",
   "__lookupGetter__", "__lookupSetter__", "isPrototypeOf", "propertyIsEnumerable",
   "toString", "valueOf", "__proto__", "toLocaleString"]

/-! ## String primitives of the runtime -/

/-- Lower-case mapping of one character, as `String.prototype.toLowerCase` applies it.
The mapping covers Basic Latin, the Latin-1 Supplement, Latin Extended-A and the Romanian
comma-below letters (U+0218..U+021B), the alphabets of the program's texts; `U+0130`
expands to `i` followed by the combining dot `U+0307`, and the Kelvin and Angstrom signs
map to `k` and `å`. Other characters are unchanged: their lower-case forms lie outside the
alphabet of the program's phrases and patterns. -/
def toLowerChar (c : Char) : List Char :=
  let n := c.toNat
  if 0x41 ≤ n ∧ n ≤ 0x5A then [Char.ofNat (n + 32)]
  else if 0xC0 ≤ n ∧ n ≤ 0xDE ∧ n ≠ 0xD7 then [Char.ofNat (n + 32)]
  else if n = 0x130 then [Char.ofNat 0x69, Char.ofNat 0x307]
  else if n = 0x178 then [Char.ofNat 0xFF]
  else if n = 0x212A then [Char.ofNat 0x6B]
  else if n = 0x212B then [Char.ofNat 0xE5]
  else if (0x100 ≤ n ∧ n ≤ 0x137) ∨ (0x14A ≤ n ∧ n ≤ 0x177) ∨ (0x218 ≤ n ∧ n ≤ 0x21B) then
    (if n % 2 = 0 then [Char.ofNat (n + 1)] else [c])
  else if (0x139 ≤ n ∧ n ≤ 0x148) ∨ (0x179 ≤ n ∧ n ≤ 0x17E) then
    (if n % 2 = 1 then [Char.ofNat (n + 1)] else [c])
  else [c]

/-- `String.prototype.toLowerCase` on a character sequence. -/
def toLowerChars (s : List Char) : List Char :=
  s.flatMap toLowerChar

/-- `String.prototype.toLowerCase`. -/
def toLowerCase (s : String) : String :=
  String.mk (toLowerChars s.data)

/-- Substring search on character sequences: does `t` occur in `s`? -/
def includesChars : List Char → List Char → Bool
  | [], t => t.isPrefixOf []
  | c :: r, t => t.isPrefixOf (c :: r) || includesChars r t

/-- `String.prototype.includes`: `s.includes(t)`. -/
def includes (s t : String) : Bool :=
  includesChars s.data t.data

/-! ## Regular expressions of the runtime

The three patterns of `extractAppointmentDetails` are regular-expression literals with the
`i` flag. `Re` is the syntax they need, and `Re.run` the backtracking matcher of ECMAScript
in list-of-successes form: the results are listed in the order in which backtracking tries
them, so the first result is the match the runtime reports. -/

/-- Upper-case mapping of one character (`String.prototype.toUpperCase`), on the same
alphabets as `toLowerChar`. -/
def toUpperChar (c : Char) : List Char :=
  let n := c.toNat
  if 0x61 ≤ n ∧ n ≤ 0x7A then [Char.ofNat (n - 32)]
  else if n = 0xB5 then [Char.ofNat 0x39C]
  else if n = 0xDF then [Char.ofNat 0x53, Char.ofNat 0x53]
  else if 0xE0 ≤ n ∧ n ≤ 0xFE ∧ n ≠ 0xF7 then [Char.ofNat (n - 32)]
  else if n = 0xFF then [Char.ofNat 0x178]
  else if n = 0x131 then [Char.ofNat 0x49]
  else if n = 0x149 then [Char.ofNat 0x2BC, Char.ofNat 0x4E]
  else if n = 0x17F then [Char.ofNat 0x53]
  else if (0x100 ≤ n ∧ n ≤ 0x137) ∨ (0x14A ≤ n ∧ n ≤ 0x177) ∨ (0x218 ≤ n ∧ n ≤ 0x21B) then
    (if n % 2 = 1 then [Char.ofNat (n - 1)] else [c])
  else if (0x139 ≤ n ∧ n ≤ 0x148) ∨ (0x179 ≤ n ∧ n ≤ 0x17E) then
    (if n % 2 = 0 then [Char.ofNat (n - 1)] else [c])
  else [c]

/-- `Canonicalize(ch)` of a pattern with the `i` flag and without the `u` flag: the
upper-case form when it is a single code unit, except that a non-ASCII character is never
folded onto an ASCII one. -/
def canonicalize (ch : Char) : Char :=
  match toUpperChar ch with
  | [cu] => if 128 ≤ ch.toNat ∧ cu.toNat < 128 then ch else cu
  | _ => ch

/-- The class `\\d`. -/
def isDigit (c : Char) : Bool :=
  decide (0x30 ≤ c.toNat ∧ c.toNat ≤ 0x39)

/-- The class `\\s`: white space and line terminators. -/
def isSpace (c : Char) : Bool :=
  let n := c.toNat
  decide (n = 0x09 ∨ n = 0x0A ∨ n = 0x0B ∨ n = 0x0C ∨ n = 0x0D ∨ n = 0x20 ∨ n = 0xA0 ∨
    n = 0x1680 ∨ (0x2000 ≤ n ∧ n ≤ 0x200A) ∨ n = 0x2028 ∨ n = 0x2029 ∨ n = 0x202F ∨
    n = 0x205F ∨ n = 0x3000 ∨ n = 0xFEFF)

/-- Regular-expression syntax. -/
inductive Re where
  | empty
  | chr (c : Char)
  | digit
  | space
  | seq (a b : Re)
  | alt (a b : Re)
  | rep (min : Nat) (max : Option Nat) (r : Re)
  | group (n : Nat) (r : Re)

/-- The capture groups recorded so far: group number and captured text. -/
abbrev Caps := List (Nat × List Char)

/-- The text captured by group `n`, if the group took part in the match. -/
def Caps.get (caps : Caps) (n : Nat) : Option (List Char) :=
  caps.lookup n

/-- Forget the captures of the listed groups. -/
def Caps.clear (caps : Caps) (groups : List Nat) : Caps :=
  caps.filter (fun p => !groups.contains p.1)

/-- The numbers of the capture groups inside a pattern. -/
def Re.groups : Re → List Nat
  | .empty => []
  | .chr _ => []
  | .digit => []
  | .space => []
  | .seq a b => a.groups ++ b.groups
  | .alt a b => a.groups ++ b.groups
  | .rep _ _ r => r.groups
  | .group n r => n :: r.groups

/-- A matcher state: the input still to read and the captures. -/
abbrev MState := List Char × Caps

/-- `RepeatMatcher` for a greedy quantifier with at most `max` iterations left. An iteration
that consumes nothing once `min` is met is rejected; the captures inside the repeated atom
are cleared at the start of each iteration. -/
def repeatMatcher (m : List Char → Caps → List MState) (groups : List Nat) :
    Nat → Nat → List Char → Caps → List MState
  | 0, _, s, caps => [(s, caps)]
  | max + 1, min, s, caps =>
    let iter := (m s (caps.clear groups)).flatMap (fun y =>
      if min = 0 ∧ y.1.length = s.length then []
      else repeatMatcher m groups max (min - 1) y.1 y.2)
    if min ≠ 0 then iter else iter ++ [(s, caps)]

/-- The matcher of a pattern: all ways of matching a prefix of the input, in backtracking
order. An unbounded quantifier is run with the bound `min + length of the input`, which it
cannot exceed since every iteration beyond `min` consumes a character. -/
def Re.run : Re → List Char → Caps → List MState
  | .empty, s, caps => [(s, caps)]
  | .chr c, s, caps =>
    match s with
    | x :: rest => if canonicalize x = canonicalize c then [(rest, caps)] else []
    | [] => []
  | .digit, s, caps =>
    match s with
    | x :: rest => if isDigit x then [(rest, caps)] else []
    | [] => []
  | .space, s, caps =>
    match s with
    | x :: rest => if isSpace x then [(rest, caps)] else []
    | [] => []
  | .seq a b, s, caps => (a.run s caps).flatMap (fun y => b.run y.1 y.2)
  | .alt a b, s, caps => a.run s caps ++ b.run s caps
  | .rep min max r, s, caps =>
    repeatMatcher r.run r.groups (max.getD (min + s.length)) min s caps
  | .group n r, s, caps =>
    (r.run s caps).map (fun y => (y.1, (n, s.take (s.length - y.1.length)) :: y.2))

/-- The literal text `t` as a pattern. -/
def Re.lit (t : String) : Re :=
  t.data.foldr (fun c r => .seq (.chr c) r) .empty

/-- A sequence of patterns. -/
def Re.cat (rs : List Re) : Re :=
  rs.foldr .seq .empty

/-- An alternation `a|b|...` of literal texts, tried left to right. -/
def Re.oneOf : List String → Re
  | [] => .empty
  | [t] => Re.lit t
  | t :: ts => .alt (Re.lit t) (Re.oneOf ts)

/-- The result of a successful match: the matched text and the capture groups. -/
structure MatchResult where
  whole : List Char
  caps : Caps

/-- `String.prototype.match` with a non-global pattern: the first match found when the
start positions are tried from left to right, or `none`. -/
def jsMatch (r : Re) : List Char → Option MatchResult
  | [] =>
    match (r.run [] []).head? with
    | some y => some { whole := [], caps := y.2 }
    | none => none
  | c :: rest =>
    match (r.run (c :: rest) []).head? with
    | some y => some { whole := (c :: rest).take ((c :: rest).length - y.1.length), caps := y.2 }
    | none => jsMatch r rest

/-! ## Data model (`conversationManager.js`) -/

/-- One entry of `conversation.messages`. `content = none` renders `undefined`. -/
structure Message where
  role : String
  content : Option String
  timestamp : Nat
  metadata : JsObj
deriving DecidableEq

/-- The `stats` object of a conversation. -/
structure Stats where
  messageCount : Nat
  audioProcessingTime : Nat
  totalDuration : Nat
deriving DecidableEq

/-- The conversation object built by `createConversation`. -/
structure Conversation where
  id : String
  mode : String
  messages : List Message
  startTime : Nat
  lastActivity : Nat
  metadata : JsObj
  stats : Stats
deriving DecidableEq

/-! ## Persona registry (`config/systemPrompts.js`) -/

/-- Text of `systemPrompts.dental.prompt` (src/config/systemPrompts.js). -/
def dentalPrompt : String :=
  "Ești asistentul virtual al Clinicii Stomatologice \"Dinți de Fier\" din Iași. \n" ++
  "Ești prietenos, profesional dar și puțin glumeț când e cazul. Vorbești natural, ca un om adevărat.\n" ++
  "\n" ++
  "IMPORTANT: \n" ++
  "- Răspunde SCURT și la obiect (maxim 2-3 propoziții)\n" ++
  "- Fii natural și conversațional\n" ++
  "- Poți face glume ușoare despre dinți când e potrivit\n" ++
  "- La primul mesaj, răspunde cu: \"Bună ziua! Ați sunat la Clinica Dinți de Fier. Sunt Andra, asistenta virtuală. Cu ce vă pot ajuta astăzi?\"\n" ++
  "\n" ++
  "SERVICII ȘI PREȚURI:\n" ++
  "- Consultație generală: 100 RON (Examinare completă și plan de tratament)\n" ++
  "- Detartraj cu ultrasunete: 200 RON (Curățare profesională și îndepărtare tartru)\n" ++
  "- Plombă simplă: 250 RON (Tratament carie superficială)\n" ++
  "- Plombă complexă: 400 RON (Tratament carie profundă)\n" ++
  "- Extracție simplă: 300 RON (Extracție dinte cu rădăcină simplă)\n" ++
  "- Control periodic: 50 RON (Verificare stare generală pentru pacienți existenți)\n" ++
  "\n" ++
  "PROGRAM:\n" ++
  "Luni - Vineri: 8:00 - 16:00\n" ++
  "Sâmbătă - Duminică: Închis\n" ++
  "\n" ++
  "PROGRAMĂRI DISPONIBILE:\n" ++
  "Momentan avem locuri libere în toată săptămâna, între 8:00 și 16:00.\n" ++
  "O programare durează standard 30 de minute.\n" ++
  "\n" ++
  "CÂND FACI O PROGRAMARE:\n" ++
  "1. Întreabă pentru ce serviciu dorește\n" ++
  "2. Propune 2-3 variante de dată și oră\n" ++
  "3. Confirmă programarea cu: \"Perfect! V-am programat pe [DATA] la ora [ORA] pentru [SERVICIU]. Veți primi un SMS de confirmare.\"\n" ++
  "4. Încheie conversația cu o formulă de politețe\n" ++
  "\n" ++
  "RĂSPUNSURI LA ÎNTREBĂRI FRECVENTE:\n" ++
  "- Urgențe: \"Pentru urgențe stomatologice, vă rugăm să veniți direct la clinică sau sunați la 112.\"\n" ++
  "- Durere: \"Pentru dureri acute, puteți lua un antiinflamator până la consultație. Vă programez urgent?\"\n" ++
  "- Locație: \"Suntem pe Strada Păcurari nr. 45, lângă Parcul Copou.\"\n" ++
  "\n" ++
  "Dacă nu știi ceva, spune sincer și oferă să programezi o consultație pentru mai multe detalii."

/-- Text of `systemPrompts.teleshopping.prompt` (src/config/systemPrompts.js). -/
def teleshoppingPrompt : String :=
  "Ești vânzătorul expert de la Teleshopping Romania! Ești entuziast, persuasiv și mereu optimist.\n" ++
  "Vorbești ca la televizor - dramatic, cu exclamații și oferte incredibile!\n" ++
  "\n" ++
  "IMPORTANT:\n" ++
  "- Răspunde cu ENTUZIASM și energie!\n" ++
  "- Folosește multe exclamații și expresii de uimire\n" ++
  "- Subliniază mereu ofertele limitate și reducerile\n" ++
  "- La primul mesaj: \"BUNĂ ZIUA și bine ați venit la Teleshopping Romania! Sunt Alex, consultantul dumneavoastră pentru produse INCREDIBILE! Ce vă interesează astăzi?\"\n" ++
  "\n" ++
  "PRODUSE DISPONIBILE:\n" ++
  "- Set Cuțite Magic Pro: 199 RON în loc de 399 RON! (Set complet 12 cuțite care nu se tocesc niciodată!)\n" ++
  "- Aspirator Turbo Clean: 299 RON în loc de 599 RON! (Putere de aspirare industrială!)\n" ++
  "- Friteuza fără ulei AirMax: 399 RON în loc de 799 RON! (Mâncare sănătoasă în 10 minute!)\n" ++
  "- Aparatul de fitness Wonder Gym: 599 RON în loc de 1199 RON! (Antrenament complet acasă!)\n" ++
  "- Crema anti-îmbătrânire Youth Miracle: 149 RON în loc de 299 RON! (Cu aur 24k și collagen!)\n" ++
  "\n" ++
  "OFERTE SPECIALE:\n" ++
  "- AZI DOAR: Dacă comandați în următoarele 15 minute, primiți al doilea produs GRATUIT!\n" ++
  "- Transport GRATUIT în toată România!\n" ++
  "- Garanție 2 ani + retur în 30 de zile!\n" ++
  "- Plata în 3 rate fără dobândă!\n" ++
  "\n" ++
  "CÂND VINZI:\n" ++
  "1. Prezintă produsul cu entuziasm\n" ++
  "2. Subliniază beneficiile UNICE\n" ++
  "3. Menționează reducerea și urgența ofertei\n" ++
  "4. Întreabă despre cantitate și livrare\n" ++
  "5. Confirmă comanda: \"FELICITĂRI! Ați făcut alegerea perfectă! Comanda va ajunge la dumneavoastră în 24-48 ore!\"\n" ++
  "\n" ++
  "Fii mereu pozitiv și găsește soluții pentru orice obiecție!"

/-- Text of `systemPrompts.tarot.prompt` (src/config/systemPrompts.js). -/
def tarotPrompt : String :=
  "Ești Madame Stella, o vrăjitoare înțeleaptă și mistică care citește în cărțile de tarot.\n" ++
  "Vorbești misterios, filosofic și cu multă înțelepciune. Ești caldă dar și profundă.\n" ++
  "\n" ++
  "IMPORTANT:\n" ++
  "- Răspunde cu mister și înțelepciune\n" ++
  "- Folosește metafore și simboluri\n" ++
  "- Fii empatic și înțelegător\n" ++
  "- La primul mesaj: \"Salutări, suflet călător! Sunt Madame Stella, și văd că energiile te-au ghidat la mine astăzi. Cărțile șoptesc... Ce îți frământă inima?\"\n" ++
  "\n" ++
  "SERVICII DISPONIBILE:\n" ++
  "- Citire generală: 50 RON (Vedere de ansamblu asupra vieții tale)\n" ++
  "- Dragoste și relații: 75 RON (Răspunsuri despre iubire și sufletul pereche)\n" ++
  "- Carieră și bani: 75 RON (Ghidare pentru succesul profesional și abundență)\n" ++
  "- Viitor apropiat: 100 RON (Ce te așteaptă în următoarele 3 luni)\n" ++
  "- Citire completă Celtic Cross: 150 RON (Analiză profundă pe toate planurile vieții)\n" ++
  "\n" ++
  "CĂRȚILE TAROT (folosește pentru răspunsuri):\n" ++
  "- Cupe: Emoții, dragoste, intuiție\n" ++
  "- Spade: Provocări, conflicte, claritate mintală  \n" ++
  "- Monede/Pentacle: Bani, carieră, sănătate\n" ++
  "- Bețe/Baghete: Energie, creativitate, pasiune\n" ++
  "\n" ++
  "CÂND DAI O CITIRE:\n" ++
  "1. Întreabă ce domeniu îl interesează\n" ++
  "2. \"Amestec cărțile și simt energia ta...\"\n" ++
  "3. \"Trag o carte... Văd [CARTEA]. Aceasta îmi spune că...\"\n" ++
  "4. Oferă sfaturi înțelepte bazate pe \"cărți\"\n" ++
  "5. Întreabă dacă dorește o citire completă\n" ++
  "\n" ++
  "STIL DE VORBIRE:\n" ++
  "- \"Energiile îmi spun că...\"\n" ++
  "- \"Cărțile revelează...\"\n" ++
  "- \"Universul îți trimite un mesaj...\"\n" ++
  "- \"Văd în cărți că...\"\n" ++
  "\n" ++
  "Fii mereu pozitiv și oferă speranță, chiar și în situații dificile!"

/-- The keys of `systemPrompts`: `getAvailableModes()`. -/
def getAvailableModes : List String := ["dental", "teleshopping", "tarot"]

/-- Embedding of `getSystemPrompt(mode)`: the `prompt` of the registry entry; throws when
`systemPrompts[mode]` is falsy. For a key inherited from `Object.prototype` the lookup is
truthy and its `prompt` property is `undefined`. -/
def getSystemPrompt (mode : String) : Except JsError (Option String) :=
  if mode = "dental" then .ok (some dentalPrompt)
  else if mode = "teleshopping" then .ok (some teleshoppingPrompt)
  else if mode = "tarot" then .ok (some tarotPrompt)
  else if mode ∈ objectPrototypeKeys then .ok none
  else .error (JsError.ofMessage ("System prompt pentru modul '" ++ mode ++ "' nu există"))

/-! ## Generation adapter (`aiService.js`) -/

/-- One element of the `messages` array sent to the remote model. -/
structure ApiMessage where
  role : String
  content : Option String
deriving DecidableEq

/-- The projection `msg => ({ role: msg.role, content: msg.content })` of `buildMessages`. -/
def Message.toApi (msg : Message) : ApiMessage :=
  { role := msg.role, content := msg.content }

/-- `Array.prototype.slice(-n)`: the last `n` elements (all of them when fewer). -/
def sliceLast {α : Type} (n : Nat) (xs : List α) : List α :=
  xs.drop (xs.length - n)

/-- Embedding of `AIService.buildMessages(conversation)`. -/
def buildMessages (conversation : Conversation) : Except JsError (List ApiMessage) :=
  match getSystemPrompt conversation.mode with
  | .error e => .error e
  | .ok systemPrompt =>
    let systemMsg : ApiMessage := { role := "system", content := systemPrompt }
    let messages : List ApiMessage :=
      if conversation.messages.length = 0 then
        [systemMsg, { role := "user", content := some "START_CONVERSATIE" }]
      else
        systemMsg :: conversation.messages.map Message.toApi
    let maxMessages := 20
    if messages.length > maxMessages then
      let recentMessages := sliceLast (maxMessages - 1) messages
      .ok (systemMsg :: recentMessages)
    else
      .ok messages

/-- The `dental` entry of `endingPhrases` in `isConversationEnding`. -/
def endingPhrasesDental : List String :=
  ["la revedere", "o zi bună", "o zi frumoasă", "toate cele bune", "cu drag",
   "vă mulțumesc pentru apel", "vă așteptăm la clinică", "ne vedem la programare",
   "v-am programat"]

/-- The `teleshopping` entry of `endingPhrases`. -/
def endingPhrasesTeleshopping : List String :=
  ["vă mulțumesc pentru comandă", "comanda va ajunge", "felicitări pentru achiziție",
   "ați făcut alegerea perfectă", "la revedere și mulțumiri"]

/-- The `tarot` entry of `endingPhrases`. -/
def endingPhrasesTarot : List String :=
  ["cărțile au vorbit", "aceasta este înțelepciunea", "universul v-a ghidat",
   "energia voastră este clarificată", "drumul vostru este luminat"]

/-- The array `Object.values(endingPhrases).flat()`. -/
def allPhrases : List String :=
  endingPhrasesDental ++ endingPhrasesTeleshopping ++ endingPhrasesTarot

/-- Embedding of `AIService.isConversationEnding(message)`. -/
def isConversationEnding (message : String) : Bool :=
  let lowerMessage := toLowerCase message
  allPhrases.any (fun phrase => includes lowerMessage phrase)

/-! ## Outcome extractor (`aiService.js`) -/

/-- The month names of `datePattern`, in the order of the alternation. -/
def monthNames : List String :=
  ["ianuarie", "februarie", "martie", "aprilie", "mai", "iunie", "iulie", "august",
   "septembrie", "octombrie", "noiembrie", "decembrie"]

/-- The service names of `servicePattern`, in the order of the alternation. -/
def serviceNames : List String :=
  ["consultație", "detartraj", "plombă", "extracție", "control"]

/-- The pattern `/(\\d{1,2})\\s*(ianuarie|...|decembrie)/i`. -/
def datePattern : Re :=
  Re.cat [.group 1 (.rep 1 (some 2) .digit), .rep 0 none .space,
          .group 2 (Re.oneOf monthNames)]

/-- The pattern `/ora?\\s*(\\d{1,2}):?(\\d{2})?/i`. -/
def timePattern : Re :=
  Re.cat [.chr 'o', .chr 'r', .rep 0 (some 1) (.chr 'a'), .rep 0 none .space,
          .group 1 (.rep 1 (some 2) .digit), .rep 0 (some 1) (.chr ':'),
          .rep 0 (some 1) (.group 2 (.rep 2 (some 2) .digit))]

/-- The pattern `/(consultație|detartraj|plombă|extracție|control)/i`. -/
def servicePattern : Re :=
  .group 1 (Re.oneOf serviceNames)

/-- The text a template literal shows for a capture group: the captured text, or
`undefined` when the group did not take part in the match. -/
def templateText (g : Option (List Char)) : List Char :=
  match g with
  | some t => t
  | none => "undefined".data

/-- `Array.prototype.join(sep)` on texts. -/
def joinWith (sep : List Char) : List (List Char) → List Char
  | [] => []
  | [p] => p
  | p :: q :: rest => p ++ sep ++ joinWith sep (q :: rest)

/-- `Array.prototype.join(sep)` on message contents: `undefined` shows as the empty text. -/
def joinContents (sep : List Char) (contents : List (Option String)) : List Char :=
  joinWith sep (contents.map (fun c => (c.getD "").data))

/-- The record returned by `extractAppointmentDetails`. -/
structure AppointmentDetails where
  date : Option String
  time : Option String
  service : String
  confirmed : Bool
deriving DecidableEq

/-- The text `extractAppointmentDetails` searches:
`conversation.messages.map(m => m.content).join('\\n').toLowerCase()`. -/
def dialogueText (conversation : Conversation) : String :=
  toLowerCase (String.mk (joinContents ['\n'] (conversation.messages.map (fun m => m.content))))

/-- Embedding of `AIService.extractAppointmentDetails(conversation, mode)`. -/
def extractAppointmentDetails (conversation : Conversation) (mode : String) :
    Option AppointmentDetails :=
  if mode ≠ "dental" then none
  else
    let messages := dialogueText conversation
    let dateMatch := jsMatch datePattern messages.data
    let timeMatch := jsMatch timePattern messages.data
    let serviceMatch := jsMatch servicePattern messages.data
    if dateMatch.isSome ∨ timeMatch.isSome then
      some
        { date := dateMatch.map (fun m =>
            String.mk (templateText (m.caps.get 1) ++ [' '] ++ templateText (m.caps.get 2)))
          time := timeMatch.map (fun m =>
            String.mk (templateText (m.caps.get 1) ++ [':'] ++
              (match m.caps.get 2 with
               | some (c :: t) => c :: t
               | _ => "00".data)))
          service :=
            match serviceMatch with
            | some m => String.mk (templateText (m.caps.get 1))
            | none => "Consultație generală"
          confirmed := includes messages "programat" || includes messages "confirmat" }
    else none

/-! ## Plain objects -/

/-- JavaScript truthiness of a primitive value. -/
def JsVal.truthy : JsVal → Bool
  | .undefined => false
  | .null => false
  | .bool b => b
  | .num n => decide (n ≠ 0)
  | .str s => decide (s ≠ "")

/-- The operator `a || b`. -/
def JsVal.orElse (a b : JsVal) : JsVal :=
  if a.truthy then a else b

/-- Property read `obj[key]`: `undefined` when the object has no such own property. -/
def JsObj.get (o : JsObj) (key : String) : JsVal :=
  (o.lookup key).getD .undefined

/-- Property write `obj[key] = v`: an existing property keeps its position. -/
def JsObj.set : JsObj → String → JsVal → JsObj
  | [], key, v => [(key, v)]
  | (k, w) :: rest, key, v =>
    if k = key then (k, v) :: rest else (k, w) :: JsObj.set rest key v

/-- `Object.assign(target, source)`, also the spread `{ ...target, ...source }`. -/
def JsObj.assign (target source : JsObj) : JsObj :=
  source.foldl (fun o p => o.set p.1 p.2) target

/-! ## Session store (`conversationManager.js`)

Conversation objects are shared by reference between the `Map` of the manager and the
callers that received them. `cells` lists every conversation object created so far, in
creation order; a reference is an index into it. A cell is `live` while the `Map` holds it
under the key `conv.id`. The iteration order of the `Map` is not represented. -/

/-- A conversation object and whether the `Map` currently holds it. -/
structure Cell where
  live : Bool
  conv : Conversation
deriving DecidableEq

/-- The session life-cycle lines the manager writes to the log: `CONV_START`, `CONV_END`
(with its reason and message count) and `CONV_ARCHIVE`. Other log lines are not recorded. -/
inductive Event where
  | convStart (mode id : String)
  | convEnd (id reason : String) (messageCount : Nat)
  | convArchive (id : String) (messages : Nat)
deriving DecidableEq

/-- The state of the `ConversationManager` singleton. -/
structure ConversationManager where
  cells : List Cell
  events : List Event
deriving DecidableEq

/-- The state after the constructor: an empty `Map`. -/
def ConversationManager.init : ConversationManager :=
  { cells := [], events := [] }

/-- Does the `Map` hold this cell under `callId`? -/
def Cell.holds (c : Cell) (callId : String) : Bool :=
  c.live && decide (c.conv.id = callId)

/-- The reference `this.conversations.get(callId)`, if any. -/
def findLive (callId : String) : List Cell → Option Nat
  | [] => none
  | c :: rest => if c.holds callId then some 0 else (findLive callId rest).map (· + 1)

/-- The conversation `this.conversations.get(callId)`, read through the `Map`. -/
def lookupLive (callId : String) : List Cell → Option Conversation
  | [] => none
  | c :: rest => if c.holds callId then some c.conv else lookupLive callId rest

/-- Update in place the conversation the `Map` holds under `callId`. -/
def modifyLive (callId : String) (f : Conversation → Conversation) : List Cell → List Cell
  | [] => []
  | c :: rest =>
    if c.holds callId then { c with conv := f c.conv } :: rest
    else c :: modifyLive callId f rest

/-- `this.conversations.delete(callId)`: the object stays reachable by those who hold it. -/
def deleteLive (callId : String) (cells : List Cell) : List Cell :=
  cells.map (fun c => if c.holds callId then { c with live := false } else c)

/-- `this.conversations.get(callId)`. -/
def ConversationManager.lookup (mgr : ConversationManager) (callId : String) :
    Option Conversation :=
  lookupLive callId mgr.cells

/-- Read a conversation through a reference; `none` renders a reference to nothing. -/
def ConversationManager.deref (mgr : ConversationManager) (ref : Nat) : Option Conversation :=
  mgr.cells[ref]?.map (fun c => c.conv)

/-- The object literal `conversation` of `createConversation`. -/
def newConversation (callId mode : String) (metadata : JsObj) (now : Nat) : Conversation :=
  { id := callId
    mode := mode
    messages := []
    startTime := now
    lastActivity := now
    metadata := JsObj.assign
      [("userAgent", (metadata.get "userAgent").orElse (.str "")),
       ("ip", (metadata.get "ip").orElse (.str ""))] metadata
    stats := { messageCount := 0, audioProcessingTime := 0, totalDuration := 0 } }

/-- Embedding of `createConversation(callId, mode, metadata)` at clock reading `now`:
the new state and the reference to the new conversation. -/
def ConversationManager.createConversation (mgr : ConversationManager)
    (callId mode : String) (metadata : JsObj) (now : Nat) : ConversationManager × Nat :=
  let conversation := newConversation callId mode metadata now
  ({ cells := deleteLive callId mgr.cells ++ [{ live := true, conv := conversation }]
     events := mgr.events ++ [.convStart mode callId] },
   mgr.cells.length)

/-- Embedding of `getConversation(callId)` at clock reading `now`: a hit refreshes
`lastActivity`; the result is the reference, or `none` for `undefined`. -/
def ConversationManager.getConversation (mgr : ConversationManager) (callId : String)
    (now : Nat) : ConversationManager × Option Nat :=
  match findLive callId mgr.cells with
  | some ref =>
    ({ mgr with cells := modifyLive callId (fun c => { c with lastActivity := now }) mgr.cells },
     some ref)
  | none => (mgr, none)

/-- The effect of `addMessage` on the conversation object. -/
def Conversation.push (c : Conversation) (message : Message) (now : Nat) : Conversation :=
  { c with
    messages := c.messages ++ [message]
    stats := { c.stats with messageCount := c.stats.messageCount + 1 }
    lastActivity := now }

/-- Embedding of `addMessage(callId, role, content, metadata)` at clock reading `now`.
It throws when no session is held under `callId`. The message is pushed before the log line
reads `content.substring`, so an `undefined` content throws after the push. -/
def ConversationManager.addMessage (mgr : ConversationManager) (callId role : String)
    (content : Option String) (metadata : JsObj) (now : Nat) :
    ConversationManager × Except JsError Message :=
  match mgr.getConversation callId now with
  | (mgr₁, none) =>
    (mgr₁, .error (JsError.ofMessage ("Conversația cu ID-ul " ++ callId ++ " nu există")))
  | (mgr₁, some _) =>
    let message : Message :=
      { role := role, content := content, timestamp := now, metadata := metadata }
    let mgr' : ConversationManager :=
      { mgr₁ with cells := modifyLive callId (fun c => c.push message now) mgr₁.cells }
    match content with
    | some _ => (mgr', .ok message)
    | none =>
      (mgr', .error (JsError.ofMessage
        "Cannot read properties of undefined (reading 'substring')"))

/-- The argument of `updateConversationStats`: the `stats` fields it carries. -/
structure StatsPatch where
  messageCount : Option Nat
  audioProcessingTime : Option Nat
  totalDuration : Option Nat
deriving DecidableEq

/-- `Object.assign(stats, patch)`. -/
def Stats.assign (stats : Stats) (patch : StatsPatch) : Stats :=
  { messageCount := patch.messageCount.getD stats.messageCount
    audioProcessingTime := patch.audioProcessingTime.getD stats.audioProcessingTime
    totalDuration := patch.totalDuration.getD stats.totalDuration }

/-- Embedding of `updateConversationStats(callId, stats)` at clock reading `now`. -/
def ConversationManager.updateConversationStats (mgr : ConversationManager)
    (callId : String) (patch : StatsPatch) (now : Nat) : ConversationManager × Option Nat :=
  match mgr.getConversation callId now with
  | (mgr₁, some ref) =>
    ({ mgr₁ with cells := modifyLive callId (fun c =>
        { c with stats := c.stats.assign patch, lastActivity := now }) mgr₁.cells },
     some ref)
  | (mgr₁, none) => (mgr₁, none)

/-- Embedding of `endConversation(callId, reason)`: logs, archives and deletes the session
held under `callId`; nothing happens when there is none. -/
def ConversationManager.endConversation (mgr : ConversationManager) (callId reason : String) :
    ConversationManager :=
  match mgr.lookup callId with
  | some conversation =>
    { cells := deleteLive callId mgr.cells
      events := mgr.events ++
        [.convEnd callId reason conversation.stats.messageCount,
         .convArchive conversation.id conversation.messages.length] }
  | none => mgr


/-! ## Idle sweep (`conversationManager.js`) -/

/-- The field `maxConversationAge`: 30 minutes, in milliseconds. -/
def maxConversationAge : Nat := 30 * 60 * 1000

/-- The field `cleanupInterval`: 10 minutes, in milliseconds. -/
def cleanupInterval : Nat := 10 * 60 * 1000

/-- The entries `[callId, conversation]` of the `Map`. -/
def liveEntries (cells : List Cell) : List (String × Conversation) :=
  (cells.filter (fun c => c.live)).map (fun c => (c.conv.id, c.conv))

/-- A `Map` holds at most one conversation per key: the live cells have distinct ids. Every
state the manager reaches from its initial state is of this kind. -/
def ConversationManager.WellFormed (mgr : ConversationManager) : Prop :=
  ((liveEntries mgr.cells).map Prod.fst).Nodup

instance (mgr : ConversationManager) : Decidable mgr.WellFormed := by
  unfold ConversationManager.WellFormed
  infer_instance

/-- Is a conversation older than the threshold at time `now`: `age > maxConversationAge` for
`age = now - lastActivity` (an age below zero is never above the threshold). -/
def isExpired (now : Nat) (c : Conversation) : Bool :=
  decide (now - c.lastActivity > maxConversationAge)

/-- The body of the loop of `cleanupOldConversations` for one entry: the state and the
counter `cleanedCount`. -/
def sweepStep (now : Nat) (acc : ConversationManager × Nat)
    (entry : String × Conversation) : ConversationManager × Nat :=
  if isExpired now entry.2 then (acc.1.endConversation entry.1 "timeout", acc.2 + 1)
  else acc

/-- Embedding of `cleanupOldConversations()` at clock reading `now`: the new state and the
returned count. The loop ends only the entry it is visiting, so it visits the entries the
`Map` held on entry. -/
def ConversationManager.cleanupOldConversations (mgr : ConversationManager) (now : Nat) :
    ConversationManager × Nat :=
  (liveEntries mgr.cells).foldl (sweepStep now) (mgr, 0)

/-! ## Failure classification (`aiService.js`) -/

/-- One entry of `fallbackResponses`: the texts `timeout`, `rate_limit` and `default`. -/
structure FallbackTexts where
  timeout : String
  rateLimit : String
  defaultText : String
deriving DecidableEq

/-- The own properties of the object `fallbackResponses`. -/
def fallbackResponses (mode : String) : Option FallbackTexts :=
  if mode = "dental" then
    some
      { timeout := "Îmi pare rău, am o problemă tehnică momentan. Vă rog să ne sunați direct la clinică pentru programări urgente."
        rateLimit := "Sistemul este suprasolicitat. Vă rog să încercați din nou în câteva minute."
        defaultText := "Am întâmpinat o problemă tehnică. Pentru programări, vă rog să ne sunați direct." }
  else if mode = "teleshopping" then
    some
      { timeout := "OOPS! Avem o problemă tehnică, dar ofertele noastre INCREDIBILE vă așteaptă! Sunați din nou în câteva minute!"
        rateLimit := "Suntem FOARTE solicitați! Încercați din nou pentru oferte FANTASTICE!"
        defaultText := "Problemă tehnică temporară! Ofertele noastre vă așteaptă!" }
  else if mode = "tarot" then
    some
      { timeout := "Energiile sunt perturbate momentan... Universul îmi spune să încercați din nou în curând."
        rateLimit := "Cărțile sunt în meditație... Reveniți în câteva momente pentru înțelepciune."
        defaultText := "Energiile spirituale sunt blocate temporar. Încercați din nou pentru ghidare." }
  else none

/-- The value `fallbackResponses[mode] || fallbackResponses.dental`: the entry of a registered
mode; for a key inherited from `Object.prototype` an object without the three texts
(`none`); the dental entry otherwise. -/
def modeResponses (mode : String) : Option FallbackTexts :=
  match fallbackResponses mode with
  | some texts => some texts
  | none => if mode ∈ objectPrototypeKeys then none else fallbackResponses "dental"

/-- The `TypeError` raised by a property read on `undefined`. -/
def typeErrorReading (property : String) : JsError :=
  JsError.ofMessage ("Cannot read properties of undefined (reading '" ++ property ++ "')")

/-- Embedding of `AIService.generateFallbackResponse(error, mode)`. The result `none`
renders `undefined`. Reading `error.message.includes` throws when the error carries no
string message, unless `error.code` already decided the first test. -/
def generateFallbackResponse (error : JsError) (mode : String) :
    Except JsError (Option String) :=
  let texts := modeResponses mode
  if error.code = some "ECONNABORTED" then .ok (texts.map (fun t => t.timeout))
  else
    match error.message with
    | none => .error (typeErrorReading "includes")
    | some message =>
      if includes message "timeout" then .ok (texts.map (fun t => t.timeout))
      else if error.status = some 429 then .ok (texts.map (fun t => t.rateLimit))
      else .ok (texts.map (fun t => t.defaultText))

/-! ## Remote capabilities

The three remote services are parameters of a turn: functions from the request to what the
client library returns or throws. -/

/-- What `axios.post` yields inside `getResponse`: the text
`response.data.choices[0].message.content` with `response.data.usage`, or what the `try`
block throws. -/
inductive RemoteOutcome where
  | reply (content : String) (usage : JsVal)
  | throws (error : JsError)

/-- The object returned by `getResponse`. -/
inductive AiResult where
  | success (response : String) (model : String) (processingTime : Nat) (usage : JsVal)
  | failure (error : Option String) (fallbackResponse : Option String) (processingTime : Nat)
deriving DecidableEq

/-- The `catch` block of `getResponse`. -/
def getResponseCatch (error : JsError) (mode : String) (duration : Nat) :
    Except JsError AiResult :=
  match generateFallbackResponse error mode with
  | .ok fallbackResponse => .ok (.failure error.message fallbackResponse duration)
  | .error e => .error e

/-- Embedding of `AIService.getResponse(conversation, callId)` for the configured `model`,
the remote service `complete` and the measured `duration`. The outer `Except` is a rejected
promise. A `conversation` that is `undefined` (`none`) makes both the `try` and the `catch`
block throw. -/
def getResponse (model : String) (complete : List ApiMessage → RemoteOutcome)
    (duration : Nat) (conversation : Option Conversation) : Except JsError AiResult :=
  match conversation with
  | none => .error (typeErrorReading "mode")
  | some conversation =>
    match buildMessages conversation with
    | .error e => getResponseCatch e conversation.mode duration
    | .ok messages =>
      match complete messages with
      | .reply content usage => .ok (.success content model duration usage)
      | .throws e => getResponseCatch e conversation.mode duration

/-- The handler's variable `aiResponse`: `aiResult.response` on success,
`aiResult.fallbackResponse` otherwise. -/
def AiResult.replyText : AiResult → Option String
  | .success response _ _ _ => some response
  | .failure _ fallbackResponse _ => fallbackResponse

/-- The annotations the handler attaches to the assistant message:
`{ model, processingTime, usage }` on success, `{ fallback: true, originalError }`
otherwise. -/
def AiResult.annotations : AiResult → JsObj
  | .success _ model processingTime usage =>
    [("model", .str model), ("processingTime", .num processingTime), ("usage", usage)]
  | .failure error _ _ =>
    [("fallback", .bool true),
     ("originalError", match error with
                       | some e => .str e
                       | none => .undefined)]

/-- `AiResult.processingTime`. -/
def AiResult.processingTime : AiResult → Nat
  | .success _ _ t _ => t
  | .failure _ _ t => t

/-- One recognition alternative of the speech client. -/
structure Alternative where
  transcript : String
  confidence : Int
deriving DecidableEq

/-- What `speechClient.recognize` yields: the `alternatives` of each result, or a thrown
error. -/
inductive RecognizeOutcome where
  | response (results : List (List Alternative))
  | throws (error : JsError)

/-- The object returned by `speechToText`. -/
inductive SttResult where
  | success (transcript : String) (confidence : Int) (processingTime : Nat)
  | failure (error : Option String) (processingTime : Nat)
deriving DecidableEq

/-- `String.prototype.trim`. -/
def trimChars (s : List Char) : List Char :=
  ((s.dropWhile isSpace).reverse.dropWhile isSpace).reverse

/-- The transcripts `result.alternatives[0].transcript`; `none` when a result has no
alternative, where the property read throws. -/
def firstTranscripts : List (List Alternative) → Option (List String)
  | [] => some []
  | [] :: _ => none
  | (a :: _) :: rest => (firstTranscripts rest).map (fun ts => a.transcript :: ts)

/-- Embedding of `SpeechService.speechToText(audioBuffer, callId)` for the outcome of the
remote recognition and the measured `duration`. -/
def speechToText (outcome : RecognizeOutcome) (duration : Nat) : SttResult :=
  match outcome with
  | .throws e => .failure e.message duration
  | .response results =>
    match firstTranscripts results with
    | none => .failure (typeErrorReading "transcript").message duration
    | some transcripts =>
      let transcription := String.mk (trimChars (joinWith [' '] (transcripts.map (fun t => t.data))))
      let confidence :=
        match results with
        | (a :: _) :: _ => a.confidence
        | _ => 0
      .success transcription confidence duration

/-- `SttResult.processingTime`. -/
def SttResult.processingTime : SttResult → Nat
  | .success _ _ t => t
  | .failure _ t => t

/-- What the synthesis and the file write yield: the generated file identifier, or a thrown
error. -/
inductive SynthOutcome where
  | audio (uuid : String) (audioSize : Nat)
  | throws (error : JsError)

/-- The object returned by `textToSpeech`. -/
inductive TtsResult where
  | success (audioUrl : String) (filename : String) (audioSize : Nat) (processingTime : Nat)
  | failure (error : Option String) (processingTime : Nat)
deriving DecidableEq

/-- Embedding of `SpeechService.textToSpeech(text, callId)` for the outcome of the remote
synthesis and the measured `duration`. -/
def textToSpeech (outcome : SynthOutcome) (callId : String) (duration : Nat) : TtsResult :=
  match outcome with
  | .audio uuid audioSize =>
    let filename := "response_" ++ callId ++ "_" ++ uuid ++ ".mp3"
    .success ("/uploads/responses/" ++ filename) filename audioSize duration
  | .throws e => .failure e.message duration

/-- `TtsResult.processingTime`. -/
def TtsResult.processingTime : TtsResult → Nat
  | .success _ _ _ t => t
  | .failure _ t => t


/-! ## Turn orchestrator (`routes/chat.js`) -/

/-- The validated request of `POST /`: `callId`, `mode` and the uploaded audio, if any. -/
structure ChatRequest where
  callId : String
  mode : String
  audio : Option (List Nat)

/-- What one turn takes from its surroundings: the request headers, the configured model,
the three remote services, the durations the services measure, and the clock readings of
the four synchronous stretches of the handler (on entry, after transcription, after
generation, after synthesis). -/
structure TurnEnv where
  userAgent : JsVal
  ip : JsVal
  model : String
  recognize : List Nat → RecognizeOutcome
  complete : List ApiMessage → RemoteOutcome
  synthesize : String → SynthOutcome
  sttDuration : Nat
  aiDuration : Nat
  ttsDuration : Nat
  t0 : Nat
  t1 : Nat
  t2 : Nat
  t3 : Nat

/-- The `processingTime` object of a turn response. -/
structure ProcessingTime where
  total : Nat
  stt : Nat
  ai : Nat
  tts : Nat
deriving DecidableEq

/-- The three bodies the handler sends: the turn result (`success: true`), the
"please repeat" result of a failed transcription (`success: false`, `transcript: null`,
`audioUrl: null`), and the internal error (status 500). -/
inductive ChatResponse where
  | turn (transcript : Option String) (response : String) (audioUrl : Option String)
      (conversationEnding : Bool) (processingTime : ProcessingTime)
  | noSpeech
  | internalError (total : Nat)
deriving DecidableEq

/-- The HTTP status of a response. -/
def ChatResponse.status : ChatResponse → Nat
  | .turn _ _ _ _ _ => 200
  | .noSpeech => 200
  | .internalError _ => 500

/-- The field `success`. -/
def ChatResponse.success : ChatResponse → Bool
  | .turn _ _ _ _ _ => true
  | .noSpeech => false
  | .internalError _ => false

/-- The field `error`. -/
def ChatResponse.error : ChatResponse → Option String
  | .turn _ _ _ _ _ => none
  | .noSpeech => some "Nu am detectat vorbire clară. Vă rog să încercați din nou."
  | .internalError _ => some "Eroare internă de server. Vă rog să încercați din nou."

/-- The field `transcript` (`none` for `null` or no such field). -/
def ChatResponse.transcript : ChatResponse → Option String
  | .turn transcript _ _ _ _ => transcript
  | .noSpeech => none
  | .internalError _ => none

/-- The field `response`. -/
def ChatResponse.reply : ChatResponse → Option String
  | .turn _ response _ _ _ => some response
  | .noSpeech => none
  | .internalError _ => none

/-- The field `audioUrl` (`none` for `null` or no such field). -/
def ChatResponse.audioUrl : ChatResponse → Option String
  | .turn _ _ audioUrl _ _ => audioUrl
  | .noSpeech => none
  | .internalError _ => none

/-- The field `conversationEnding`. -/
def ChatResponse.conversationEnding : ChatResponse → Option Bool
  | .turn _ _ _ ending _ => some ending
  | .noSpeech => none
  | .internalError _ => none

/-- A call to a remote service made during a turn. -/
inductive RemoteCall where
  | recognize (audio : List Nat)
  | complete (messages : List ApiMessage)
  | synthesize (text : String)
deriving DecidableEq

/-- A destruction scheduled with `setTimeout`: `endConversation(callId, reason)` after
`delay` milliseconds. -/
structure ScheduledEnd where
  callId : String
  reason : String
  delay : Nat
deriving DecidableEq

/-- What a turn produces besides the new store state. `generationInvoked` tells whether
`getResponse` was called. -/
structure TurnOutcome where
  response : ChatResponse
  calls : List RemoteCall
  generationInvoked : Bool
  appointment : Option AppointmentDetails
  scheduledEnd : Option ScheduledEnd
deriving DecidableEq

/-- The `catch` block of the handler at clock reading `now`. -/
def internalErrorOutcome (env : TurnEnv) (now : Nat) (calls : List RemoteCall)
    (generationInvoked : Bool) : TurnOutcome :=
  { response := .internalError (now - env.t0)
    calls := calls
    generationInvoked := generationInvoked
    appointment := none
    scheduledEnd := none }

/-- Lines 70-79: get the conversation or create it; the result is the handler's variable
`conversation`, a reference. -/
def resolveSession (mgr : ConversationManager) (req : ChatRequest) (env : TurnEnv) :
    ConversationManager × Nat :=
  match mgr.getConversation req.callId env.t0 with
  | (mgr', some ref) => (mgr', ref)
  | (mgr', none) =>
    mgr'.createConversation req.callId req.mode
      [("userAgent", env.userAgent), ("ip", env.ip)] env.t0

/-- The `stats` argument the handler passes to `updateConversationStats`. -/
def turnStatsPatch (env : TurnEnv) (stt : Option SttResult) (tts : TtsResult) : StatsPatch :=
  { messageCount := none
    audioProcessingTime :=
      some ((stt.map (fun r => r.processingTime)).getD 0 + tts.processingTime)
    totalDuration := some (env.t3 - env.t0) }

/-- The field `audioUrl` of the turn response: `ttsResult?.success ? ttsResult.audioUrl : null`. -/
def TtsResult.audioRef : TtsResult → Option String
  | .success audioUrl _ _ _ => some audioUrl
  | .failure _ _ => none

/-- Lines 142-179: the stats update, the ending detection with extraction and scheduled
destruction, and the response. -/
def finishTurn (mgr : ConversationManager) (ref : Nat) (req : ChatRequest) (env : TurnEnv)
    (userMessage : String) (stt : Option SttResult) (aiResult : AiResult)
    (aiResponse : String) (tts : TtsResult) (calls : List RemoteCall) :
    ConversationManager × TurnOutcome :=
  let totalDuration := env.t3 - env.t0
  let sttTime := (stt.map (fun r => r.processingTime)).getD 0
  let mgr' := (mgr.updateConversationStats req.callId (turnStatsPatch env stt tts) env.t3).1
  let isEnding := isConversationEnding aiResponse
  let response : ChatResponse :=
    .turn (if userMessage = "" then none else some userMessage) aiResponse tts.audioRef
      isEnding
      { total := totalDuration, stt := sttTime, ai := aiResult.processingTime,
        tts := tts.processingTime }
  if isEnding then
    match mgr'.deref ref with
    | none => (mgr', internalErrorOutcome env env.t3 calls true)
    | some conversation =>
      (mgr',
       { response := response
         calls := calls
         generationInvoked := true
         appointment := extractAppointmentDetails conversation req.mode
         scheduledEnd := some { callId := req.callId, reason := "completed", delay := 5000 } })
  else
    (mgr',
     { response := response
       calls := calls
       generationInvoked := true
       appointment := none
       scheduledEnd := none })

/-- The request `getResponse` sends for a conversation, if it gets to send one. -/
def generationCalls (conversation : Option Conversation) : List RemoteCall :=
  match conversation with
  | none => []
  | some c =>
    match buildMessages c with
    | .ok messages => [.complete messages]
    | .error _ => []

/-- Lines 109-140: generation, the assistant message (reply or fallback) and synthesis,
followed by the rest of the turn. -/
def generateAndReply (mgr : ConversationManager) (ref : Nat) (req : ChatRequest)
    (env : TurnEnv) (userMessage : String) (stt : Option SttResult)
    (calls : List RemoteCall) : ConversationManager × TurnOutcome :=
  let conversation := mgr.deref ref
  let calls := calls ++ generationCalls conversation
  match getResponse env.model env.complete env.aiDuration conversation with
  | .error _ => (mgr, internalErrorOutcome env env.t2 calls true)
  | .ok aiResult =>
    match mgr.addMessage req.callId "assistant" aiResult.replyText aiResult.annotations env.t2,
        aiResult.replyText with
    | (mgr', .ok _), some text =>
      let tts := textToSpeech (env.synthesize text) req.callId env.ttsDuration
      finishTurn mgr' ref req env userMessage stt aiResult text tts
        (calls ++ [.synthesize text])
    | (mgr', _), _ => (mgr', internalErrorOutcome env env.t2 calls true)

/-- Embedding of the handler of `POST /` for a validated request, run without any other
operation on the store between its stages. -/
def chatHandler (mgr : ConversationManager) (req : ChatRequest) (env : TurnEnv) :
    ConversationManager × TurnOutcome :=
  match resolveSession mgr req env with
  | (mgr₁, ref) =>
    match req.audio with
    | none => generateAndReply mgr₁ ref req env "" none []
    | some buffer =>
      let stt := speechToText (env.recognize buffer) env.sttDuration
      match stt with
      | .success transcript confidence processingTime =>
        if transcript ≠ "" then
          match mgr₁.addMessage req.callId "user" (some transcript)
              [("confidence", .num confidence), ("processingTime", .num processingTime)]
              env.t1 with
          | (mgr₂, .ok _) =>
            generateAndReply mgr₂ ref req env transcript (some stt) [.recognize buffer]
          | (mgr₂, .error _) =>
            (mgr₂, internalErrorOutcome env env.t1 [.recognize buffer] false)
        else
          (mgr₁,
           { response := .noSpeech
             calls := [.recognize buffer]
             generationInvoked := false
             appointment := none
             scheduledEnd := none })
      | .failure _ _ =>
        (mgr₁,
         { response := .noSpeech
           calls := [.recognize buffer]
           generationInvoked := false
           appointment := none
           scheduledEnd := none })


/-- The handler's reference `ref` is the conversation `c` that the `Map` holds under
`callId`. -/
def ConversationManager.Tracks (mgr : ConversationManager) (callId : String) (ref : Nat)
    (c : Conversation) : Prop :=
  findLive callId mgr.cells = some ref ∧ mgr.lookup callId = some c


/-- The assistant message the handler appends for the result of `getResponse`. -/
def assistantMessage (now : Nat) (aiResult : AiResult) (text : String) : Message :=
  { role := "assistant", content := some text, timestamp := now,
    metadata := aiResult.annotations }

/-- The conversation object once a turn has appended `message` at `env.t2` and updated the
stats at `env.t3`. -/
def Conversation.afterReply (c : Conversation) (env : TurnEnv) (stt : Option SttResult)
    (tts : TtsResult) (message : Message) : Conversation :=
  { c.push message env.t2 with
    stats := (c.push message env.t2).stats.assign (turnStatsPatch env stt tts)
    lastActivity := env.t3 }


/-- The handler's variable `transcriptResult`: `null` without audio, else the result of
`speechToText`. -/
def transcriptResult (req : ChatRequest) (env : TurnEnv) : Option SttResult :=
  req.audio.map (fun buffer => speechToText (env.recognize buffer) env.sttDuration)

/-- The handler's variable `userMessage`: the transcript when the request carries audio and
the transcription succeeded with a non-empty text, the empty text otherwise. -/
def userMessageText (req : ChatRequest) (env : TurnEnv) : String :=
  match transcriptResult req env with
  | some (.success transcript _ _) => transcript
  | _ => ""

/-- The test `transcriptResult.success && transcriptResult.transcript` fails: the request
carries audio and the transcription failed or gave the empty text. -/
def transcriptionFailed (req : ChatRequest) (env : TurnEnv) : Bool :=
  match transcriptResult req env with
  | none => false
  | some (.success transcript _ _) => decide (transcript = "")
  | some (.failure _ _) => true

/-- The user message a turn appends before generation, if any. -/
def userMessages (req : ChatRequest) (env : TurnEnv) : List Message :=
  match transcriptResult req env with
  | some (.success transcript confidence processingTime) =>
    if transcript ≠ "" then
      [{ role := "user", content := some transcript, timestamp := env.t1,
         metadata := [("confidence", .num confidence), ("processingTime", .num processingTime)] }]
    else []
  | _ => []

/-- The conversation object when generation starts: the resolved session with the user
message of the turn, if any, appended at `env.t1`. -/
def Conversation.atGeneration (c : Conversation) (req : ChatRequest) (env : TurnEnv) :
    Conversation :=
  (userMessages req env).foldl (fun c m => c.push m env.t1) c


/-! ## Routes (`routes/chat.js`) -/

/-- The fields `callId` and `mode` of a request body (`none` for a missing field). -/
structure ChatBody where
  callId : Option String
  mode : Option String
deriving DecidableEq

/-- Embedding of the middleware `validateChatRequest`: the validated `{ callId, mode }`, or
the error text of the status-400 answer. A missing or empty field is falsy. -/
def validateChatRequest (body : ChatBody) : Except String (String × String) :=
  match body.callId with
  | none => .error "callId este obligatoriu"
  | some callId =>
    if callId = "" then .error "callId este obligatoriu"
    else
      match body.mode with
      | none => .error "mode este obligatoriu"
      | some mode =>
        if mode = "" then .error "mode este obligatoriu"
        else if mode ∈ getAvailableModes then .ok (callId, mode)
        else .error ("Mode invalid. Moduri disponibile: " ++ ", ".intercalate getAvailableModes)

/-- What the route `POST /` answers: the status-400 rejection of the middleware, or the
outcome of the handler. -/
inductive RouteResult where
  | rejected (status : Nat) (error : String)
  | handled (outcome : TurnOutcome)
deriving DecidableEq

/-- Embedding of the route `POST /`: the middleware, then the handler. -/
def chatRoute (mgr : ConversationManager) (body : ChatBody) (audio : Option (List Nat))
    (env : TurnEnv) : ConversationManager × RouteResult :=
  match validateChatRequest body with
  | .error e => (mgr, .rejected 400 e)
  | .ok (callId, mode) =>
    let r := chatHandler mgr { callId := callId, mode := mode, audio := audio } env
    (r.1, .handled r.2)

/-- What the route `POST /reset` answers. -/
inductive ResetResponse where
  | rejected (status : Nat) (error : String)
  | done (message : String)
deriving DecidableEq

/-- Embedding of the route `POST /reset`. -/
def resetRoute (mgr : ConversationManager) (callId : Option String) :
    ConversationManager × ResetResponse :=
  match callId with
  | none => (mgr, .rejected 400 "callId este obligatoriu")
  | some callId =>
    if callId = "" then (mgr, .rejected 400 "callId este obligatoriu")
    else (mgr.endConversation callId "reset", .done "Conversația a fost resetată")

/-! ## A turn with other operations in between

While the handler awaits a remote service, timers and other requests run. `Interleaving`
gives what they do to the store during each of the three waits; conversation objects keep
their mode, so `getResponse` is read off the object as it was when the call started. -/

/-- What the rest of the program does to the store while the turn awaits the transcription,
the generation and the synthesis. -/
structure Interleaving where
  duringTranscription : ConversationManager → ConversationManager
  duringGeneration : ConversationManager → ConversationManager
  duringSynthesis : ConversationManager → ConversationManager

/-- Nothing happens during the waits. -/
def Interleaving.none : Interleaving :=
  { duringTranscription := fun m => m
    duringGeneration := fun m => m
    duringSynthesis := fun m => m }

/-- Lines 109-179 of the handler with the store operations that run during the waits. -/
def generateAndReplyInterleaved (mgr : ConversationManager) (ref : Nat) (req : ChatRequest)
    (env : TurnEnv) (between : Interleaving) (userMessage : String) (stt : Option SttResult)
    (calls : List RemoteCall) : ConversationManager × TurnOutcome :=
  let conversation := mgr.deref ref
  let calls := calls ++ generationCalls conversation
  let result := getResponse env.model env.complete env.aiDuration conversation
  let mgr₁ := between.duringGeneration mgr
  match result with
  | .error _ => (mgr₁, internalErrorOutcome env env.t2 calls true)
  | .ok aiResult =>
    match mgr₁.addMessage req.callId "assistant" aiResult.replyText aiResult.annotations env.t2,
        aiResult.replyText with
    | (mgr₂, .ok _), some text =>
      let tts := textToSpeech (env.synthesize text) req.callId env.ttsDuration
      finishTurn (between.duringSynthesis mgr₂) ref req env userMessage stt aiResult text tts
        (calls ++ [.synthesize text])
    | (mgr₂, _), _ => (mgr₂, internalErrorOutcome env env.t2 calls true)

/-- The handler of `POST /` with the store operations that run during its waits. -/
def chatHandlerInterleaved (mgr : ConversationManager) (req : ChatRequest) (env : TurnEnv)
    (between : Interleaving) : ConversationManager × TurnOutcome :=
  match resolveSession mgr req env with
  | (mgr₁, ref) =>
    match req.audio with
    | none => generateAndReplyInterleaved mgr₁ ref req env between "" none []
    | some buffer =>
      let stt := speechToText (env.recognize buffer) env.sttDuration
      let mgr₂ := between.duringTranscription mgr₁
      match stt with
      | .success transcript confidence processingTime =>
        if transcript ≠ "" then
          match mgr₂.addMessage req.callId "user" (some transcript)
              [("confidence", .num confidence), ("processingTime", .num processingTime)]
              env.t1 with
          | (mgr₃, .ok _) =>
            generateAndReplyInterleaved mgr₃ ref req env between transcript (some stt)
              [.recognize buffer]
          | (mgr₃, .error _) =>
            (mgr₃, internalErrorOutcome env env.t1 [.recognize buffer] false)
        else
          (mgr₂,
           { response := .noSpeech
             calls := [.recognize buffer]
             generationInvoked := false
             appointment := none
             scheduledEnd := none })
      | .failure _ _ =>
        (mgr₂,
         { response := .noSpeech
           calls := [.recognize buffer]
           generationInvoked := false
           appointment := none
           scheduledEnd := none })

/-! ## Sequences of store operations -/

/-- The operations that work on existing sessions: `getConversation`, `addMessage`,
`updateConversationStats`, and a chat turn. -/
inductive StoreOp where
  | get (callId : String) (now : Nat)
  | addMessage (callId role : String) (content : Option String) (metadata : JsObj) (now : Nat)
  | updateStats (callId : String) (patch : StatsPatch) (now : Nat)
  | turn (req : ChatRequest) (env : TurnEnv)

/-- The store after one operation. -/
def StoreOp.apply (op : StoreOp) (mgr : ConversationManager) : ConversationManager :=
  match op with
  | .get callId now => (mgr.getConversation callId now).1
  | .addMessage callId role content metadata now =>
    (mgr.addMessage callId role content metadata now).1
  | .updateStats callId patch now => (mgr.updateConversationStats callId patch now).1
  | .turn req env => (chatHandler mgr req env).1

/-- The store after a sequence of operations. -/
def runOps (ops : List StoreOp) (mgr : ConversationManager) : ConversationManager :=
  ops.foldl (fun m op => op.apply m) mgr

/-- The session `c'` is the session `c` at a later time: same id, mode, start time and
metadata, and the messages of `c` come first in `c'`. -/
def Conversation.Continues (c' c : Conversation) : Prop :=
  c'.id = c.id ∧ c'.mode = c.mode ∧ c'.startTime = c.startTime ∧ c'.metadata = c.metadata ∧
  c.messages <+: c'.messages

/-- Every session held by `m` is still held by `m'` under the same identifier. -/
def ConversationManager.Extends (m' m : ConversationManager) : Prop :=
  ∀ id c, m.lookup id = some c → ∃ c', m'.lookup id = some c' ∧ c'.Continues c

/-! ## Sample sessions -/

/-- The greeting the dental prompt prescribes for the first reply. -/
def dentalGreeting : String :=
  "Bună ziua! Ați sunat la Clinica Dinți de Fier. Sunt Andra, asistenta virtuală. Cu ce vă pot ajuta astăzi?"

/-- A dental session with the given dialogue of (role, content) pairs. -/
def dentalSession (dialogue : List (String × String)) : Conversation :=
  { id := "call-1"
    mode := "dental"
    messages := dialogue.map (fun p =>
      { role := p.1, content := some p.2, timestamp := 0, metadata := [] })
    startTime := 0
    lastActivity := 0
    metadata := []
    stats := { messageCount := dialogue.length, audioProcessingTime := 0, totalDuration := 0 } }


/-- A dental session holding `n` alternating assistant/user messages. -/
def sampleSession (n : Nat) : Conversation :=
  { id := "call-1"
    mode := "dental"
    messages := (List.range n).map (fun i =>
      { role := if i % 2 = 0 then "assistant" else "user"
        content := some "text"
        timestamp := i
        metadata := [] })
    startTime := 0
    lastActivity := n
    metadata := []
    stats := { messageCount := n, audioProcessingTime := 0, totalDuration := 0 } }

/-- A dental session with two messages and the stats of an earlier turn: 100 ms of turn
duration, 40 ms of audio processing. -/
def statsSession : Conversation :=
  { sampleSession 2 with
    stats := { messageCount := 2, audioProcessingTime := 40, totalDuration := 100 } }

/-- A store holding `statsSession` under `call-1`. -/
def statsStore : ConversationManager :=
  { cells := [{ live := true, conv := statsSession }], events := [] }

/-- A store with a session `old`, last active at time 0, and a session `fresh`, last active
at time 1900000. -/
def sweepStore : ConversationManager :=
  { cells :=
      [{ live := true, conv := { sampleSession 2 with id := "old", lastActivity := 0 } },
       { live := true, conv := { sampleSession 1 with id := "fresh", lastActivity := 1900000 } }]
    events := [] }

/-! ## Sample turns -/

/-- A turn environment with the given remote services; every duration is 5 ms and the
clock readings are 100, 110, 120 and 130. -/
def sampleEnv (recognize : List Nat → RecognizeOutcome)
    (complete : List ApiMessage → RemoteOutcome) (synthesize : String → SynthOutcome) :
    TurnEnv :=
  { userAgent := .str "agent", ip := .str "127.0.0.1", model := "microsoft/mai-ds-r1:free"
    recognize := recognize, complete := complete, synthesize := synthesize
    sttDuration := 5, aiDuration := 5, ttsDuration := 5
    t0 := 100, t1 := 110, t2 := 120, t3 := 130 }

/-- A request of mode dental for `call-1`, with or without audio. -/
def sampleRequest (audio : Option (List Nat)) : ChatRequest :=
  { callId := "call-1", mode := "dental", audio := audio }

/-- The error of a request that timed out. -/
def timeoutError : JsError :=
  { code := some "ECONNABORTED", message := some "timeout of 30000ms exceeded",
    status := none }

/-- The error of a failed remote call. -/
def serviceError : JsError :=
  { code := none, message := some "service unavailable", status := some 503 }


/-- A turn environment whose generation takes more than half an hour: the turn starts at
time 100 and the generation returns at time 2000200. -/
def slowEnv : TurnEnv :=
  { sampleEnv (fun _ => .throws serviceError) (fun _ => .reply dentalGreeting .null)
      (fun _ => .audio "u1" 10) with
    t2 := 2000200, t3 := 2000300 }

/-- The idle sweep runs at time 2000000, while the turn awaits the generation. -/
def sweepDuringGeneration : Interleaving :=
  { Interleaving.none with
    duringGeneration := fun m => (m.cleanupOldConversations 2000000).1 }

/-- The session of `callId` is ended with reason "timeout" while the turn awaits the
generation. -/
def evictDuringGeneration (callId : String) : Interleaving :=
  { Interleaving.none with
    duringGeneration := fun m => m.endConversation callId "timeout" }

/-- The field `success` of the object returned by `getResponse`. -/
def AiResult.succeeded : AiResult → Bool
  | .success _ _ _ _ => true
  | .failure _ _ _ => false


/-- The error of a request refused with status 429. -/
def rateLimitError : JsError :=
  { code := none, message := some "Request failed with status code 429", status := some 429 }


/-- A session created under `mode` that holds one user message asking for a consultation. -/
def bookingSession (mode : String) : Conversation :=
  { id := "call-1"
    mode := mode
    messages :=
      [{ role := "user", content := some "Vreau o consultație pe 5 martie", timestamp := 0,
         metadata := [] }]
    startTime := 0
    lastActivity := 0
    metadata := []
    stats := { messageCount := 1, audioProcessingTime := 0, totalDuration := 0 } }

/-- A store holding `bookingSession mode` under `call-1`. -/
def bookingStore (mode : String) : ConversationManager :=
  { cells := [{ live := true, conv := bookingSession mode }], events := [] }

/-- A turn environment whose generation replies with a farewell. -/
def closingEnv : TurnEnv :=
  sampleEnv (fun _ => .throws serviceError) (fun _ => .reply "La revedere!" .null)
    (fun _ => .audio "u1" 10)

/-- A request without audio for `call-1` carrying `mode`. -/
def modeRequest (mode : String) : ChatRequest :=
  { callId := "call-1", mode := mode, audio := none }


/-! ## Deferred destruction

The handler schedules `endConversation(callId, 'completed')` with `setTimeout`; the callback
runs on the store as it is when the timer fires. -/

/-- The callback of a scheduled destruction, run on the store `mgr` the timer finds. -/
def ScheduledEnd.fire (s : ScheduledEnd) (mgr : ConversationManager) : ConversationManager :=
  mgr.endConversation s.callId s.reason

/-- A request served during the grace delay: a chat turn or a reset. -/
inductive GraceOp where
  | turn (req : ChatRequest) (env : TurnEnv)
  | reset (callId : Option String)

/-- The store after one request of the grace delay. -/
def GraceOp.apply (op : GraceOp) (mgr : ConversationManager) : ConversationManager :=
  match op with
  | .turn req env => (chatHandler mgr req env).1
  | .reset callId => (resetRoute mgr callId).1

/-- The store after the requests of the grace delay. -/
def runGrace (ops : List GraceOp) (mgr : ConversationManager) : ConversationManager :=
  ops.foldl (fun m op => op.apply m) mgr

/-- A turn environment whose generation replies with the dental greeting. -/
def greetingEnv : TurnEnv :=
  sampleEnv (fun _ => .throws serviceError) (fun _ => .reply dentalGreeting .null)
    (fun _ => .audio "u2" 10)


/-! ## Message count -/

/-- The session held under `id`, if any, counts as many messages as it holds. -/
def ConversationManager.CountedAt (mgr : ConversationManager) (id : String) : Prop :=
  ∀ c, mgr.lookup id = some c → c.stats.messageCount = c.messages.length


/-! # Properties -/

/-! ## Context window (`buildMessages`) -/

theorem getSystemPrompt_registered (mode : String) (h : mode ∈ getAvailableModes) :
    ∃ prompt, getSystemPrompt mode = .ok (some prompt) := by
  simp only [getAvailableModes, List.mem_cons, List.mem_singleton, List.not_mem_nil,
    or_false] at h
  rcases h with h | h | h <;> subst h
  · exact ⟨dentalPrompt, rfl⟩
  · exact ⟨teleshoppingPrompt, by simp [getSystemPrompt]⟩
  · exact ⟨tarotPrompt, by simp [getSystemPrompt]⟩

theorem buildMessages_of_prompt (c : Conversation) (p : Option String)
    (hp : getSystemPrompt c.mode = .ok p) :
    buildMessages c = .ok (({ role := "system", content := p } : ApiMessage) ::
      (if c.messages.length = 0 then
          [({ role := "user", content := some "START_CONVERSATIE" } : ApiMessage)]
        else if 19 < c.messages.length then
          (c.messages.drop (c.messages.length - 19)).map Message.toApi
        else c.messages.map Message.toApi)) := by
  unfold buildMessages
  rw [hp]
  by_cases h0 : c.messages.length = 0
  · simp [h0]
  · by_cases h19 : 19 < c.messages.length
    · have hdrop : (c.messages.length + 1 - 19) = (c.messages.length - 19) + 1 := by omega
      simp [h0, h19, sliceLast, hdrop, List.map_drop]
    · simp [h0, h19]
      intro h
      omega

/-- C1. Sliding context window: for a session of a registered mode the generation input
is the system message carrying the persona prompt followed by at most 19 entries (so at
most 20 in all); when the history has more than 19 messages, those entries are exactly the
last 19 messages of the history, in order. -/
theorem buildMessages_sliding_window (c : Conversation)
    (hmode : c.mode ∈ getAvailableModes) :
    ∃ prompt rest,
      getSystemPrompt c.mode = .ok (some prompt) ∧
      buildMessages c = .ok (({ role := "system", content := some prompt } : ApiMessage) :: rest) ∧
      rest.length + 1 ≤ 20 ∧
      (19 < c.messages.length →
        rest.length = 19 ∧
        rest = (c.messages.drop (c.messages.length - 19)).map Message.toApi) := by
  obtain ⟨prompt, hp⟩ := getSystemPrompt_registered c.mode hmode
  refine ⟨prompt, _, hp, buildMessages_of_prompt c (some prompt) hp, ?_, ?_⟩
  · by_cases h0 : c.messages.length = 0
    · simp [h0]
    · by_cases h19 : 19 < c.messages.length
      · simp [h0, h19]; omega
      · simp [h0, h19]; omega
  · intro h19
    have h0 : c.messages.length ≠ 0 := by omega
    simp [h0, h19]
    omega

theorem buildMessages_sliding_window_witness :
    (sampleSession 21).mode ∈ getAvailableModes ∧
    ∃ prompt rest,
      getSystemPrompt (sampleSession 21).mode = .ok (some prompt) ∧
      buildMessages (sampleSession 21) =
        .ok (({ role := "system", content := some prompt } : ApiMessage) :: rest) ∧
      rest.length + 1 ≤ 20 ∧
      (19 < (sampleSession 21).messages.length →
        rest.length = 19 ∧
        rest = ((sampleSession 21).messages.drop
          ((sampleSession 21).messages.length - 19)).map Message.toApi) :=
  ⟨by decide, buildMessages_sliding_window (sampleSession 21) (by decide)⟩

/-- C2. Ordering and begin marker: for a session of a registered mode whose history has at
most 19 messages, the generation input is the system message carrying the mode's prompt
followed by the (role, content) of every history message in order; for an empty history it
is the system message followed by the single user message "START_CONVERSATIE"; in both
cases it has at least two entries. -/
theorem buildMessages_order_and_marker (c : Conversation)
    (hmode : c.mode ∈ getAvailableModes) (hfit : c.messages.length ≤ 19) :
    ∃ prompt input,
      getSystemPrompt c.mode = .ok (some prompt) ∧
      buildMessages c = .ok input ∧
      2 ≤ input.length ∧
      (c.messages ≠ [] →
        input = ({ role := "system", content := some prompt } : ApiMessage) ::
          c.messages.map (fun m => ({ role := m.role, content := m.content } : ApiMessage))) ∧
      (c.messages = [] →
        input = [({ role := "system", content := some prompt } : ApiMessage),
                 ({ role := "user", content := some "START_CONVERSATIE" } : ApiMessage)]) := by
  obtain ⟨prompt, hp⟩ := getSystemPrompt_registered c.mode hmode
  refine ⟨prompt, _, hp, buildMessages_of_prompt c (some prompt) hp, ?_, ?_, ?_⟩
  · by_cases h0 : c.messages.length = 0
    · simp [h0]
    · have h19 : ¬ 19 < c.messages.length := by omega
      simp [h0, h19]
      omega
  · intro hne
    have h0 : c.messages.length ≠ 0 := by
      intro h; exact hne (List.length_eq_zero.mp h)
    have h19 : ¬ 19 < c.messages.length := by omega
    simp [h0, h19]
    intro a _
    rfl
  · intro he
    simp [he]

theorem buildMessages_order_and_marker_witness :
    (sampleSession 3).mode ∈ getAvailableModes ∧ (sampleSession 3).messages.length ≤ 19 ∧
    ∃ prompt input,
      getSystemPrompt (sampleSession 3).mode = .ok (some prompt) ∧
      buildMessages (sampleSession 3) = .ok input ∧
      2 ≤ input.length ∧
      ((sampleSession 3).messages ≠ [] →
        input = ({ role := "system", content := some prompt } : ApiMessage) ::
          (sampleSession 3).messages.map
            (fun m => ({ role := m.role, content := m.content } : ApiMessage))) ∧
      ((sampleSession 3).messages = [] →
        input = [({ role := "system", content := some prompt } : ApiMessage),
                 ({ role := "user", content := some "START_CONVERSATIE" } : ApiMessage)]) :=
  ⟨by decide, by decide, buildMessages_order_and_marker (sampleSession 3) (by decide) (by decide)⟩

/-! ## Ending detection (`isConversationEnding`) -/

theorem includesChars_iff_occurs (s t : List Char) :
    includesChars s t = true ↔ t <:+: s := by
  induction s with
  | nil =>
    simp only [includesChars, List.isPrefixOf_iff_prefix, List.prefix_nil, List.infix_nil]
  | cons c r ih =>
    simp only [includesChars, Bool.or_eq_true, List.isPrefixOf_iff_prefix, ih,
      List.infix_cons_iff]

theorem includes_iff_occurs (s t : String) :
    includes s t = true ↔ t.data <:+: s.data :=
  includesChars_iff_occurs s.data t.data

/-- C3. Ending detection: `isConversationEnding t` holds exactly when the lower-cased `t`
contains, as a substring, a phrase of the dental, teleshopping or tarot ending-phrase set;
the function takes no session mode; and the reply
"Vă mulțumesc pentru apel, o zi bună!" is detected as ending. -/
theorem isConversationEnding_iff_contains_phrase :
    (∀ t : String, isConversationEnding t = true ↔
      ∃ phrase : String,
        (phrase ∈ endingPhrasesDental ∨ phrase ∈ endingPhrasesTeleshopping ∨
          phrase ∈ endingPhrasesTarot) ∧
        phrase.data <:+: (toLowerCase t).data) ∧
    isConversationEnding "Vă mulțumesc pentru apel, o zi bună!" = true := by
  refine ⟨fun t => ?_, by decide⟩
  unfold isConversationEnding allPhrases
  simp only [List.any_eq_true, List.mem_append, includes_iff_occurs, or_assoc]

/-! ## Outcome extraction (`extractAppointmentDetails`) -/

theorem starts_of_append_sep (nl : Char) (a b : List Char) :
    ∀ w : List Char, nl ∉ w → w <+: a ++ nl :: b → w <+: a := by
  induction a with
  | nil =>
    intro w hnl h
    rcases List.prefix_cons_iff.mp h with h | ⟨t, ht, _⟩
    · subst h; exact List.prefix_refl _
    · subst ht; simp at hnl
  | cons x a ih =>
    intro w hnl h
    rw [List.cons_append] at h
    rcases List.prefix_cons_iff.mp h with h | ⟨t, ht, hpre⟩
    · subst h; exact List.nil_prefix
    · subst ht
      have hnl' : nl ∉ t := fun hm => hnl (List.mem_cons_of_mem _ hm)
      exact List.prefix_cons_iff.mpr (Or.inr ⟨t, rfl, ih t hnl' hpre⟩)

theorem occurs_of_append_sep (nl : Char) (w : List Char) (hnl : nl ∉ w)
    (a b : List Char) : w <:+: a ++ nl :: b → w <:+: a ∨ w <:+: b := by
  induction a with
  | nil =>
    intro h
    rw [List.nil_append] at h
    rcases List.infix_cons_iff.mp h with h | h
    · exact Or.inl (starts_of_append_sep nl [] b w hnl h).isInfix
    · exact Or.inr h
  | cons x a ih =>
    intro h
    rw [List.cons_append] at h
    rcases List.infix_cons_iff.mp h with h | h
    · rw [← List.cons_append] at h
      exact Or.inl (starts_of_append_sep nl (x :: a) b w hnl h).isInfix
    · rcases ih h with h | h
      · exact Or.inl (List.infix_cons_iff.mpr (Or.inr h))
      · exact Or.inr h

theorem occurs_joinWith_iff (nl : Char) (w : List Char) (hnl : nl ∉ w) (hw : w ≠ []) :
    ∀ parts : List (List Char),
      w <:+: joinWith [nl] parts ↔ ∃ p ∈ parts, w <:+: p := by
  intro parts
  induction parts with
  | nil => simp [joinWith, hw]
  | cons p rest ih =>
    cases rest with
    | nil => simp [joinWith]
    | cons q rest =>
      simp only [joinWith, List.append_assoc, List.singleton_append]
      constructor
      · intro h
        rcases occurs_of_append_sep nl w hnl p _ h with h | h
        · exact ⟨p, List.mem_cons_self _ _, h⟩
        · obtain ⟨p', hp', hin⟩ := ih.mp h
          exact ⟨p', List.mem_cons_of_mem _ hp', hin⟩
      · rintro ⟨p', hp', hin⟩
        rcases List.mem_cons.mp hp' with h | h
        · subst h
          exact hin.trans (List.infix_append' [] p' _)
        · have h2 : w <:+: joinWith [nl] (q :: rest) := ih.mpr ⟨p', h, hin⟩
          exact h2.trans ⟨p ++ [nl], [], by simp⟩

theorem toLowerChars_joinWith (parts : List (List Char)) :
    toLowerChars (joinWith ['\n'] parts) = joinWith ['\n'] (parts.map toLowerChars) := by
  induction parts with
  | nil => rfl
  | cons p rest ih =>
    cases rest with
    | nil => rfl
    | cons q rest =>
      simp only [joinWith, List.map_cons] at ih ⊢
      rw [← ih]
      simp [toLowerChars, List.flatMap_append]
      rfl

theorem dialogueText_data (c : Conversation) :
    (dialogueText c).data =
      joinWith ['\n'] (c.messages.map (fun m => toLowerChars (m.content.getD "").data)) := by
  simp [dialogueText, toLowerCase, joinContents, toLowerChars_joinWith, List.map_map,
    Function.comp_def]

theorem includes_dialogueText_iff (c : Conversation) (w : String)
    (hnl : '\n' ∉ w.data) (hw : w.data ≠ []) :
    includes (dialogueText c) w = true ↔
      ∃ m ∈ c.messages, w.data <:+: (toLowerCase (m.content.getD "")).data := by
  rw [includes_iff_occurs, dialogueText_data, occurs_joinWith_iff '\n' w.data hnl hw]
  simp [toLowerCase]

/-- C4. Presence of the extraction record: for a mode other than "dental" the result is
absent; for mode "dental" a record is returned exactly when the date pattern or the time
pattern matches the lower-cased concatenation of the message contents. -/
theorem extractAppointmentDetails_isSome_iff (c : Conversation) (mode : String) :
    (mode ≠ "dental" → extractAppointmentDetails c mode = none) ∧
    ((extractAppointmentDetails c "dental").isSome = true ↔
      ((jsMatch datePattern (dialogueText c).data).isSome = true ∨
       (jsMatch timePattern (dialogueText c).data).isSome = true)) ∧
    ((jsMatch datePattern (dialogueText c).data).isSome = false →
      (jsMatch timePattern (dialogueText c).data).isSome = false →
      extractAppointmentDetails c "dental" = none) := by
  refine ⟨fun h => by simp [extractAppointmentDetails, h], ?_, ?_⟩
  · unfold extractAppointmentDetails
    by_cases h : (jsMatch datePattern (dialogueText c).data).isSome = true ∨
        (jsMatch timePattern (dialogueText c).data).isSome = true
    · simp [h]
    · simp [h]
  · intro hd ht
    unfold extractAppointmentDetails
    simp [hd, ht]

theorem extractAppointmentDetails_isSome_iff_witness :
    "tarot" ≠ "dental" ∧
    extractAppointmentDetails (dentalSession [("user", "ora 10 pe 5 martie")]) "tarot" = none ∧
    (jsMatch datePattern (dialogueText (dentalSession [("user", "un control")])).data).isSome
      = false ∧
    (jsMatch timePattern (dialogueText (dentalSession [("user", "un control")])).data).isSome
      = false ∧
    (jsMatch servicePattern (dialogueText (dentalSession [("user", "un control")])).data).isSome
      = true ∧
    extractAppointmentDetails (dentalSession [("user", "un control")]) "dental" = none :=
  ⟨by decide,
   (extractAppointmentDetails_isSome_iff
      (dentalSession [("user", "ora 10 pe 5 martie")]) "tarot").1 (by decide),
   by decide, by decide, by decide,
   (extractAppointmentDetails_isSome_iff
      (dentalSession [("user", "un control")]) "dental").2.2 (by decide) (by decide)⟩

/-- C5. Confirmation flag: when a record is returned, `confirmed` is true exactly when
"programat" or "confirmat" occurs, in any letter case, in the content of at least one message
of the dialogue. -/
theorem extractAppointmentDetails_confirmed_iff (c : Conversation) (mode : String)
    (r : AppointmentDetails) (h : extractAppointmentDetails c mode = some r) :
    r.confirmed = true ↔
      ∃ m ∈ c.messages, ∃ t : String, m.content = some t ∧
        ("programat".data <:+: (toLowerCase t).data ∨
         "confirmat".data <:+: (toLowerCase t).data) := by
  have hconf : r.confirmed =
      (includes (dialogueText c) "programat" || includes (dialogueText c) "confirmat") := by
    unfold extractAppointmentDetails at h
    split at h
    · exact absurd h (by simp)
    · simp only at h
      split at h
      · injection h with h
        rw [← h]
      · exact absurd h (by simp)
  rw [hconf, Bool.or_eq_true,
    includes_dialogueText_iff c "programat" (by decide) (by decide),
    includes_dialogueText_iff c "confirmat" (by decide) (by decide)]
  have hempty : ∀ w : String, w.data ≠ [] → ¬ w.data <:+: (toLowerCase "").data := by
    intro w hw hin
    have : (toLowerCase "").data = [] := rfl
    rw [this, List.infix_nil] at hin
    exact hw hin
  constructor
  · rintro (⟨m, hm, hin⟩ | ⟨m, hm, hin⟩)
    · cases hc : m.content with
      | none => rw [hc] at hin; exact absurd hin (hempty _ (by decide))
      | some t => rw [hc] at hin; exact ⟨m, hm, t, hc, Or.inl hin⟩
    · cases hc : m.content with
      | none => rw [hc] at hin; exact absurd hin (hempty _ (by decide))
      | some t => rw [hc] at hin; exact ⟨m, hm, t, hc, Or.inr hin⟩
  · rintro ⟨m, hm, t, ht, hin | hin⟩
    · exact Or.inl ⟨m, hm, by rw [ht]; exact hin⟩
    · exact Or.inr ⟨m, hm, by rw [ht]; exact hin⟩

theorem extractAppointmentDetails_confirmed_iff_witness :
    extractAppointmentDetails (dentalSession [("assistant", "V-am PROGRAMAT pe 5 martie")])
        "dental" =
      some { date := some "5 martie", time := none, service := "Consultație generală",
             confirmed := true } ∧
    (({ date := some "5 martie", time := none, service := "Consultație generală",
        confirmed := true } : AppointmentDetails).confirmed = true ↔
      ∃ m ∈ (dentalSession [("assistant", "V-am PROGRAMAT pe 5 martie")]).messages,
        ∃ t : String, m.content = some t ∧
          ("programat".data <:+: (toLowerCase t).data ∨
           "confirmat".data <:+: (toLowerCase t).data)) :=
  ⟨by decide,
   extractAppointmentDetails_confirmed_iff
     (dentalSession [("assistant", "V-am PROGRAMAT pe 5 martie")]) "dental" _ (by decide)⟩

theorem extractAppointmentDetails_congr (c₁ c₂ : Conversation) (mode : String)
    (h : c₁.messages.map (fun m => m.content) = c₂.messages.map (fun m => m.content)) :
    extractAppointmentDetails c₁ mode = extractAppointmentDetails c₂ mode := by
  have ht : dialogueText c₁ = dialogueText c₂ := by
    unfold dialogueText
    rw [h]
  unfold extractAppointmentDetails
  rw [ht]

set_option maxRecDepth 100000 in
/-- C6. Extraction scenario: for a dental session whose dialogue is the dental greeting
(assistant), as prescribed by the dental prompt, followed by the user message
"Vreau o consultație pe 5 martie", the extractor returns the record with date "5 martie",
no time, service "consultație" and confirmed false. -/
theorem extractAppointmentDetails_scenario (c : Conversation) (hmode : c.mode = "dental")
    (hdialogue : c.messages.map (fun m => (m.role, m.content)) =
      [("assistant", some dentalGreeting),
       ("user", some "Vreau o consultație pe 5 martie")]) :
    includes dentalPrompt dentalGreeting = true ∧
    extractAppointmentDetails c c.mode =
      some { date := some "5 martie", time := none, service := "consultație",
             confirmed := false } := by
  refine ⟨by decide, ?_⟩
  have hc : c.messages.map (fun m => m.content) =
      (dentalSession [("assistant", dentalGreeting),
        ("user", "Vreau o consultație pe 5 martie")]).messages.map (fun m => m.content) := by
    have := congrArg (List.map Prod.snd) hdialogue
    simpa [List.map_map, Function.comp_def, dentalSession] using this
  rw [hmode, extractAppointmentDetails_congr c _ "dental" hc]
  decide

theorem extractAppointmentDetails_scenario_witness :
    (dentalSession [("assistant", dentalGreeting),
      ("user", "Vreau o consultație pe 5 martie")]).mode = "dental" ∧
    includes dentalPrompt dentalGreeting = true ∧
    extractAppointmentDetails
        (dentalSession [("assistant", dentalGreeting),
          ("user", "Vreau o consultație pe 5 martie")])
        (dentalSession [("assistant", dentalGreeting),
          ("user", "Vreau o consultație pe 5 martie")]).mode =
      some { date := some "5 martie", time := none, service := "consultație",
             confirmed := false } :=
  ⟨rfl, extractAppointmentDetails_scenario
    (dentalSession [("assistant", dentalGreeting), ("user", "Vreau o consultație pe 5 martie")])
    rfl rfl⟩

/-! ## Failure classification (`generateFallbackResponse`, `getResponse`) -/

theorem fallbackResponses_registered (mode : String) (h : mode ∈ getAvailableModes) :
    ∃ texts, fallbackResponses mode = some texts := by
  simp only [getAvailableModes, List.mem_cons, List.mem_singleton, List.not_mem_nil,
    or_false] at h
  rcases h with h | h | h <;> subst h
  · exact ⟨_, rfl⟩
  · simp [fallbackResponses]
  · simp [fallbackResponses]

theorem generateFallbackResponse_of_texts (mode : String) (texts : FallbackTexts)
    (ht : fallbackResponses mode = some texts) (error : JsError) (message : String)
    (hm : error.message = some message) :
    generateFallbackResponse error mode =
      .ok (some
        (if error.code = some "ECONNABORTED" ∨ "timeout".data <:+: message.data then
          texts.timeout
        else if error.status = some 429 then texts.rateLimit
        else texts.defaultText)) := by
  unfold generateFallbackResponse modeResponses
  rw [ht, hm]
  by_cases hc : error.code = some "ECONNABORTED"
  · simp [hc]
  · by_cases hi : includes message "timeout" = true
    · have hi' := (includes_iff_occurs _ _).mp hi
      simp [hc, hi, hi']
    · have hi' : ¬ "timeout".data <:+: message.data := fun h =>
        hi ((includes_iff_occurs _ _).mpr h)
      by_cases hs : error.status = some 429
      · simp [hc, hi, hi', hs]
      · simp [hc, hi, hi', hs]

/-- C7. Failure classification: for a registered mode and an error carrying a string
message, `generateFallbackResponse` returns a text and does not throw: the mode's timeout
text when the code is `ECONNABORTED` or the message contains "timeout", otherwise the
rate-limit text when the status is 429, otherwise the default text. A failure that is both
a timeout and a 429 gets the timeout text, and `getResponse` hands the text over in a
failure result instead of rejecting. -/
theorem generateFallbackResponse_classifies (mode : String)
    (hmode : mode ∈ getAvailableModes) :
    ∃ texts : FallbackTexts,
      fallbackResponses mode = some texts ∧
      (∀ (error : JsError) (message : String), error.message = some message →
        generateFallbackResponse error mode =
          .ok (some
            (if error.code = some "ECONNABORTED" ∨ "timeout".data <:+: message.data then
              texts.timeout
            else if error.status = some 429 then texts.rateLimit
            else texts.defaultText))) ∧
      (∀ (error : JsError) (message : String), error.message = some message →
        (error.code = some "ECONNABORTED" ∨ "timeout".data <:+: message.data) →
        error.status = some 429 →
        generateFallbackResponse error mode = .ok (some texts.timeout)) ∧
      (∀ (c : Conversation) (model : String) (complete : List ApiMessage → RemoteOutcome)
          (duration : Nat) (error : JsError) (message : String) (input : List ApiMessage),
        c.mode = mode → buildMessages c = .ok input → complete input = .throws error →
        error.message = some message →
        getResponse model complete duration (some c) =
          .ok (.failure (some message)
            (some
              (if error.code = some "ECONNABORTED" ∨ "timeout".data <:+: message.data then
                texts.timeout
              else if error.status = some 429 then texts.rateLimit
              else texts.defaultText)) duration)) := by
  obtain ⟨texts, ht⟩ := fallbackResponses_registered mode hmode
  refine ⟨texts, ht, ?_, ?_, ?_⟩
  · intro error message hm
    exact generateFallbackResponse_of_texts mode texts ht error message hm
  · intro error message hm hto _
    rw [generateFallbackResponse_of_texts mode texts ht error message hm, if_pos hto]
  · intro c model complete duration error message input hc hb hthrow hm
    unfold getResponse
    simp only [hb, hthrow, getResponseCatch, hc]
    rw [generateFallbackResponse_of_texts mode texts ht error message hm, hm]

theorem generateFallbackResponse_classifies_witness :
    "teleshopping" ∈ getAvailableModes ∧
    ∃ texts : FallbackTexts,
      fallbackResponses "teleshopping" = some texts ∧
      (∀ (error : JsError) (message : String), error.message = some message →
        generateFallbackResponse error "teleshopping" =
          .ok (some
            (if error.code = some "ECONNABORTED" ∨ "timeout".data <:+: message.data then
              texts.timeout
            else if error.status = some 429 then texts.rateLimit
            else texts.defaultText))) ∧
      (∀ (error : JsError) (message : String), error.message = some message →
        (error.code = some "ECONNABORTED" ∨ "timeout".data <:+: message.data) →
        error.status = some 429 →
        generateFallbackResponse error "teleshopping" = .ok (some texts.timeout)) ∧
      (∀ (c : Conversation) (model : String) (complete : List ApiMessage → RemoteOutcome)
          (duration : Nat) (error : JsError) (message : String) (input : List ApiMessage),
        c.mode = "teleshopping" → buildMessages c = .ok input →
        complete input = .throws error →
        error.message = some message →
        getResponse model complete duration (some c) =
          .ok (.failure (some message)
            (some
              (if error.code = some "ECONNABORTED" ∨ "timeout".data <:+: message.data then
                texts.timeout
              else if error.status = some 429 then texts.rateLimit
              else texts.defaultText)) duration)) :=
  ⟨by decide, generateFallbackResponse_classifies "teleshopping" (by decide)⟩

/-! ## Session store -/

theorem findLive_eq_none_iff (callId : String) (cells : List Cell) :
    findLive callId cells = none ↔ lookupLive callId cells = none := by
  induction cells with
  | nil => simp [findLive, lookupLive]
  | cons c rest ih =>
    by_cases h : c.holds callId = true
    · simp [findLive, lookupLive, h]
    · simp [findLive, lookupLive, h, ih]

theorem deref_findLive (callId : String) :
    ∀ (cells : List Cell) (ref : Nat), findLive callId cells = some ref →
      cells[ref]?.map (fun c => c.conv) = lookupLive callId cells := by
  intro cells
  induction cells with
  | nil => intro ref h; simp [findLive] at h
  | cons c rest ih =>
    intro ref h
    by_cases hc : c.holds callId = true
    · simp [findLive, hc] at h
      subst h
      simp [lookupLive, hc]
    · simp [findLive, hc] at h
      obtain ⟨r, hr, hrr⟩ := h
      subst hrr
      simpa [lookupLive, hc] using ih r hr

theorem holds_modify (c : Cell) (f : Conversation → Conversation)
    (hf : ∀ x, (f x).id = x.id) (callId : String) :
    ({ c with conv := f c.conv } : Cell).holds callId = c.holds callId := by
  simp [Cell.holds, hf]

theorem findLive_modifyLive (callId : String) (f : Conversation → Conversation)
    (hf : ∀ x, (f x).id = x.id) (other : String) (cells : List Cell) :
    findLive other (modifyLive callId f cells) = findLive other cells := by
  induction cells with
  | nil => rfl
  | cons c rest ih =>
    by_cases hc : c.holds callId = true
    · simp [modifyLive, hc, findLive, holds_modify c f hf]
    · simp [modifyLive, hc, findLive, ih]

theorem lookupLive_modifyLive (callId : String) (f : Conversation → Conversation)
    (hf : ∀ x, (f x).id = x.id) (cells : List Cell) :
    lookupLive callId (modifyLive callId f cells) = (lookupLive callId cells).map f := by
  induction cells with
  | nil => rfl
  | cons c rest ih =>
    by_cases hc : c.holds callId = true
    · simp [modifyLive, hc, lookupLive, holds_modify c f hf]
    · simp [modifyLive, hc, lookupLive, ih]

theorem lookupLive_modifyLive_other (callId : String) (f : Conversation → Conversation)
    (hf : ∀ x, (f x).id = x.id) (other : String) (hne : other ≠ callId)
    (cells : List Cell) :
    lookupLive other (modifyLive callId f cells) = lookupLive other cells := by
  induction cells with
  | nil => rfl
  | cons c rest ih =>
    by_cases hc : c.holds callId = true
    · have hid : c.conv.id = callId := by
        simp [Cell.holds] at hc
        exact hc.2
      have ho : c.holds other = false := by
        simp [Cell.holds, hid]
        intro _ h
        exact hne h.symm
      simp [modifyLive, hc, lookupLive, holds_modify c f hf, ho]
    · simp [modifyLive, hc, lookupLive, ih]

theorem holds_deleteLive (callId : String) (c : Cell) :
    (if c.holds callId then ({ c with live := false } : Cell) else c).holds callId = false := by
  by_cases hc : c.holds callId = true
  · rw [if_pos hc]
    simp [Cell.holds]
  · rw [if_neg hc]
    simpa using hc

theorem findLive_create (callId : String) (new : Conversation) (hid : new.id = callId)
    (cells : List Cell) :
    findLive callId (deleteLive callId cells ++ [{ live := true, conv := new }]) =
      some cells.length := by
  induction cells with
  | nil => simp [deleteLive, findLive, Cell.holds, hid]
  | cons c rest ih =>
    simp only [deleteLive, List.map_cons, List.cons_append, findLive, holds_deleteLive]
    simp only [deleteLive] at ih
    simp [ih]

theorem lookupLive_create (callId : String) (new : Conversation) (hid : new.id = callId)
    (cells : List Cell) :
    lookupLive callId (deleteLive callId cells ++ [{ live := true, conv := new }]) =
      some new := by
  induction cells with
  | nil => simp [deleteLive, lookupLive, Cell.holds, hid]
  | cons c rest ih =>
    simp only [deleteLive, List.map_cons, List.cons_append, lookupLive, holds_deleteLive]
    simp only [deleteLive] at ih
    simp [ih]


theorem tracks_deref (mgr : ConversationManager) (callId : String) (ref : Nat)
    (c : Conversation) (h : mgr.Tracks callId ref c) : mgr.deref ref = some c := by
  unfold ConversationManager.deref
  rw [deref_findLive callId mgr.cells ref h.1]
  exact h.2

theorem getConversation_tracks (mgr : ConversationManager) (callId : String) (ref : Nat)
    (c : Conversation) (now : Nat) (h : mgr.Tracks callId ref c) :
    (mgr.getConversation callId now).2 = some ref ∧
    (mgr.getConversation callId now).1.Tracks callId ref { c with lastActivity := now } := by
  unfold ConversationManager.getConversation
  rw [h.1]
  refine ⟨rfl, ?_, ?_⟩
  · simp only
    refine (findLive_modifyLive callId _ ?_ callId mgr.cells).trans h.1
    intro x
    rfl
  · simp only [ConversationManager.lookup]
    refine (lookupLive_modifyLive callId _ ?_ mgr.cells).trans ?_
    · intro x
      rfl
    · have := h.2
      simp only [ConversationManager.lookup] at this
      rw [this]
      rfl

theorem addMessage_tracks (mgr : ConversationManager) (callId : String) (ref : Nat)
    (c : Conversation) (role text : String) (metadata : JsObj) (now : Nat)
    (h : mgr.Tracks callId ref c) :
    (mgr.addMessage callId role (some text) metadata now).2 =
      .ok { role := role, content := some text, timestamp := now, metadata := metadata } ∧
    (mgr.addMessage callId role (some text) metadata now).1.Tracks callId ref
      (c.push { role := role, content := some text, timestamp := now, metadata := metadata }
        now) := by
  have hg := getConversation_tracks mgr callId ref c now h
  have hpair : mgr.getConversation callId now =
      ((mgr.getConversation callId now).1, some ref) := Prod.ext rfl hg.1
  unfold ConversationManager.addMessage
  rw [hpair]
  refine ⟨rfl, ?_, ?_⟩
  · simp only
    refine (findLive_modifyLive callId _ ?_ callId _).trans hg.2.1
    intro x
    rfl
  · simp only [ConversationManager.lookup]
    refine (lookupLive_modifyLive callId _ ?_ _).trans ?_
    · intro x
      rfl
    · have := hg.2.2
      simp only [ConversationManager.lookup] at this
      rw [this]
      rfl

theorem updateConversationStats_tracks (mgr : ConversationManager) (callId : String)
    (ref : Nat) (c : Conversation) (patch : StatsPatch) (now : Nat)
    (h : mgr.Tracks callId ref c) :
    (mgr.updateConversationStats callId patch now).1.Tracks callId ref
      { c with stats := c.stats.assign patch, lastActivity := now } := by
  have hg := getConversation_tracks mgr callId ref c now h
  have hpair : mgr.getConversation callId now =
      ((mgr.getConversation callId now).1, some ref) := Prod.ext rfl hg.1
  unfold ConversationManager.updateConversationStats
  rw [hpair]
  refine ⟨?_, ?_⟩
  · simp only
    refine (findLive_modifyLive callId _ ?_ callId _).trans hg.2.1
    intro x
    rfl
  · simp only [ConversationManager.lookup]
    refine (lookupLive_modifyLive callId _ ?_ _).trans ?_
    · intro x
      rfl
    · have := hg.2.2
      simp only [ConversationManager.lookup] at this
      rw [this]
      rfl

theorem resolveSession_existing (mgr : ConversationManager) (req : ChatRequest)
    (env : TurnEnv) (c : Conversation) (h : mgr.lookup req.callId = some c) :
    (resolveSession mgr req env).1.Tracks req.callId (resolveSession mgr req env).2
      { c with lastActivity := env.t0 } := by
  have hf : ∃ ref, findLive req.callId mgr.cells = some ref := by
    cases hfl : findLive req.callId mgr.cells with
    | none =>
      have := (findLive_eq_none_iff req.callId mgr.cells).mp hfl
      simp only [ConversationManager.lookup] at h
      rw [h] at this
      exact absurd this (by simp)
    | some ref => exact ⟨ref, rfl⟩
  obtain ⟨ref, hf⟩ := hf
  have ht : mgr.Tracks req.callId ref c := ⟨hf, h⟩
  have hg := getConversation_tracks mgr req.callId ref c env.t0 ht
  unfold resolveSession
  have hpair : mgr.getConversation req.callId env.t0 =
      ((mgr.getConversation req.callId env.t0).1, some ref) := by
    rw [← hg.1]
  rw [hpair]
  exact hg.2

theorem resolveSession_new (mgr : ConversationManager) (req : ChatRequest)
    (env : TurnEnv) (h : mgr.lookup req.callId = none) :
    ∃ c : Conversation,
      (resolveSession mgr req env).1.Tracks req.callId (resolveSession mgr req env).2 c ∧
      c.id = req.callId ∧ c.mode = req.mode ∧ c.messages = [] ∧
      c.stats = { messageCount := 0, audioProcessingTime := 0, totalDuration := 0 } := by
  have hf : findLive req.callId mgr.cells = none :=
    (findLive_eq_none_iff req.callId mgr.cells).mpr h
  unfold resolveSession ConversationManager.getConversation
  rw [hf]
  simp only [ConversationManager.createConversation]
  refine ⟨newConversation req.callId req.mode
    [("userAgent", env.userAgent), ("ip", env.ip)] env.t0,
    ⟨findLive_create req.callId _ rfl mgr.cells, ?_⟩, rfl, rfl, rfl, rfl⟩
  simp only [ConversationManager.lookup]
  exact lookupLive_create req.callId _ rfl mgr.cells


/-! ## Turn orchestrator (`chatHandler`) -/

/-- The response body of a completed turn. -/
theorem finishTurn_spec (mgr : ConversationManager) (ref : Nat) (req : ChatRequest)
    (env : TurnEnv) (userMessage : String) (stt : Option SttResult) (aiResult : AiResult)
    (aiResponse : String) (tts : TtsResult) (calls : List RemoteCall) (c : Conversation)
    (h : mgr.Tracks req.callId ref c) :
    (finishTurn mgr ref req env userMessage stt aiResult aiResponse tts calls).1.Tracks
        req.callId ref
        { c with stats := c.stats.assign (turnStatsPatch env stt tts), lastActivity := env.t3 } ∧
    (finishTurn mgr ref req env userMessage stt aiResult aiResponse tts calls).2.response =
      .turn (if userMessage = "" then none else some userMessage) aiResponse tts.audioRef
        (isConversationEnding aiResponse)
        { total := env.t3 - env.t0
          stt := (stt.map (fun r => r.processingTime)).getD 0
          ai := aiResult.processingTime
          tts := tts.processingTime } ∧
    (finishTurn mgr ref req env userMessage stt aiResult aiResponse tts calls).2.calls = calls ∧
    (finishTurn mgr ref req env userMessage stt aiResult aiResponse tts calls).2.generationInvoked
      = true ∧
    (finishTurn mgr ref req env userMessage stt aiResult aiResponse tts calls).2.scheduledEnd =
      (if isConversationEnding aiResponse then
        some { callId := req.callId, reason := "completed", delay := 5000 }
      else none) := by
  have ht := updateConversationStats_tracks mgr req.callId ref c (turnStatsPatch env stt tts)
    env.t3 h
  have hd := tracks_deref _ _ _ _ ht
  unfold finishTurn
  by_cases he : isConversationEnding aiResponse = true
  · simp [he, hd]
    exact ht
  · simp [he]
    exact ht


/-- The part of a turn from generation on, for a reply text `r` (generated or fallback). -/
theorem generateAndReply_spec (mgr : ConversationManager) (ref : Nat) (req : ChatRequest)
    (env : TurnEnv) (userMessage : String) (stt : Option SttResult)
    (calls : List RemoteCall) (c : Conversation) (aiResult : AiResult) (r : String)
    (h : mgr.Tracks req.callId ref c)
    (hai : getResponse env.model env.complete env.aiDuration (some c) = .ok aiResult)
    (hr : aiResult.replyText = some r) :
    (generateAndReply mgr ref req env userMessage stt calls).1.Tracks req.callId ref
        (c.afterReply env stt (textToSpeech (env.synthesize r) req.callId env.ttsDuration)
          (assistantMessage env.t2 aiResult r)) ∧
    (generateAndReply mgr ref req env userMessage stt calls).2.response =
      .turn (if userMessage = "" then none else some userMessage) r
        (textToSpeech (env.synthesize r) req.callId env.ttsDuration).audioRef
        (isConversationEnding r)
        { total := env.t3 - env.t0
          stt := (stt.map (fun x => x.processingTime)).getD 0
          ai := aiResult.processingTime
          tts := (textToSpeech (env.synthesize r) req.callId env.ttsDuration).processingTime } ∧
    (generateAndReply mgr ref req env userMessage stt calls).2.calls =
      calls ++ generationCalls (some c) ++ [.synthesize r] ∧
    (generateAndReply mgr ref req env userMessage stt calls).2.generationInvoked = true ∧
    (generateAndReply mgr ref req env userMessage stt calls).2.scheduledEnd =
      (if isConversationEnding r then
        some { callId := req.callId, reason := "completed", delay := 5000 }
      else none) := by
  have ha := addMessage_tracks mgr req.callId ref c "assistant" r aiResult.annotations env.t2 h
  have hpair : mgr.addMessage req.callId "assistant" (some r) aiResult.annotations env.t2 =
      ((mgr.addMessage req.callId "assistant" (some r) aiResult.annotations env.t2).1,
        .ok (assistantMessage env.t2 aiResult r)) :=
    Prod.ext rfl ha.1
  have hgen : generateAndReply mgr ref req env userMessage stt calls =
      finishTurn (mgr.addMessage req.callId "assistant" (some r) aiResult.annotations env.t2).1
        ref req env userMessage stt aiResult r
        (textToSpeech (env.synthesize r) req.callId env.ttsDuration)
        (calls ++ generationCalls (some c) ++ [.synthesize r]) := by
    unfold generateAndReply
    simp only [tracks_deref mgr req.callId ref c h, hai, hr]
    rw [hpair]
  rw [hgen]
  exact finishTurn_spec _ ref req env userMessage stt aiResult r _ _ _ ha.2


/-- A turn that reaches generation and obtains the reply text `r` (generated or fallback):
the final session and the response. -/
theorem chatHandler_reply (mgr : ConversationManager) (req : ChatRequest) (env : TurnEnv)
    (c : Conversation) (aiResult : AiResult) (r : String)
    (hc : (resolveSession mgr req env).1.Tracks req.callId (resolveSession mgr req env).2 c)
    (hheard : transcriptionFailed req env = false)
    (hai : getResponse env.model env.complete env.aiDuration (some (c.atGeneration req env)) =
      .ok aiResult)
    (hr : aiResult.replyText = some r) :
    (chatHandler mgr req env).1.lookup req.callId =
      some ((c.atGeneration req env).afterReply env (transcriptResult req env)
        (textToSpeech (env.synthesize r) req.callId env.ttsDuration)
        (assistantMessage env.t2 aiResult r)) ∧
    (chatHandler mgr req env).2.response =
      .turn (if userMessageText req env = "" then none else some (userMessageText req env)) r
        (textToSpeech (env.synthesize r) req.callId env.ttsDuration).audioRef
        (isConversationEnding r)
        { total := env.t3 - env.t0
          stt := ((transcriptResult req env).map (fun x => x.processingTime)).getD 0
          ai := aiResult.processingTime
          tts := (textToSpeech (env.synthesize r) req.callId env.ttsDuration).processingTime } ∧
    (chatHandler mgr req env).2.generationInvoked = true ∧
    (chatHandler mgr req env).2.scheduledEnd =
      (if isConversationEnding r then
        some { callId := req.callId, reason := "completed", delay := 5000 }
      else none) := by
  cases haudio : req.audio with
  | none =>
    have htr : transcriptResult req env = none := by simp [transcriptResult, haudio]
    have hum : userMessageText req env = "" := by simp [userMessageText, htr]
    have hat : c.atGeneration req env = c := by
      simp [Conversation.atGeneration, userMessages, htr]
    rw [hat] at hai ⊢
    have hch : chatHandler mgr req env =
        generateAndReply (resolveSession mgr req env).1 (resolveSession mgr req env).2
          req env "" none [] := by
      unfold chatHandler
      simp only [haudio]
    have hs := generateAndReply_spec _ _ req env "" none [] c aiResult r hc hai hr
    rw [hch, htr, hum]
    exact ⟨hs.1.2, hs.2.1, hs.2.2.2.1, hs.2.2.2.2⟩
  | some buffer =>
    have htr : transcriptResult req env =
        some (speechToText (env.recognize buffer) env.sttDuration) := by
      simp [transcriptResult, haudio]
    cases hstt : speechToText (env.recognize buffer) env.sttDuration with
    | failure e t =>
      simp [transcriptionFailed, htr, hstt] at hheard
    | success transcript confidence processingTime =>
      have hne : transcript ≠ "" := by
        simpa [transcriptionFailed, htr, hstt] using hheard
      have hum : userMessageText req env = transcript := by
        simp [userMessageText, htr, hstt]
      have hat : c.atGeneration req env =
          c.push { role := "user", content := some transcript, timestamp := env.t1,
                   metadata := [("confidence", .num confidence),
                                ("processingTime", .num processingTime)] } env.t1 := by
        simp [Conversation.atGeneration, userMessages, htr, hstt, hne]
      rw [hat] at hai ⊢
      have ha := addMessage_tracks (resolveSession mgr req env).1 req.callId
        (resolveSession mgr req env).2 c "user" transcript
        [("confidence", .num confidence), ("processingTime", .num processingTime)] env.t1 hc
      have hpair : (resolveSession mgr req env).1.addMessage req.callId "user" (some transcript)
          [("confidence", .num confidence), ("processingTime", .num processingTime)] env.t1 =
          (((resolveSession mgr req env).1.addMessage req.callId "user" (some transcript)
            [("confidence", .num confidence), ("processingTime", .num processingTime)]
            env.t1).1, .ok _) :=
        Prod.ext rfl ha.1
      have hch : chatHandler mgr req env =
          generateAndReply
            ((resolveSession mgr req env).1.addMessage req.callId "user" (some transcript)
              [("confidence", .num confidence), ("processingTime", .num processingTime)]
              env.t1).1
            (resolveSession mgr req env).2 req env transcript
            (some (.success transcript confidence processingTime)) [.recognize buffer] := by
        unfold chatHandler
        simp only [haudio, hstt, hne, ne_eq, not_false_eq_true, if_true]
        rw [hpair]
      have hs := generateAndReply_spec _ _ req env transcript
        (some (.success transcript confidence processingTime)) [.recognize buffer] _
        aiResult r ha.2 hai hr
      rw [hch, htr, hum, hstt]
      exact ⟨hs.1.2, hs.2.1, hs.2.2.2.1, hs.2.2.2.2⟩


theorem foldl_push_messages (now : Nat) (ms : List Message) :
    ∀ c : Conversation,
      (ms.foldl (fun c m => c.push m now) c).messages = c.messages ++ ms ∧
      (ms.foldl (fun c m => c.push m now) c).mode = c.mode ∧
      (ms.foldl (fun c m => c.push m now) c).stats.messageCount =
        c.stats.messageCount + ms.length := by
  induction ms with
  | nil => intro c; simp
  | cons m rest ih =>
    intro c
    obtain ⟨h1, h2, h3⟩ := ih (c.push m now)
    simp only [List.foldl_cons, h1, h2, h3]
    refine ⟨by simp [Conversation.push], rfl, ?_⟩
    simp [Conversation.push]
    omega

theorem atGeneration_messages (c : Conversation) (req : ChatRequest) (env : TurnEnv) :
    (c.atGeneration req env).messages = c.messages ++ userMessages req env :=
  (foldl_push_messages env.t1 (userMessages req env) c).1

theorem atGeneration_mode (c : Conversation) (req : ChatRequest) (env : TurnEnv) :
    (c.atGeneration req env).mode = c.mode :=
  (foldl_push_messages env.t1 (userMessages req env) c).2.1

theorem userMessages_role (req : ChatRequest) (env : TurnEnv) :
    ∀ u ∈ userMessages req env, u.role = "user" := by
  intro u hu
  unfold userMessages at hu
  split at hu
  · split at hu
    · simp at hu
      rw [hu]
    · simp at hu
  · simp at hu

theorem resolveSession_tracks (mgr : ConversationManager) (req : ChatRequest) (env : TurnEnv)
    (c : Conversation) (h : (resolveSession mgr req env).1.lookup req.callId = some c) :
    (resolveSession mgr req env).1.Tracks req.callId (resolveSession mgr req env).2 c ∧
    c.messages = ((mgr.lookup req.callId).map (fun s => s.messages)).getD [] ∧
    c.stats.messageCount =
      ((mgr.lookup req.callId).map (fun s => s.stats.messageCount)).getD 0 ∧
    c.mode = ((mgr.lookup req.callId).map (fun s => s.mode)).getD req.mode := by
  cases hl : mgr.lookup req.callId with
  | some c0 =>
    have ht := resolveSession_existing mgr req env c0 hl
    have hc : c = { c0 with lastActivity := env.t0 } := by
      have := ht.2
      rw [h] at this
      exact Option.some.inj this
    subst hc
    exact ⟨ht, rfl, rfl, rfl⟩
  | none =>
    obtain ⟨c1, ht, _, hmode, hmsgs, hstats⟩ := resolveSession_new mgr req env hl
    have hc : c = c1 := by
      have := ht.2
      rw [h] at this
      exact Option.some.inj this
    subst hc
    refine ⟨ht, by simp [hmsgs], by simp [hstats], by simp [hmode]⟩

theorem generateFallbackResponse_timeout (mode : String) (texts : FallbackTexts)
    (ht : fallbackResponses mode = some texts) (error : JsError)
    (htimeout : error.code = some "ECONNABORTED" ∨
      ∃ message, error.message = some message ∧ "timeout".data <:+: message.data) :
    generateFallbackResponse error mode = .ok (some texts.timeout) := by
  by_cases hc : error.code = some "ECONNABORTED"
  · unfold generateFallbackResponse modeResponses
    simp [ht, hc]
  · rcases htimeout with h | ⟨message, hm, hin⟩
    · exact absurd h hc
    · rw [generateFallbackResponse_of_texts mode texts ht error message hm,
        if_pos (Or.inr hin)]


/-- C8. Turn under generation timeout: on a session of a registered mode, when the turn
reaches generation and the remote generation fails with a timeout, the result is a success
whose reply is the timeout fallback of the session's mode, and the session gains, after the
user message of the turn if any, exactly one assistant message, with that text as content
and the annotation `fallback = true`. `c` is the session the turn resolves: the stored one
or a fresh one, its messages those stored before the turn. The turn runs without any other
operation on the store between its stages. -/
theorem chatHandler_generation_timeout (mgr : ConversationManager) (req : ChatRequest)
    (env : TurnEnv) (c : Conversation) (error : JsError)
    (hsession : (resolveSession mgr req env).1.lookup req.callId = some c)
    (hmode : c.mode ∈ getAvailableModes)
    (hheard : transcriptionFailed req env = false)
    (hfail : ∀ input, env.complete input = .throws error)
    (htimeout : error.code = some "ECONNABORTED" ∨
      ∃ message, error.message = some message ∧ "timeout".data <:+: message.data) :
    ∃ texts : FallbackTexts,
      fallbackResponses c.mode = some texts ∧
      (chatHandler mgr req env).2.response.status = 200 ∧
      (chatHandler mgr req env).2.response.success = true ∧
      (chatHandler mgr req env).2.response.reply = some texts.timeout ∧
      c.messages = ((mgr.lookup req.callId).map (fun s => s.messages)).getD [] ∧
      (∀ u ∈ userMessages req env, u.role = "user") ∧
      ∃ (c' : Conversation) (m : Message),
        (chatHandler mgr req env).1.lookup req.callId = some c' ∧
        c'.messages = c.messages ++ userMessages req env ++ [m] ∧
        m.role = "assistant" ∧
        m.content = some texts.timeout ∧
        m.metadata.get "fallback" = .bool true := by
  obtain ⟨texts, ht⟩ := fallbackResponses_registered c.mode hmode
  obtain ⟨htracks, hmsgs, _, _⟩ := resolveSession_tracks mgr req env c hsession
  have hmode' : (c.atGeneration req env).mode ∈ getAvailableModes := by
    rw [atGeneration_mode]; exact hmode
  obtain ⟨prompt, hp⟩ := getSystemPrompt_registered _ hmode'
  have hb := buildMessages_of_prompt (c.atGeneration req env) (some prompt) hp
  have hai : getResponse env.model env.complete env.aiDuration
      (some (c.atGeneration req env)) =
      .ok (.failure error.message (some texts.timeout) env.aiDuration) := by
    unfold getResponse
    simp only [hb, hfail, getResponseCatch, atGeneration_mode]
    rw [generateFallbackResponse_timeout c.mode texts ht error htimeout]
  obtain ⟨hlook, hresp, _, _⟩ :=
    chatHandler_reply mgr req env c _ texts.timeout htracks hheard hai rfl
  refine ⟨texts, ht, ?_, ?_, ?_, hmsgs, userMessages_role req env, _,
    assistantMessage env.t2 (.failure error.message (some texts.timeout) env.aiDuration)
      texts.timeout,
    hlook, ?_, rfl, rfl, ?_⟩
  · rw [hresp]; rfl
  · rw [hresp]; rfl
  · rw [hresp]; rfl
  · simp [Conversation.afterReply, Conversation.push, atGeneration_messages]
  · simp [assistantMessage, AiResult.annotations, JsObj.get, List.lookup]

theorem chatHandler_generation_timeout_witness :
    ∃ texts : FallbackTexts,
      fallbackResponses "dental" = some texts ∧
      (chatHandler ConversationManager.init (sampleRequest none)
        (sampleEnv (fun _ => .throws serviceError) (fun _ => .throws timeoutError)
          (fun _ => .audio "u1" 10))).2.response.status = 200 ∧
      (chatHandler ConversationManager.init (sampleRequest none)
        (sampleEnv (fun _ => .throws serviceError) (fun _ => .throws timeoutError)
          (fun _ => .audio "u1" 10))).2.response.success = true ∧
      (chatHandler ConversationManager.init (sampleRequest none)
        (sampleEnv (fun _ => .throws serviceError) (fun _ => .throws timeoutError)
          (fun _ => .audio "u1" 10))).2.response.reply = some texts.timeout ∧
      ([] : List Message) =
        ((ConversationManager.init.lookup "call-1").map (fun s => s.messages)).getD [] ∧
      (∀ u ∈ userMessages (sampleRequest none)
          (sampleEnv (fun _ => .throws serviceError) (fun _ => .throws timeoutError)
            (fun _ => .audio "u1" 10)), u.role = "user") ∧
      ∃ (c' : Conversation) (m : Message),
        (chatHandler ConversationManager.init (sampleRequest none)
          (sampleEnv (fun _ => .throws serviceError) (fun _ => .throws timeoutError)
            (fun _ => .audio "u1" 10))).1.lookup "call-1" = some c' ∧
        c'.messages = [] ++ userMessages (sampleRequest none)
          (sampleEnv (fun _ => .throws serviceError) (fun _ => .throws timeoutError)
            (fun _ => .audio "u1" 10)) ++ [m] ∧
        m.role = "assistant" ∧
        m.content = some texts.timeout ∧
        m.metadata.get "fallback" = .bool true :=
  chatHandler_generation_timeout ConversationManager.init (sampleRequest none)
    (sampleEnv (fun _ => .throws serviceError) (fun _ => .throws timeoutError)
      (fun _ => .audio "u1" 10))
    (newConversation "call-1" "dental" [("userAgent", .str "agent"), ("ip", .str "127.0.0.1")]
      100)
    timeoutError rfl (by decide) rfl (fun _ => rfl) (Or.inl rfl)


/-- C9. Failed transcription does not advance the session: when the request carries audio
and the transcription fails or gives the empty text, the handler stops after resolving the
session: the result is the "please repeat" failure with `transcript` and `audioUrl` null, the
only remote call is the recognition (no generation, no synthesis), nothing is scheduled, and
the session held under the call identifier has the same messages and `messageCount` as
before the turn (an identifier without session gets a fresh one with no message). -/
theorem chatHandler_transcription_failed (mgr : ConversationManager) (req : ChatRequest)
    (env : TurnEnv) (hfailed : transcriptionFailed req env = true) :
    (chatHandler mgr req env).2.response = .noSpeech ∧
    (chatHandler mgr req env).2.response.success = false ∧
    (chatHandler mgr req env).2.response.error =
      some "Nu am detectat vorbire clară. Vă rog să încercați din nou." ∧
    (chatHandler mgr req env).2.response.transcript = none ∧
    (chatHandler mgr req env).2.response.audioUrl = none ∧
    (chatHandler mgr req env).2.generationInvoked = false ∧
    (∀ call ∈ (chatHandler mgr req env).2.calls, ∃ audio, call = .recognize audio) ∧
    (chatHandler mgr req env).2.scheduledEnd = none ∧
    (chatHandler mgr req env).1 = (resolveSession mgr req env).1 ∧
    (∀ c₀, mgr.lookup req.callId = some c₀ →
      (chatHandler mgr req env).1.lookup req.callId =
        some { c₀ with lastActivity := env.t0 }) ∧
    (mgr.lookup req.callId = none →
      ∃ c, (chatHandler mgr req env).1.lookup req.callId = some c ∧
        c.messages = [] ∧ c.stats.messageCount = 0) := by
  have hout : chatHandler mgr req env =
      ((resolveSession mgr req env).1,
       { response := .noSpeech
         calls := (req.audio.map (fun b => RemoteCall.recognize b)).toList
         generationInvoked := false
         appointment := none
         scheduledEnd := none }) := by
    cases haudio : req.audio with
    | none => simp [transcriptionFailed, transcriptResult, haudio] at hfailed
    | some buffer =>
      have htr : transcriptResult req env =
          some (speechToText (env.recognize buffer) env.sttDuration) := by
        simp [transcriptResult, haudio]
      cases hstt : speechToText (env.recognize buffer) env.sttDuration with
      | failure e t =>
        unfold chatHandler
        simp [haudio, hstt]
      | success transcript confidence processingTime =>
        have he : transcript = "" := by
          simpa [transcriptionFailed, htr, hstt] using hfailed
        unfold chatHandler
        simp [haudio, hstt, he]
  rw [hout]
  refine ⟨rfl, rfl, rfl, rfl, rfl, rfl, ?_, rfl, rfl, ?_, ?_⟩
  · intro call hcall
    cases haudio : req.audio with
    | none => simp [haudio] at hcall
    | some buffer =>
      simp [haudio] at hcall
      exact ⟨buffer, hcall⟩
  · intro c₀ hc₀
    exact (resolveSession_existing mgr req env c₀ hc₀).2
  · intro hnone
    obtain ⟨c, ht, _, _, hmsgs, hstats⟩ := resolveSession_new mgr req env hnone
    exact ⟨c, ht.2, hmsgs, by simp [hstats]⟩

theorem chatHandler_transcription_failed_witness :
    (chatHandler
      { cells := [{ live := true, conv := sampleSession 2 }], events := [] }
      (sampleRequest (some [1, 2, 3]))
      (sampleEnv (fun _ => .response [[{ transcript := "  ", confidence := 0 }]])
        (fun _ => .reply "Bună ziua!" .null) (fun _ => .audio "u1" 10))).2.response
      = .noSpeech ∧
    (chatHandler
      { cells := [{ live := true, conv := sampleSession 2 }], events := [] }
      (sampleRequest (some [1, 2, 3]))
      (sampleEnv (fun _ => .response [[{ transcript := "  ", confidence := 0 }]])
        (fun _ => .reply "Bună ziua!" .null) (fun _ => .audio "u1" 10))).1.lookup "call-1"
      = some { sampleSession 2 with lastActivity := 100 } :=
  ⟨(chatHandler_transcription_failed
      { cells := [{ live := true, conv := sampleSession 2 }], events := [] }
      (sampleRequest (some [1, 2, 3]))
      (sampleEnv (fun _ => .response [[{ transcript := "  ", confidence := 0 }]])
        (fun _ => .reply "Bună ziua!" .null) (fun _ => .audio "u1" 10)) (by decide)).1,
   (chatHandler_transcription_failed
      { cells := [{ live := true, conv := sampleSession 2 }], events := [] }
      (sampleRequest (some [1, 2, 3]))
      (sampleEnv (fun _ => .response [[{ transcript := "  ", confidence := 0 }]])
        (fun _ => .reply "Bună ziua!" .null) (fun _ => .audio "u1" 10))
      (by decide)).2.2.2.2.2.2.2.2.2.1 (sampleSession 2) (by decide)⟩


/-- C10. Synthesis failure degrades to text-only: when the turn reaches generation, obtains
the reply text `r` (generated, or the fallback of a failed generation) and the synthesis of
`r` fails, the result still reports success with reply `r` and a null audio reference, and
the assistant message with content `r` is the last message of the session. `c` is the
session the turn resolves; the turn runs without any other operation on the store between
its stages. -/
theorem chatHandler_synthesis_failure (mgr : ConversationManager) (req : ChatRequest)
    (env : TurnEnv) (c : Conversation) (aiResult : AiResult) (r : String) (error : JsError)
    (hsession : (resolveSession mgr req env).1.lookup req.callId = some c)
    (hheard : transcriptionFailed req env = false)
    (hai : getResponse env.model env.complete env.aiDuration (some (c.atGeneration req env)) =
      .ok aiResult)
    (hr : aiResult.replyText = some r)
    (hsynth : env.synthesize r = .throws error) :
    (chatHandler mgr req env).2.response.status = 200 ∧
    (chatHandler mgr req env).2.response.success = true ∧
    (chatHandler mgr req env).2.response.reply = some r ∧
    (chatHandler mgr req env).2.response.audioUrl = none ∧
    ∃ (c' : Conversation) (m : Message),
      (chatHandler mgr req env).1.lookup req.callId = some c' ∧
      c'.messages = c.messages ++ userMessages req env ++ [m] ∧
      m.role = "assistant" ∧
      m.content = some r := by
  obtain ⟨htracks, _, _, _⟩ := resolveSession_tracks mgr req env c hsession
  obtain ⟨hlook, hresp, _, _⟩ := chatHandler_reply mgr req env c aiResult r htracks hheard hai hr
  refine ⟨?_, ?_, ?_, ?_, _, assistantMessage env.t2 aiResult r, hlook, ?_, rfl, rfl⟩
  · rw [hresp]; rfl
  · rw [hresp]; rfl
  · rw [hresp]; rfl
  · rw [hresp, hsynth]; rfl
  · simp [Conversation.afterReply, Conversation.push, atGeneration_messages]

theorem chatHandler_synthesis_failure_witness :
    (chatHandler ConversationManager.init (sampleRequest (some [1, 2, 3]))
      (sampleEnv (fun _ => .response [[{ transcript := "Vreau un control", confidence := 1 }]])
        (fun _ => .reply "Sigur, pe ce dată?" .null)
        (fun _ => .throws serviceError))).2.response.status = 200 ∧
    (chatHandler ConversationManager.init (sampleRequest (some [1, 2, 3]))
      (sampleEnv (fun _ => .response [[{ transcript := "Vreau un control", confidence := 1 }]])
        (fun _ => .reply "Sigur, pe ce dată?" .null)
        (fun _ => .throws serviceError))).2.response.success = true ∧
    (chatHandler ConversationManager.init (sampleRequest (some [1, 2, 3]))
      (sampleEnv (fun _ => .response [[{ transcript := "Vreau un control", confidence := 1 }]])
        (fun _ => .reply "Sigur, pe ce dată?" .null)
        (fun _ => .throws serviceError))).2.response.reply = some "Sigur, pe ce dată?" ∧
    (chatHandler ConversationManager.init (sampleRequest (some [1, 2, 3]))
      (sampleEnv (fun _ => .response [[{ transcript := "Vreau un control", confidence := 1 }]])
        (fun _ => .reply "Sigur, pe ce dată?" .null)
        (fun _ => .throws serviceError))).2.response.audioUrl = none ∧
    ∃ (c' : Conversation) (m : Message),
      (chatHandler ConversationManager.init (sampleRequest (some [1, 2, 3]))
        (sampleEnv
          (fun _ => .response [[{ transcript := "Vreau un control", confidence := 1 }]])
          (fun _ => .reply "Sigur, pe ce dată?" .null)
          (fun _ => .throws serviceError))).1.lookup "call-1" = some c' ∧
      c'.messages =
        (newConversation "call-1" "dental"
          [("userAgent", .str "agent"), ("ip", .str "127.0.0.1")] 100).messages ++
        userMessages (sampleRequest (some [1, 2, 3]))
          (sampleEnv
            (fun _ => .response [[{ transcript := "Vreau un control", confidence := 1 }]])
            (fun _ => .reply "Sigur, pe ce dată?" .null)
            (fun _ => .throws serviceError)) ++ [m] ∧
      m.role = "assistant" ∧
      m.content = some "Sigur, pe ce dată?" :=
  chatHandler_synthesis_failure ConversationManager.init (sampleRequest (some [1, 2, 3]))
    (sampleEnv (fun _ => .response [[{ transcript := "Vreau un control", confidence := 1 }]])
      (fun _ => .reply "Sigur, pe ce dată?" .null)
      (fun _ => .throws serviceError))
    (newConversation "call-1" "dental" [("userAgent", .str "agent"), ("ip", .str "127.0.0.1")]
      100)
    (.success "Sigur, pe ce dată?" "microsoft/mai-ds-r1:free" 5 .null) "Sigur, pe ce dată?"
    serviceError rfl (by decide) (by decide) rfl rfl


/-! ## Session store operations -/

theorem tracks_of_lookup (mgr : ConversationManager) (callId : String) (c : Conversation)
    (h : mgr.lookup callId = some c) : ∃ ref, mgr.Tracks callId ref c := by
  cases hfl : findLive callId mgr.cells with
  | none =>
    have := (findLive_eq_none_iff callId mgr.cells).mp hfl
    simp only [ConversationManager.lookup] at h
    rw [h] at this
    exact absurd this (by simp)
  | some ref => exact ⟨ref, hfl, h⟩

theorem getConversation_missing (mgr : ConversationManager) (callId : String) (now : Nat)
    (h : mgr.lookup callId = none) : mgr.getConversation callId now = (mgr, none) := by
  have hf : findLive callId mgr.cells = none :=
    (findLive_eq_none_iff callId mgr.cells).mpr h
  unfold ConversationManager.getConversation
  rw [hf]

theorem getConversation_other (mgr : ConversationManager) (callId other : String) (now : Nat)
    (hne : other ≠ callId) :
    (mgr.getConversation callId now).1.lookup other = mgr.lookup other := by
  unfold ConversationManager.getConversation
  cases hf : findLive callId mgr.cells with
  | none => rfl
  | some ref =>
    simp only [ConversationManager.lookup]
    refine lookupLive_modifyLive_other callId _ ?_ other hne mgr.cells
    intro x
    rfl

theorem getConversation_events (mgr : ConversationManager) (callId : String) (now : Nat) :
    (mgr.getConversation callId now).1.events = mgr.events := by
  unfold ConversationManager.getConversation
  cases findLive callId mgr.cells <;> rfl

theorem lookupLive_deleteLive (callId : String) (cells : List Cell) :
    lookupLive callId (deleteLive callId cells) = none := by
  induction cells with
  | nil => rfl
  | cons c rest ih =>
    simp only [deleteLive, List.map_cons, lookupLive, holds_deleteLive]
    simp only [deleteLive] at ih
    simpa using ih

theorem lookupLive_deleteLive_other (callId other : String) (hne : other ≠ callId)
    (cells : List Cell) :
    lookupLive other (deleteLive callId cells) = lookupLive other cells := by
  induction cells with
  | nil => rfl
  | cons c rest ih =>
    simp only [deleteLive, List.map_cons, lookupLive]
    simp only [deleteLive] at ih
    by_cases hc : c.holds callId = true
    · have hid : c.conv.id = callId := by
        simp [Cell.holds] at hc
        exact hc.2
      have ho : c.holds other = false := by
        simp [Cell.holds, hid]
        intro _ h
        exact hne h.symm
      have hd : ({ c with live := false } : Cell).holds other = false := by
        simp [Cell.holds]
      rw [if_pos hc, hd, ho]
      simpa using ih
    · rw [if_neg hc, ih]

theorem deleteLive_of_missing (callId : String) (cells : List Cell)
    (h : lookupLive callId cells = none) : deleteLive callId cells = cells := by
  induction cells with
  | nil => rfl
  | cons c rest ih =>
    by_cases hc : c.holds callId = true
    · simp [lookupLive, hc] at h
    · simp only [lookupLive, hc] at h
      simp only [deleteLive, List.map_cons, hc]
      simp only [deleteLive] at ih
      simp [ih h]

/-- C17. Append on a missing session fails atomically: when no session is held under `id`,
`addMessage` throws the error "Conversația cu ID-ul ... nu există" and the store is the same
as before: no session is created and no message is added. -/
theorem addMessage_missing (mgr : ConversationManager) (callId role : String)
    (content : Option String) (metadata : JsObj) (now : Nat)
    (h : mgr.lookup callId = none) :
    mgr.addMessage callId role content metadata now =
      (mgr, .error (JsError.ofMessage ("Conversația cu ID-ul " ++ callId ++ " nu există"))) ∧
    (mgr.addMessage callId role content metadata now).1.lookup callId = none := by
  have hadd : mgr.addMessage callId role content metadata now =
      (mgr, .error (JsError.ofMessage ("Conversația cu ID-ul " ++ callId ++ " nu există"))) := by
    unfold ConversationManager.addMessage
    rw [getConversation_missing mgr callId now h]
  rw [hadd]
  exact ⟨rfl, h⟩

theorem addMessage_missing_witness :
    ConversationManager.init.addMessage "call-9" "user" (some "Alo?") [] 7 =
      (ConversationManager.init,
        .error (JsError.ofMessage ("Conversația cu ID-ul " ++ "call-9" ++ " nu există"))) ∧
    (ConversationManager.init.addMessage "call-9" "user" (some "Alo?") [] 7).1.lookup "call-9"
      = none :=
  addMessage_missing ConversationManager.init "call-9" "user" (some "Alo?") [] 7 rfl


theorem addMessage_other (mgr : ConversationManager) (callId other role : String)
    (content : Option String) (metadata : JsObj) (now : Nat) (hne : other ≠ callId) :
    (mgr.addMessage callId role content metadata now).1.lookup other = mgr.lookup other := by
  have hg := getConversation_other mgr callId other now hne
  unfold ConversationManager.addMessage
  cases hget : mgr.getConversation callId now with
  | mk mgr₁ found =>
    rw [hget] at hg
    cases found with
    | none => exact hg
    | some ref =>
      have hpush : lookupLive other
          (modifyLive callId (fun c => c.push
            { role := role, content := content, timestamp := now, metadata := metadata } now)
            mgr₁.cells) = lookupLive other mgr₁.cells := by
        refine lookupLive_modifyLive_other callId _ ?_ other hne mgr₁.cells
        intro x
        rfl
      cases content with
      | none => simpa [ConversationManager.lookup, hpush] using hg
      | some text => simpa [ConversationManager.lookup, hpush] using hg

theorem addMessage_events (mgr : ConversationManager) (callId role : String)
    (content : Option String) (metadata : JsObj) (now : Nat) :
    (mgr.addMessage callId role content metadata now).1.events = mgr.events := by
  have hg := getConversation_events mgr callId now
  unfold ConversationManager.addMessage
  cases hget : mgr.getConversation callId now with
  | mk mgr₁ found =>
    rw [hget] at hg
    cases found with
    | none => exact hg
    | some ref =>
      cases content with
      | none => exact hg
      | some text => exact hg

/-- C18. Append postcondition: on a live session `c` for `id`, `addMessage` returns the new
message (given role, content and annotations) and the session becomes `c` with that message
appended after the unchanged earlier messages, `messageCount` increased by one and
`lastActivity` refreshed; its id, mode, metadata, start time and the other stats fields, and
every other session, are unchanged. -/
theorem addMessage_postcondition (mgr : ConversationManager) (callId role text : String)
    (metadata : JsObj) (now : Nat) (c : Conversation) (h : mgr.lookup callId = some c) :
    (mgr.addMessage callId role (some text) metadata now).2 =
      .ok { role := role, content := some text, timestamp := now, metadata := metadata } ∧
    (∃ c' : Conversation,
      (mgr.addMessage callId role (some text) metadata now).1.lookup callId = some c' ∧
      c'.messages = c.messages ++
        [{ role := role, content := some text, timestamp := now, metadata := metadata }] ∧
      (∀ i, i < c.messages.length → c'.messages[i]? = c.messages[i]?) ∧
      c'.stats.messageCount = c.stats.messageCount + 1 ∧
      c'.stats.audioProcessingTime = c.stats.audioProcessingTime ∧
      c'.stats.totalDuration = c.stats.totalDuration ∧
      c'.lastActivity = now ∧
      c'.id = c.id ∧ c'.mode = c.mode ∧ c'.metadata = c.metadata ∧
      c'.startTime = c.startTime) ∧
    (∀ other, other ≠ callId →
      (mgr.addMessage callId role (some text) metadata now).1.lookup other =
        mgr.lookup other) := by
  obtain ⟨ref, ht⟩ := tracks_of_lookup mgr callId c h
  have ha := addMessage_tracks mgr callId ref c role text metadata now ht
  refine ⟨ha.1, ⟨_, ha.2.2, rfl, ?_, rfl, rfl, rfl, rfl, rfl, rfl, rfl, rfl⟩, ?_⟩
  · intro i hi
    simp only [Conversation.push]
    exact List.getElem?_append_left hi
  · intro other hne
    exact addMessage_other mgr callId other role (some text) metadata now hne

theorem addMessage_postcondition_witness :
    ((⟨[{ live := true, conv := sampleSession 2 }], []⟩ : ConversationManager).addMessage
        "call-1" "user" (some "Alo?") [] 7).2 =
      .ok { role := "user", content := some "Alo?", timestamp := 7, metadata := [] } ∧
    (∃ c' : Conversation,
      ((⟨[{ live := true, conv := sampleSession 2 }], []⟩ : ConversationManager).addMessage
        "call-1" "user" (some "Alo?") [] 7).1.lookup "call-1" = some c' ∧
      c'.messages = (sampleSession 2).messages ++
        [{ role := "user", content := some "Alo?", timestamp := 7, metadata := [] }] ∧
      (∀ i, i < (sampleSession 2).messages.length →
        c'.messages[i]? = (sampleSession 2).messages[i]?) ∧
      c'.stats.messageCount = (sampleSession 2).stats.messageCount + 1 ∧
      c'.stats.audioProcessingTime = (sampleSession 2).stats.audioProcessingTime ∧
      c'.stats.totalDuration = (sampleSession 2).stats.totalDuration ∧
      c'.lastActivity = 7 ∧
      c'.id = (sampleSession 2).id ∧ c'.mode = (sampleSession 2).mode ∧
      c'.metadata = (sampleSession 2).metadata ∧
      c'.startTime = (sampleSession 2).startTime) ∧
    (∀ other, other ≠ "call-1" →
      ((⟨[{ live := true, conv := sampleSession 2 }], []⟩ : ConversationManager).addMessage
        "call-1" "user" (some "Alo?") [] 7).1.lookup other =
        (⟨[{ live := true, conv := sampleSession 2 }], []⟩ : ConversationManager).lookup
          other) :=
  addMessage_postcondition ⟨[{ live := true, conv := sampleSession 2 }], []⟩
    "call-1" "user" "Alo?" [] 7 (sampleSession 2) (by decide)

/-- C15. Ending a session: after `endConversation(id, reason)` a get for `id` finds nothing
and the sessions under other identifiers are unchanged; on an identifier without live
session the call leaves the store as it is, so a second call right after the first changes
nothing. -/
theorem endConversation_removes (mgr : ConversationManager) (callId reason : String) :
    (mgr.endConversation callId reason).lookup callId = none ∧
    (∀ now, (mgr.endConversation callId reason).getConversation callId now =
      (mgr.endConversation callId reason, none)) ∧
    (∀ other, other ≠ callId →
      (mgr.endConversation callId reason).lookup other = mgr.lookup other) ∧
    (mgr.lookup callId = none → mgr.endConversation callId reason = mgr) ∧
    (∀ again, (mgr.endConversation callId reason).endConversation callId again =
      mgr.endConversation callId reason) := by
  have hgone : (mgr.endConversation callId reason).lookup callId = none := by
    unfold ConversationManager.endConversation
    cases hl : mgr.lookup callId with
    | none => exact hl
    | some c =>
      simp only [ConversationManager.lookup]
      exact lookupLive_deleteLive callId mgr.cells
  have hnoop : ∀ (m : ConversationManager) (r : String),
      m.lookup callId = none → m.endConversation callId r = m := by
    intro m r hm
    unfold ConversationManager.endConversation
    rw [hm]
  refine ⟨hgone, ?_, ?_, hnoop mgr reason, ?_⟩
  · intro now
    exact getConversation_missing _ callId now hgone
  · intro other hne
    unfold ConversationManager.endConversation
    cases hl : mgr.lookup callId with
    | none => rfl
    | some c =>
      simp only [ConversationManager.lookup]
      exact lookupLive_deleteLive_other callId other hne mgr.cells
  · intro again
    exact hnoop _ again hgone

theorem endConversation_removes_witness :
    ((⟨[{ live := true, conv := sampleSession 2 }], []⟩ :
        ConversationManager).endConversation "call-1" "reset").lookup "call-1" = none ∧
    ((⟨[{ live := true, conv := sampleSession 2 }], []⟩ :
        ConversationManager).endConversation "call-1" "reset").endConversation "call-1"
        "timeout" =
      (⟨[{ live := true, conv := sampleSession 2 }], []⟩ :
        ConversationManager).endConversation "call-1" "reset" :=
  ⟨(endConversation_removes ⟨[{ live := true, conv := sampleSession 2 }], []⟩
      "call-1" "reset").1,
   (endConversation_removes
      ((⟨[{ live := true, conv := sampleSession 2 }], []⟩ :
        ConversationManager).endConversation "call-1" "reset")
      "call-1" "timeout").2.2.2.1 (by decide)⟩

theorem JsObj.lookup_set (o : JsObj) (k k' : String) (v : JsVal) :
    List.lookup k' (JsObj.set o k v) = if k' = k then some v else List.lookup k' o := by
  induction o with
  | nil =>
    by_cases h : k' = k
    · have hb : (k' == k) = true := by simpa using h
      simp [JsObj.set, List.lookup, hb, h]
    · have hb : (k' == k) = false := by simpa using h
      simp [JsObj.set, List.lookup, hb, h]
  | cons p rest ih =>
    obtain ⟨a, w⟩ := p
    by_cases ha : a = k
    · subst ha
      by_cases h : k' = a
      · have hb : (k' == a) = true := by simpa using h
        simp [JsObj.set, List.lookup, hb, h]
      · have hb : (k' == a) = false := by simpa using h
        simp [JsObj.set, List.lookup, hb, h]
    · by_cases h : k' = a
      · have hk : ¬ k' = k := fun hk => ha (h.symm.trans hk)
        have hb : (k' == a) = true := by simpa using h
        simp [JsObj.set, List.lookup, ha, hb, hk]
      · have hb : (k' == a) = false := by simpa using h
        simp [JsObj.set, List.lookup, ha, hb, ih]

theorem JsObj.get_set (o : JsObj) (k k' : String) (v : JsVal) :
    (JsObj.set o k v).get k' = if k' = k then v else o.get k' := by
  unfold JsObj.get
  rw [JsObj.lookup_set]
  by_cases h : k' = k
  · simp [h]
  · simp [h]

theorem JsObj.get_assign_of_not_mem (k : String) (source : JsObj) :
    ∀ target : JsObj, k ∉ source.map Prod.fst →
      (JsObj.assign target source).get k = target.get k := by
  induction source with
  | nil => intro target _; rfl
  | cons p rest ih =>
    intro target hk
    simp only [List.map_cons, List.mem_cons, not_or] at hk
    have hstep : JsObj.assign target (p :: rest) = JsObj.assign (target.set p.1 p.2) rest :=
      rfl
    rw [hstep, ih _ hk.2, JsObj.get_set, if_neg hk.1]

theorem JsObj.get_assign_of_mem (k : String) (v : JsVal) (source : JsObj) :
    ∀ target : JsObj, (source.map Prod.fst).Nodup → (k, v) ∈ source →
      (JsObj.assign target source).get k = v := by
  induction source with
  | nil => intro target _ h; simp at h
  | cons p rest ih =>
    intro target hnd hmem
    simp only [List.map_cons, List.nodup_cons] at hnd
    have hstep : JsObj.assign target (p :: rest) = JsObj.assign (target.set p.1 p.2) rest :=
      rfl
    rw [hstep]
    rcases List.mem_cons.mp hmem with h | h
    · subst h
      rw [JsObj.get_assign_of_not_mem _ rest _ hnd.1, JsObj.get_set, if_pos rfl]
    · exact ih _ hnd.2 h

theorem filter_holds_deleteLive (callId : String) (cells : List Cell) :
    (deleteLive callId cells).filter (fun c => c.holds callId) = [] := by
  induction cells with
  | nil => rfl
  | cons c rest ih =>
    simp only [deleteLive, List.map_cons] at ih ⊢
    rw [List.filter_cons, holds_deleteLive]
    simpa using ih

/-- C19. Create replaces, never merges: after `createConversation(id, mode, metadata)` the
store holds exactly one session under `id`, the new object, whatever it held before: it has
the given mode, no message, all-zero stats and the given metadata properties, and is built
from the arguments alone; the sessions under other identifiers are unchanged. -/
theorem createConversation_replaces (mgr : ConversationManager) (callId mode : String)
    (metadata : JsObj) (now : Nat) :
    (mgr.createConversation callId mode metadata now).1.lookup callId =
      some (newConversation callId mode metadata now) ∧
    (mgr.createConversation callId mode metadata now).1.deref
        (mgr.createConversation callId mode metadata now).2 =
      some (newConversation callId mode metadata now) ∧
    ((mgr.createConversation callId mode metadata now).1.cells.filter
      (fun c => c.holds callId)).length = 1 ∧
    (newConversation callId mode metadata now).id = callId ∧
    (newConversation callId mode metadata now).mode = mode ∧
    (newConversation callId mode metadata now).messages = [] ∧
    (newConversation callId mode metadata now).stats =
      { messageCount := 0, audioProcessingTime := 0, totalDuration := 0 } ∧
    ((metadata.map Prod.fst).Nodup → ∀ k v, (k, v) ∈ metadata →
      (newConversation callId mode metadata now).metadata.get k = v) ∧
    (∀ other, other ≠ callId →
      (mgr.createConversation callId mode metadata now).1.lookup other =
        mgr.lookup other) := by
  refine ⟨?_, ?_, ?_, rfl, rfl, rfl, rfl, ?_, ?_⟩
  · simp only [ConversationManager.createConversation, ConversationManager.lookup]
    exact lookupLive_create callId _ rfl mgr.cells
  · simp [ConversationManager.createConversation, ConversationManager.deref, deleteLive]
  · simp only [ConversationManager.createConversation, List.filter_append,
      filter_holds_deleteLive]
    simp [Cell.holds, newConversation]
  · intro hnd k v hmem
    simp only [newConversation]
    exact JsObj.get_assign_of_mem k v metadata _ hnd hmem
  · intro other hne
    simp only [ConversationManager.createConversation, ConversationManager.lookup]
    have happ : ∀ (cells : List Cell) (c : Cell), c.holds other = false →
        lookupLive other (cells ++ [c]) = lookupLive other cells := by
      intro cells c hc
      induction cells with
      | nil => simp [lookupLive, hc]
      | cons d rest ih => simp [lookupLive, ih]
    rw [happ _ _ (by
      simp [Cell.holds, newConversation]
      exact fun h => hne h.symm)]
    exact lookupLive_deleteLive_other callId other hne mgr.cells

theorem createConversation_replaces_witness :
    ((([("userAgent", JsVal.str "agent"), ("ip", JsVal.str "10.0.0.1")] : JsObj).map
        Prod.fst).Nodup) ∧
    (((⟨[{ live := true, conv := sampleSession 2 }], []⟩ :
        ConversationManager).createConversation "call-1" "tarot"
        [("userAgent", .str "agent"), ("ip", .str "10.0.0.1")] 50).1.lookup "call-1" =
      some (newConversation "call-1" "tarot"
        [("userAgent", .str "agent"), ("ip", .str "10.0.0.1")] 50)) ∧
    (newConversation "call-1" "tarot"
      [("userAgent", .str "agent"), ("ip", .str "10.0.0.1")] 50).metadata.get "ip" =
      .str "10.0.0.1" :=
  ⟨by decide,
   (createConversation_replaces ⟨[{ live := true, conv := sampleSession 2 }], []⟩
      "call-1" "tarot" [("userAgent", .str "agent"), ("ip", .str "10.0.0.1")] 50).1,
   (createConversation_replaces ⟨[{ live := true, conv := sampleSession 2 }], []⟩
      "call-1" "tarot" [("userAgent", .str "agent"), ("ip", .str "10.0.0.1")]
      50).2.2.2.2.2.2.2.1 (by decide) "ip" (.str "10.0.0.1") (by decide)⟩


/-! ## Stats update (`updateConversationStats`) -/

/-- C13, counterexample. A session whose stored `totalDuration` is 100 and
`audioProcessingTime` is 40 receives an update carrying 50 and 30: the stored values become
50 and 30, not 150 and 70, and `totalDuration` has decreased. -/
theorem updateConversationStats_not_additive :
    ∃ c' : Conversation,
      (statsStore.updateConversationStats "call-1"
        { messageCount := none, audioProcessingTime := some 30, totalDuration := some 50 }
        200).1.lookup "call-1" = some c' ∧
      statsSession.stats.totalDuration = 100 ∧
      statsSession.stats.audioProcessingTime = 40 ∧
      c'.stats.totalDuration = 50 ∧
      c'.stats.totalDuration ≠ statsSession.stats.totalDuration + 50 ∧
      c'.stats.audioProcessingTime = 30 ∧
      c'.stats.audioProcessingTime ≠ statsSession.stats.audioProcessingTime + 30 ∧
      c'.stats.totalDuration < statsSession.stats.totalDuration :=
  ⟨{ statsSession with
      stats := { messageCount := 2, audioProcessingTime := 30, totalDuration := 50 }
      lastActivity := 200 },
   by decide, by decide, by decide, by decide, by decide, by decide, by decide, by decide⟩

theorem updateConversationStats_other (mgr : ConversationManager) (callId other : String)
    (patch : StatsPatch) (now : Nat) (hne : other ≠ callId) :
    (mgr.updateConversationStats callId patch now).1.lookup other = mgr.lookup other := by
  have hg := getConversation_other mgr callId other now hne
  unfold ConversationManager.updateConversationStats
  cases hget : mgr.getConversation callId now with
  | mk mgr₁ found =>
    rw [hget] at hg
    cases found with
    | none => exact hg
    | some ref =>
      have hmod : lookupLive other
          (modifyLive callId (fun c =>
            { c with stats := c.stats.assign patch, lastActivity := now }) mgr₁.cells) =
          lookupLive other mgr₁.cells := by
        refine lookupLive_modifyLive_other callId _ ?_ other hne mgr₁.cells
        intro x
        rfl
      simpa [ConversationManager.lookup, hmod] using hg

/-- C13, amended. Stats updates overwrite: on an existing session an update carrying
`totalDuration` d and `audioProcessingTime` a leaves the stored `totalDuration` equal to d
and the stored `audioProcessingTime` equal to a, whatever they were, and `messageCount` as
it was; after two updates the stored values are those of the second. Other sessions are
unchanged, and on an identifier without session the call changes nothing. -/
theorem updateConversationStats_overwrites (mgr : ConversationManager) (callId : String)
    (d a d₂ a₂ now now₂ : Nat) :
    (∀ c, mgr.lookup callId = some c →
      (mgr.updateConversationStats callId
        { messageCount := none, audioProcessingTime := some a, totalDuration := some d }
        now).1.lookup callId =
        some { c with
          stats := { messageCount := c.stats.messageCount, audioProcessingTime := a,
                     totalDuration := d }
          lastActivity := now } ∧
      ((mgr.updateConversationStats callId
        { messageCount := none, audioProcessingTime := some a, totalDuration := some d }
        now).1.updateConversationStats callId
        { messageCount := none, audioProcessingTime := some a₂, totalDuration := some d₂ }
        now₂).1.lookup callId =
        some { c with
          stats := { messageCount := c.stats.messageCount, audioProcessingTime := a₂,
                     totalDuration := d₂ }
          lastActivity := now₂ }) ∧
    (∀ other, other ≠ callId →
      (mgr.updateConversationStats callId
        { messageCount := none, audioProcessingTime := some a, totalDuration := some d }
        now).1.lookup other = mgr.lookup other) ∧
    (mgr.lookup callId = none →
      mgr.updateConversationStats callId
        { messageCount := none, audioProcessingTime := some a, totalDuration := some d }
        now = (mgr, none)) := by
  refine ⟨?_, ?_, ?_⟩
  · intro c hc
    obtain ⟨ref, ht⟩ := tracks_of_lookup mgr callId c hc
    have h1 := updateConversationStats_tracks mgr callId ref c
      { messageCount := none, audioProcessingTime := some a, totalDuration := some d } now ht
    have h2 := updateConversationStats_tracks _ callId ref _
      { messageCount := none, audioProcessingTime := some a₂, totalDuration := some d₂ }
      now₂ h1
    exact ⟨h1.2, h2.2⟩
  · intro other hne
    exact updateConversationStats_other mgr callId other _ now hne
  · intro hnone
    unfold ConversationManager.updateConversationStats
    rw [getConversation_missing mgr callId now hnone]

theorem updateConversationStats_overwrites_witness :
    (statsStore.updateConversationStats "call-1"
      { messageCount := none, audioProcessingTime := some 30, totalDuration := some 50 }
      200).1.lookup "call-1" =
      some { statsSession with
        stats := { messageCount := statsSession.stats.messageCount,
                   audioProcessingTime := 30, totalDuration := 50 }
        lastActivity := 200 } ∧
    ConversationManager.init.updateConversationStats "call-1"
      { messageCount := none, audioProcessingTime := some 30, totalDuration := some 50 }
      200 = (ConversationManager.init, none) :=
  ⟨((updateConversationStats_overwrites statsStore "call-1" 50 30 60 35 200 300).1
      statsSession (by decide)).1,
   (updateConversationStats_overwrites ConversationManager.init "call-1" 50 30 60 35 200
      300).2.2 rfl⟩


/-! ## Idle sweep (`cleanupOldConversations`) -/

theorem endConversation_lookup_self (mgr : ConversationManager) (callId reason : String) :
    (mgr.endConversation callId reason).lookup callId = none := by
  unfold ConversationManager.endConversation
  cases hl : mgr.lookup callId with
  | none => exact hl
  | some c =>
    simp only [ConversationManager.lookup]
    exact lookupLive_deleteLive callId mgr.cells

theorem endConversation_lookup_other (mgr : ConversationManager) (callId reason other : String)
    (hne : other ≠ callId) :
    (mgr.endConversation callId reason).lookup other = mgr.lookup other := by
  unfold ConversationManager.endConversation
  cases hl : mgr.lookup callId with
  | none => rfl
  | some c =>
    simp only [ConversationManager.lookup]
    exact lookupLive_deleteLive_other callId other hne mgr.cells

theorem endConversation_events_mono (mgr : ConversationManager) (callId reason : String)
    (e : Event) (he : e ∈ mgr.events) : e ∈ (mgr.endConversation callId reason).events := by
  unfold ConversationManager.endConversation
  cases hl : mgr.lookup callId with
  | none => exact he
  | some c => exact List.mem_append_left _ he

theorem endConversation_logs (mgr : ConversationManager) (callId reason : String)
    (c : Conversation) (h : mgr.lookup callId = some c) :
    Event.convEnd callId reason c.stats.messageCount ∈
      (mgr.endConversation callId reason).events := by
  unfold ConversationManager.endConversation
  rw [h]
  simp

theorem mem_liveEntries_of_lookupLive (callId : String) (c : Conversation) :
    ∀ cells : List Cell, lookupLive callId cells = some c → (callId, c) ∈ liveEntries cells := by
  intro cells
  induction cells with
  | nil => intro h; simp [lookupLive] at h
  | cons d rest ih =>
    intro h
    by_cases hd : d.holds callId = true
    · simp only [lookupLive, hd, if_true] at h
      have hlive : d.live = true := by
        simp [Cell.holds] at hd
        exact hd.1
      have hid : d.conv.id = callId := by
        simp [Cell.holds] at hd
        exact hd.2
      have hc : d.conv = c := Option.some.inj h
      subst hc
      simp [liveEntries, List.filter_cons, hlive, hid]
    · simp only [lookupLive, hd] at h
      have := ih h
      simp only [liveEntries, List.filter_cons] at this ⊢
      by_cases hl : d.live = true
      · simp only [hl, if_true, List.map_cons]
        exact List.mem_cons_of_mem _ this
      · simpa [hl] using this

theorem lookupLive_of_mem_liveEntries (callId : String) (c : Conversation) :
    ∀ cells : List Cell, ((liveEntries cells).map Prod.fst).Nodup →
      (callId, c) ∈ liveEntries cells → lookupLive callId cells = some c := by
  intro cells
  induction cells with
  | nil => intro _ h; simp [liveEntries] at h
  | cons d rest ih =>
    intro hnd hmem
    by_cases hl : d.live = true
    · have hent : liveEntries (d :: rest) = (d.conv.id, d.conv) :: liveEntries rest := by
        simp [liveEntries, List.filter_cons, hl]
      rw [hent] at hnd hmem
      simp only [List.map_cons, List.nodup_cons] at hnd
      rcases List.mem_cons.mp hmem with h | h
      · have hid : d.conv.id = callId := (congrArg Prod.fst h).symm
        have hc : d.conv = c := (congrArg Prod.snd h).symm
        subst hc
        simp [lookupLive, Cell.holds, hl, hid]
      · have hne : ¬ d.conv.id = callId := by
          intro hid
          apply hnd.1
          rw [hid]
          exact List.mem_map_of_mem Prod.fst h
        simp only [lookupLive, Cell.holds, hl, hne, Bool.true_and, decide_False,
          Bool.false_eq_true, if_false]
        exact ih hnd.2 h
    · have hent : liveEntries (d :: rest) = liveEntries rest := by
        simp [liveEntries, List.filter_cons, hl]
      rw [hent] at hnd hmem
      simp only [lookupLive, Cell.holds, hl, Bool.false_and, Bool.false_eq_true, if_false]
      exact ih hnd hmem


theorem sweep_fold (now : Nat) :
    ∀ (es : List (String × Conversation)) (m : ConversationManager) (n : Nat),
      (es.map Prod.fst).Nodup → (∀ p ∈ es, m.lookup p.1 = some p.2) →
      (∀ id, (∃ p ∈ es, p.1 = id ∧ isExpired now p.2 = true) →
        (es.foldl (sweepStep now) (m, n)).1.lookup id = none) ∧
      (∀ id, (¬ ∃ p ∈ es, p.1 = id ∧ isExpired now p.2 = true) →
        (es.foldl (sweepStep now) (m, n)).1.lookup id = m.lookup id) ∧
      (es.foldl (sweepStep now) (m, n)).2 =
        n + (es.filter (fun p => isExpired now p.2)).length ∧
      (∀ e ∈ m.events, e ∈ (es.foldl (sweepStep now) (m, n)).1.events) ∧
      (∀ p ∈ es, isExpired now p.2 = true →
        Event.convEnd p.1 "timeout" p.2.stats.messageCount ∈
          (es.foldl (sweepStep now) (m, n)).1.events) := by
  intro es
  induction es with
  | nil =>
    intro m n _ _
    refine ⟨?_, ?_, ?_, ?_, ?_⟩
    · rintro id ⟨p, hp, _⟩
      simp at hp
    · intro id _
      rfl
    · simp
    · intro e he
      exact he
    · intro p hp
      simp at hp
  | cons p rest ih =>
    intro m n hnd hinv
    simp only [List.map_cons, List.nodup_cons] at hnd
    have hne : ∀ q ∈ rest, q.1 ≠ p.1 := by
      intro q hq heq
      apply hnd.1
      rw [← heq]
      exact List.mem_map_of_mem Prod.fst hq
    rw [List.foldl_cons]
    by_cases hexp : isExpired now p.2 = true
    · have hstep : sweepStep now (m, n) p = (m.endConversation p.1 "timeout", n + 1) := by
        simp [sweepStep, hexp]
      rw [hstep]
      have hinv' : ∀ q ∈ rest, (m.endConversation p.1 "timeout").lookup q.1 = some q.2 := by
        intro q hq
        rw [endConversation_lookup_other m p.1 "timeout" q.1 (hne q hq)]
        exact hinv q (List.mem_cons_of_mem _ hq)
      obtain ⟨h1, h2, h3, h4, h5⟩ := ih (m.endConversation p.1 "timeout") (n + 1) hnd.2 hinv'
      refine ⟨?_, ?_, ?_, ?_, ?_⟩
      · rintro id ⟨q, hq, hqid, hqe⟩
        by_cases hrest : ∃ q ∈ rest, q.1 = id ∧ isExpired now q.2 = true
        · exact h1 id hrest
        · rw [h2 id hrest]
          rcases List.mem_cons.mp hq with hqp | hqr
          · rw [← hqid, hqp]
            exact endConversation_lookup_self m p.1 "timeout"
          · exact absurd ⟨q, hqr, hqid, hqe⟩ hrest
      · intro id hno
        have hrest : ¬ ∃ q ∈ rest, q.1 = id ∧ isExpired now q.2 = true := by
          rintro ⟨q, hq, hqid, hqe⟩
          exact hno ⟨q, List.mem_cons_of_mem _ hq, hqid, hqe⟩
        have hid : id ≠ p.1 := by
          intro heq
          exact hno ⟨p, List.mem_cons_self _ _, heq.symm, hexp⟩
        rw [h2 id hrest]
        exact endConversation_lookup_other m p.1 "timeout" id hid
      · rw [h3, List.filter_cons]
        simp [hexp]
        omega
      · intro e he
        exact h4 e (endConversation_events_mono m p.1 "timeout" e he)
      · intro q hq hqe
        rcases List.mem_cons.mp hq with hqp | hqr
        · rw [hqp]
          exact h4 _ (endConversation_logs m p.1 "timeout" p.2
            (hinv p (List.mem_cons_self _ _)))
        · exact h5 q hqr hqe
    · have hstep : sweepStep now (m, n) p = (m, n) := by
        simp [sweepStep, hexp]
      rw [hstep]
      have hinv' : ∀ q ∈ rest, m.lookup q.1 = some q.2 := fun q hq =>
        hinv q (List.mem_cons_of_mem _ hq)
      obtain ⟨h1, h2, h3, h4, h5⟩ := ih m n hnd.2 hinv'
      refine ⟨?_, ?_, ?_, h4, ?_⟩
      · rintro id ⟨q, hq, hqid, hqe⟩
        rcases List.mem_cons.mp hq with hqp | hqr
        · rw [hqp] at hqe
          exact absurd hqe hexp
        · exact h1 id ⟨q, hqr, hqid, hqe⟩
      · intro id hno
        apply h2 id
        rintro ⟨q, hq, hqid, hqe⟩
        exact hno ⟨q, List.mem_cons_of_mem _ hq, hqid, hqe⟩
      · rw [h3, List.filter_cons]
        simp [hexp]
      · intro q hq hqe
        rcases List.mem_cons.mp hq with hqp | hqr
        · rw [hqp] at hqe
          exact absurd hqe hexp
        · exact h5 q hqr hqe


/-- C14. Idle sweep: on a store whose `Map` holds one conversation per key, after
`cleanupOldConversations` at time `now` a session whose idle age `now - lastActivity` is at
most 30 minutes is still held, unchanged; a session whose idle age exceeds 30 minutes is no
longer held and its end was logged with reason "timeout"; no session appears; and the
returned count is the number of identifiers whose session was removed. -/
theorem cleanupOldConversations_sweeps (mgr : ConversationManager) (now : Nat)
    (hwf : mgr.WellFormed) :
    maxConversationAge = 1800000 ∧
    (∀ id c, mgr.lookup id = some c → now - c.lastActivity ≤ maxConversationAge →
      (mgr.cleanupOldConversations now).1.lookup id = some c) ∧
    (∀ id c, mgr.lookup id = some c → now - c.lastActivity > maxConversationAge →
      (mgr.cleanupOldConversations now).1.lookup id = none ∧
      Event.convEnd id "timeout" c.stats.messageCount ∈
        (mgr.cleanupOldConversations now).1.events) ∧
    (∀ id, mgr.lookup id = none → (mgr.cleanupOldConversations now).1.lookup id = none) ∧
    (∃ removed : List String,
      removed.Nodup ∧
      (∀ id, id ∈ removed ↔
        (mgr.lookup id ≠ none ∧ (mgr.cleanupOldConversations now).1.lookup id = none)) ∧
      (mgr.cleanupOldConversations now).2 = removed.length) := by
  have hinv : ∀ p ∈ liveEntries mgr.cells, mgr.lookup p.1 = some p.2 := by
    intro p hp
    exact lookupLive_of_mem_liveEntries p.1 p.2 mgr.cells hwf hp
  obtain ⟨h1, h2, h3, _, h5⟩ := sweep_fold now (liveEntries mgr.cells) mgr 0 hwf hinv
  have hkeep : ∀ id c, mgr.lookup id = some c → now - c.lastActivity ≤ maxConversationAge →
      (mgr.cleanupOldConversations now).1.lookup id = some c := by
    intro id c hc hage
    have hno : ¬ ∃ p ∈ liveEntries mgr.cells, p.1 = id ∧ isExpired now p.2 = true := by
      rintro ⟨p, hp, hpid, hpe⟩
      have hl := hinv p hp
      rw [hpid, hc] at hl
      have hpc : c = p.2 := Option.some.inj hl
      rw [← hpc] at hpe
      simp only [isExpired, decide_eq_true_eq] at hpe
      omega
    have := h2 id hno
    rw [hc] at this
    exact this
  have hdrop : ∀ id c, mgr.lookup id = some c → now - c.lastActivity > maxConversationAge →
      (mgr.cleanupOldConversations now).1.lookup id = none ∧
      Event.convEnd id "timeout" c.stats.messageCount ∈
        (mgr.cleanupOldConversations now).1.events := by
    intro id c hc hage
    have hmem := mem_liveEntries_of_lookupLive id c mgr.cells hc
    have hexp : isExpired now c = true := by
      simp only [isExpired, decide_eq_true_eq]
      exact hage
    exact ⟨h1 id ⟨(id, c), hmem, rfl, hexp⟩, h5 (id, c) hmem hexp⟩
  refine ⟨rfl, hkeep, hdrop, ?_, ?_⟩
  · intro id hnone
    have hno : ¬ ∃ p ∈ liveEntries mgr.cells, p.1 = id ∧ isExpired now p.2 = true := by
      rintro ⟨p, hp, hpid, _⟩
      have hl := hinv p hp
      rw [hpid, hnone] at hl
      exact absurd hl (by simp)
    have := h2 id hno
    rw [hnone] at this
    exact this
  · refine ⟨((liveEntries mgr.cells).filter (fun p => isExpired now p.2)).map Prod.fst,
      ?_, ?_, ?_⟩
    · exact List.Nodup.sublist (List.Sublist.map Prod.fst (List.filter_sublist _)) hwf
    · intro id
      constructor
      · intro hid
        obtain ⟨p, hp, hpid⟩ := List.mem_map.mp hid
        obtain ⟨hpm, hpe⟩ := List.mem_filter.mp hp
        have hl := hinv p hpm
        rw [hpid] at hl
        refine ⟨by rw [hl]; simp, h1 id ⟨p, hpm, hpid, hpe⟩⟩
      · rintro ⟨hsome, hgone⟩
        cases hc : mgr.lookup id with
        | none => exact absurd hc hsome
        | some c =>
          have hage : now - c.lastActivity > maxConversationAge := by
            by_contra hle
            have := hkeep id c hc (by omega)
            rw [hgone] at this
            exact absurd this (by simp)
          have hmem := mem_liveEntries_of_lookupLive id c mgr.cells hc
          have hexp : isExpired now c = true := by
            simp only [isExpired, decide_eq_true_eq]
            exact hage
          exact List.mem_map.mpr ⟨(id, c), List.mem_filter.mpr ⟨hmem, hexp⟩, rfl⟩
    · have : (mgr.cleanupOldConversations now).2 =
          0 + ((liveEntries mgr.cells).filter (fun p => isExpired now p.2)).length := h3
      rw [this, List.length_map]
      omega


theorem cleanupOldConversations_sweeps_witness :
    sweepStore.WellFormed ∧
    (sweepStore.cleanupOldConversations 2000000).1.lookup "fresh" =
      some { sampleSession 1 with id := "fresh", lastActivity := 1900000 } ∧
    ((sweepStore.cleanupOldConversations 2000000).1.lookup "old" = none ∧
      Event.convEnd "old" "timeout" 2 ∈
        (sweepStore.cleanupOldConversations 2000000).1.events) ∧
    (sweepStore.cleanupOldConversations 2000000).2 = 1 :=
  ⟨by decide,
   (cleanupOldConversations_sweeps sweepStore 2000000 (by decide)).2.1 "fresh"
      { sampleSession 1 with id := "fresh", lastActivity := 1900000 } (by decide) (by decide),
   (cleanupOldConversations_sweeps sweepStore 2000000 (by decide)).2.2.1 "old"
      { sampleSession 2 with id := "old", lastActivity := 0 } (by decide) (by decide),
   by decide⟩

theorem wellFormed_init : ConversationManager.init.WellFormed := by
  simp [ConversationManager.WellFormed, ConversationManager.init, liveEntries]

theorem liveIds_modifyLive (callId : String) (f : Conversation → Conversation)
    (hf : ∀ x, (f x).id = x.id) (cells : List Cell) :
    (liveEntries (modifyLive callId f cells)).map Prod.fst =
      (liveEntries cells).map Prod.fst := by
  induction cells with
  | nil => rfl
  | cons c rest ih =>
    by_cases hc : c.holds callId = true
    · have hl : c.live = true := by
        simp [Cell.holds] at hc
        exact hc.1
      simp [modifyLive, hc, liveEntries, List.filter_cons, hl, hf]
    · simp only [modifyLive, hc, Bool.false_eq_true, if_false]
      simp only [liveEntries, List.filter_cons] at ih ⊢
      by_cases hl : c.live = true
      · simp only [hl, if_true, List.map_cons]
        rw [ih]
      · simpa [hl] using ih

theorem liveIds_deleteLive (callId : String) (cells : List Cell) :
    (liveEntries (deleteLive callId cells)).map Prod.fst =
      ((liveEntries cells).map Prod.fst).filter (fun id => decide (id ≠ callId)) := by
  induction cells with
  | nil => rfl
  | cons c rest ih =>
    have hcons : deleteLive callId (c :: rest) =
        (if c.holds callId then { c with live := false } else c) :: deleteLive callId rest :=
      rfl
    rw [hcons]
    by_cases hl : c.live = true
    · by_cases hid : c.conv.id = callId
      · have hc : c.holds callId = true := by simp [Cell.holds, hl, hid]
        rw [if_pos hc]
        have h1 : liveEntries (({ c with live := false } : Cell) :: deleteLive callId rest) =
            liveEntries (deleteLive callId rest) := by
          simp [liveEntries, List.filter_cons]
        have h2 : liveEntries (c :: rest) = (c.conv.id, c.conv) :: liveEntries rest := by
          simp [liveEntries, List.filter_cons, hl]
        rw [h1, h2, ih]
        simp [List.filter_cons, hid]
      · have hc : ¬ c.holds callId = true := by simp [Cell.holds, hl, hid]
        rw [if_neg hc]
        have h1 : liveEntries (c :: deleteLive callId rest) =
            (c.conv.id, c.conv) :: liveEntries (deleteLive callId rest) := by
          simp [liveEntries, List.filter_cons, hl]
        have h2 : liveEntries (c :: rest) = (c.conv.id, c.conv) :: liveEntries rest := by
          simp [liveEntries, List.filter_cons, hl]
        rw [h1, h2, List.map_cons, List.map_cons, ih]
        simp [List.filter_cons, hid]
    · have hc : ¬ c.holds callId = true := by simp [Cell.holds, hl]
      rw [if_neg hc]
      have h1 : liveEntries (c :: deleteLive callId rest) =
          liveEntries (deleteLive callId rest) := by
        simp [liveEntries, List.filter_cons, hl]
      have h2 : liveEntries (c :: rest) = liveEntries rest := by
        simp [liveEntries, List.filter_cons, hl]
      rw [h1, h2, ih]

theorem nodup_liveIds_modifyLive (callId : String) (f : Conversation → Conversation)
    (hf : ∀ x, (f x).id = x.id) (cells : List Cell)
    (h : ((liveEntries cells).map Prod.fst).Nodup) :
    ((liveEntries (modifyLive callId f cells)).map Prod.fst).Nodup := by
  rw [liveIds_modifyLive callId f hf cells]
  exact h

theorem wellFormed_getConversation (mgr : ConversationManager) (callId : String) (now : Nat)
    (h : mgr.WellFormed) : (mgr.getConversation callId now).1.WellFormed := by
  unfold ConversationManager.getConversation
  cases findLive callId mgr.cells with
  | none => exact h
  | some ref =>
    refine nodup_liveIds_modifyLive callId _ ?_ mgr.cells h
    intro x
    rfl

theorem wellFormed_addMessage (mgr : ConversationManager) (callId role : String)
    (content : Option String) (metadata : JsObj) (now : Nat) (h : mgr.WellFormed) :
    (mgr.addMessage callId role content metadata now).1.WellFormed := by
  have hg := wellFormed_getConversation mgr callId now h
  unfold ConversationManager.addMessage
  cases hget : mgr.getConversation callId now with
  | mk mgr₁ found =>
    rw [hget] at hg
    have hpush : ∀ message : Message,
        ({ mgr₁ with cells := modifyLive callId (fun c => c.push message now) mgr₁.cells } :
          ConversationManager).WellFormed := by
      intro message
      refine nodup_liveIds_modifyLive callId _ ?_ mgr₁.cells hg
      intro x
      rfl
    cases found with
    | none => exact hg
    | some ref =>
      cases content with
      | none => exact hpush _
      | some text => exact hpush _

theorem wellFormed_updateConversationStats (mgr : ConversationManager) (callId : String)
    (patch : StatsPatch) (now : Nat) (h : mgr.WellFormed) :
    (mgr.updateConversationStats callId patch now).1.WellFormed := by
  have hg := wellFormed_getConversation mgr callId now h
  unfold ConversationManager.updateConversationStats
  cases hget : mgr.getConversation callId now with
  | mk mgr₁ found =>
    rw [hget] at hg
    cases found with
    | none => exact hg
    | some ref =>
      refine nodup_liveIds_modifyLive callId _ ?_ mgr₁.cells hg
      intro x
      rfl

theorem wellFormed_endConversation (mgr : ConversationManager) (callId reason : String)
    (h : mgr.WellFormed) : (mgr.endConversation callId reason).WellFormed := by
  unfold ConversationManager.endConversation
  cases mgr.lookup callId with
  | none => exact h
  | some c =>
    simp only [ConversationManager.WellFormed]
    rw [liveIds_deleteLive]
    exact List.Nodup.filter _ h

theorem wellFormed_createConversation (mgr : ConversationManager) (callId mode : String)
    (metadata : JsObj) (now : Nat) (h : mgr.WellFormed) :
    (mgr.createConversation callId mode metadata now).1.WellFormed := by
  simp only [ConversationManager.createConversation, ConversationManager.WellFormed]
  have happ : liveEntries (deleteLive callId mgr.cells ++
      [{ live := true, conv := newConversation callId mode metadata now }]) =
      liveEntries (deleteLive callId mgr.cells) ++
        [(callId, newConversation callId mode metadata now)] := by
    simp [liveEntries, List.filter_append, newConversation]
  rw [happ, List.map_append, liveIds_deleteLive]
  refine List.Nodup.append (List.Nodup.filter _ h) (by simp) ?_
  intro id h1 h2
  simp only [List.map_cons, List.map_nil, List.mem_singleton] at h2
  subst h2
  simp at h1


/-! ## Persona validation (`validateChatRequest`, `createConversation`) -/

/-- C11, counterexample. `createConversation` with the unregistered mode "astrology" does
not fail: it stores a session of that mode under the identifier. -/
theorem createConversation_accepts_unknown_mode :
    "astrology" ∉ getAvailableModes ∧
    ∃ c : Conversation,
      (ConversationManager.init.createConversation "call-1" "astrology" [] 0).1.lookup "call-1"
        = some c ∧
      c.mode = "astrology" :=
  ⟨by decide, newConversation "call-1" "astrology" [] 0, by decide, rfl⟩

theorem validateChatRequest_unknown_mode (body : ChatBody) (mode : String)
    (hbody : body.mode = some mode) (hmode : mode ∉ getAvailableModes) :
    ∃ e, validateChatRequest body = .error e := by
  unfold validateChatRequest
  cases hc : body.callId with
  | none => exact ⟨_, rfl⟩
  | some callId =>
    by_cases he : callId = ""
    · simp [he]
    · by_cases hm : mode = ""
      · simp [he, hbody, hm]
      · simp [he, hbody, hm, hmode]

/-- C11, amended. `createConversation` checks no mode: for every mode, registered or not,
it stores the new session of that mode under the identifier. Unknown personas are rejected
at the route instead: for a request whose mode is not registered the middleware answers
status 400, the handler does not run and the store is unchanged. -/
theorem unknown_mode_rejected_at_route (mode : String) (hmode : mode ∉ getAvailableModes) :
    (∀ (mgr : ConversationManager) (callId : String) (metadata : JsObj) (now : Nat),
      ∃ c : Conversation,
        (mgr.createConversation callId mode metadata now).1.lookup callId = some c ∧
        c.mode = mode) ∧
    (∀ (mgr : ConversationManager) (body : ChatBody) (audio : Option (List Nat))
        (env : TurnEnv), body.mode = some mode →
      ∃ e, chatRoute mgr body audio env = (mgr, .rejected 400 e)) := by
  refine ⟨?_, ?_⟩
  · intro mgr callId metadata now
    refine ⟨newConversation callId mode metadata now, ?_, rfl⟩
    simp only [ConversationManager.createConversation, ConversationManager.lookup]
    exact lookupLive_create callId _ rfl mgr.cells
  · intro mgr body audio env hbody
    obtain ⟨e, he⟩ := validateChatRequest_unknown_mode body mode hbody hmode
    exact ⟨e, by simp [chatRoute, he]⟩

theorem unknown_mode_rejected_at_route_witness :
    "astrology" ∉ getAvailableModes ∧
    (∀ (mgr : ConversationManager) (callId : String) (metadata : JsObj) (now : Nat),
      ∃ c : Conversation,
        (mgr.createConversation callId "astrology" metadata now).1.lookup callId = some c ∧
        c.mode = "astrology") ∧
    (∀ (mgr : ConversationManager) (body : ChatBody) (audio : Option (List Nat))
        (env : TurnEnv), body.mode = some "astrology" →
      ∃ e, chatRoute mgr body audio env = (mgr, .rejected 400 e)) :=
  ⟨by decide, unknown_mode_rejected_at_route "astrology" (by decide)⟩


/-! ## Reset (`POST /reset`) -/

theorem getResponse_registered (model : String) (complete : List ApiMessage → RemoteOutcome)
    (duration : Nat) (c : Conversation) (hmode : c.mode ∈ getAvailableModes)
    (hmsg : ∀ input e, complete input = .throws e → ∃ m, e.message = some m) :
    ∃ aiResult r, getResponse model complete duration (some c) = .ok aiResult ∧
      aiResult.replyText = some r := by
  obtain ⟨prompt, hp⟩ := getSystemPrompt_registered c.mode hmode
  obtain ⟨texts, ht⟩ := fallbackResponses_registered c.mode hmode
  have hb := buildMessages_of_prompt c (some prompt) hp
  unfold getResponse
  simp only [hb]
  cases hc : complete _ with
  | reply content usage => exact ⟨_, content, rfl, rfl⟩
  | throws e =>
    obtain ⟨m, hm⟩ := hmsg _ e hc
    simp only [getResponseCatch]
    rw [generateFallbackResponse_of_texts c.mode texts ht e m hm]
    exact ⟨_, _, rfl, rfl⟩

theorem chatHandler_without_audio (mgr : ConversationManager) (req : ChatRequest)
    (env : TurnEnv) (haudio : req.audio = none) :
    chatHandler mgr req env =
      generateAndReply (resolveSession mgr req env).1 (resolveSession mgr req env).2
        req env "" none [] := by
  unfold chatHandler
  simp only [haudio]

/-- C16. Reset starts over: after the reset operation for a call identifier `id` no session
is held under `id`, so the next turn for `id` resolves a brand-new session with no message
and zeroed stats; when that turn carries no audio (its mode registered, the remote errors
carrying a message), the generation receives exactly the system instructions followed by
the begin marker, and the session ends the turn with exactly one message, the assistant's
reply. -/
theorem resetRoute_starts_over (mgr : ConversationManager) (req : ChatRequest) (env : TurnEnv)
    (hid : req.callId ≠ "") :
    (resetRoute mgr (some req.callId)).2 = .done "Conversația a fost resetată" ∧
    (resetRoute mgr (some req.callId)).1.lookup req.callId = none ∧
    (∃ c : Conversation,
      (resolveSession (resetRoute mgr (some req.callId)).1 req env).1.lookup req.callId
        = some c ∧
      c.mode = req.mode ∧ c.messages = [] ∧
      c.stats = { messageCount := 0, audioProcessingTime := 0, totalDuration := 0 }) ∧
    (req.audio = none → req.mode ∈ getAvailableModes →
      (∀ input e, env.complete input = .throws e → ∃ m, e.message = some m) →
      ∃ (prompt r : String) (c' : Conversation) (m : Message),
        getSystemPrompt req.mode = .ok (some prompt) ∧
        (chatHandler (resetRoute mgr (some req.callId)).1 req env).2.calls =
          [.complete [{ role := "system", content := some prompt },
                      { role := "user", content := some "START_CONVERSATIE" }],
           .synthesize r] ∧
        (chatHandler (resetRoute mgr (some req.callId)).1 req env).2.response.reply
          = some r ∧
        (chatHandler (resetRoute mgr (some req.callId)).1 req env).1.lookup req.callId
          = some c' ∧
        c'.messages = [m] ∧ m.role = "assistant" ∧ m.content = some r ∧
        c'.stats.messageCount = 1) := by
  have hreset : resetRoute mgr (some req.callId) =
      (mgr.endConversation req.callId "reset", .done "Conversația a fost resetată") := by
    simp [resetRoute, hid]
  rw [hreset]
  have hgone : (mgr.endConversation req.callId "reset").lookup req.callId = none :=
    endConversation_lookup_self mgr req.callId "reset"
  obtain ⟨c, ht, _, hcm, hmsgs, hstats⟩ :=
    resolveSession_new (mgr.endConversation req.callId "reset") req env hgone
  refine ⟨rfl, hgone, ⟨c, ht.2, hcm, hmsgs, hstats⟩, ?_⟩
  intro haudio hmode hmsg
  have hcmode : c.mode ∈ getAvailableModes := by rw [hcm]; exact hmode
  obtain ⟨prompt, hp⟩ := getSystemPrompt_registered c.mode hcmode
  obtain ⟨aiResult, r, hai, hr⟩ :=
    getResponse_registered env.model env.complete env.aiDuration c hcmode hmsg
  have hs := generateAndReply_spec _ _ req env "" none [] c aiResult r ht hai hr
  have hb := buildMessages_of_prompt c (some prompt) hp
  rw [chatHandler_without_audio _ req env haudio]
  refine ⟨prompt, r, _, assistantMessage env.t2 aiResult r, by rw [← hcm]; exact hp, ?_, ?_,
    hs.1.2, ?_, rfl, rfl, ?_⟩
  · rw [hs.2.2.1]
    simp [generationCalls, hb, hmsgs]
  · rw [hs.2.1]
    rfl
  · simp [Conversation.afterReply, Conversation.push, hmsgs]
  · simp [Conversation.afterReply, Conversation.push, Stats.assign, turnStatsPatch, hstats]

theorem resetRoute_starts_over_witness :
    (resetRoute statsStore (some "call-1")).1.lookup "call-1" = none ∧
    ∃ (prompt r : String) (c' : Conversation) (m : Message),
      getSystemPrompt "dental" = .ok (some prompt) ∧
      (chatHandler (resetRoute statsStore (some "call-1")).1 (sampleRequest none)
        (sampleEnv (fun _ => .throws serviceError) (fun _ => .reply dentalGreeting .null)
          (fun _ => .audio "u1" 10))).2.calls =
        [.complete [{ role := "system", content := some prompt },
                    { role := "user", content := some "START_CONVERSATIE" }],
         .synthesize r] ∧
      (chatHandler (resetRoute statsStore (some "call-1")).1 (sampleRequest none)
        (sampleEnv (fun _ => .throws serviceError) (fun _ => .reply dentalGreeting .null)
          (fun _ => .audio "u1" 10))).2.response.reply = some r ∧
      (chatHandler (resetRoute statsStore (some "call-1")).1 (sampleRequest none)
        (sampleEnv (fun _ => .throws serviceError) (fun _ => .reply dentalGreeting .null)
          (fun _ => .audio "u1" 10))).1.lookup "call-1" = some c' ∧
      c'.messages = [m] ∧ m.role = "assistant" ∧ m.content = some r ∧
      c'.stats.messageCount = 1 :=
  ⟨(resetRoute_starts_over statsStore (sampleRequest none)
      (sampleEnv (fun _ => .throws serviceError) (fun _ => .reply dentalGreeting .null)
        (fun _ => .audio "u1" 10)) (by decide)).2.1,
   (resetRoute_starts_over statsStore (sampleRequest none)
      (sampleEnv (fun _ => .throws serviceError) (fun _ => .reply dentalGreeting .null)
        (fun _ => .audio "u1" 10)) (by decide)).2.2.2 rfl (by decide)
      (fun _ e h => by simp [sampleEnv] at h)⟩


/-! ## Eviction during a turn -/

theorem addMessage_absent (mgr : ConversationManager) (callId role : String)
    (content : Option String) (metadata : JsObj) (now : Nat)
    (h : mgr.lookup callId = none) :
    mgr.addMessage callId role content metadata now =
      (mgr, .error (JsError.ofMessage ("Conversația cu ID-ul " ++ callId ++ " nu există"))) := by
  unfold ConversationManager.addMessage
  rw [getConversation_missing mgr callId now h]

theorem chatHandlerInterleaved_none (mgr : ConversationManager) (req : ChatRequest)
    (env : TurnEnv) :
    chatHandlerInterleaved mgr req env Interleaving.none = chatHandler mgr req env := by
  have hgen : ∀ m ref um stt calls,
      generateAndReplyInterleaved m ref req env Interleaving.none um stt calls =
        generateAndReply m ref req env um stt calls := by
    intro m ref um stt calls
    rfl
  unfold chatHandlerInterleaved chatHandler
  simp only [hgen]
  rfl

theorem generateAndReplyInterleaved_evicted (mgr : ConversationManager) (ref : Nat)
    (req : ChatRequest) (env : TurnEnv) (between : Interleaving) (userMessage : String)
    (stt : Option SttResult) (calls : List RemoteCall)
    (hevict : (between.duringGeneration mgr).lookup req.callId = none) :
    generateAndReplyInterleaved mgr ref req env between userMessage stt calls =
      (between.duringGeneration mgr,
       internalErrorOutcome env env.t2 (calls ++ generationCalls (mgr.deref ref)) true) := by
  unfold generateAndReplyInterleaved
  cases hres : getResponse env.model env.complete env.aiDuration (mgr.deref ref) with
  | error e => simp only [hres]
  | ok aiResult =>
    simp only [hres]
    rw [addMessage_absent _ req.callId "assistant" aiResult.replyText aiResult.annotations
      env.t2 hevict]

/-- C12, counterexample. A turn without audio starts at time 100 on a new identifier; the
generation returns at time 2000200; meanwhile the idle sweep runs at time 2000000 and evicts
the session, idle for more than 30 minutes. The turn answers status 500 with no reply,
whereas the same turn without the sweep answers the reply. -/
theorem chatHandlerInterleaved_eviction_fails :
    (chatHandlerInterleaved ConversationManager.init (sampleRequest none) slowEnv
      sweepDuringGeneration).2.response = .internalError 2000100 ∧
    (chatHandlerInterleaved ConversationManager.init (sampleRequest none) slowEnv
      sweepDuringGeneration).2.response.status = 500 ∧
    (chatHandlerInterleaved ConversationManager.init (sampleRequest none) slowEnv
      sweepDuringGeneration).2.response.reply = none ∧
    (chatHandlerInterleaved ConversationManager.init (sampleRequest none) slowEnv
      sweepDuringGeneration).1.lookup "call-1" = none ∧
    (chatHandlerInterleaved ConversationManager.init (sampleRequest none) slowEnv
      Interleaving.none).2.response.reply = some dentalGreeting := by
  refine ⟨by decide, by decide, by decide, by decide, by decide⟩

/-- C12, amended. Eviction during an in-flight turn: if the session of the call identifier
is removed while the turn awaits the generation, after the turn resolved it and before it
appends the assistant message, `addMessage` throws and the turn answers the internal error
(status 500, `success: false`, no reply) instead of its result; nothing is scheduled, and no
session is held under that identifier afterwards. -/
theorem chatHandlerInterleaved_evicted (mgr : ConversationManager) (req : ChatRequest)
    (env : TurnEnv) (between : Interleaving)
    (hheard : transcriptionFailed req env = false)
    (hevict : ∀ m, (between.duringGeneration m).lookup req.callId = none) :
    (∃ total, (chatHandlerInterleaved mgr req env between).2.response =
      .internalError total) ∧
    (chatHandlerInterleaved mgr req env between).2.response.status = 500 ∧
    (chatHandlerInterleaved mgr req env between).2.response.success = false ∧
    (chatHandlerInterleaved mgr req env between).2.response.reply = none ∧
    (chatHandlerInterleaved mgr req env between).2.scheduledEnd = none ∧
    (chatHandlerInterleaved mgr req env between).1.lookup req.callId = none := by
  have hshape : ∃ m calls now invoked,
      chatHandlerInterleaved mgr req env between =
        (m, internalErrorOutcome env now calls invoked) ∧ m.lookup req.callId = none := by
    unfold chatHandlerInterleaved
    cases haudio : req.audio with
    | none =>
      simp only
      rw [generateAndReplyInterleaved_evicted _ _ req env between "" none [] (hevict _)]
      exact ⟨_, _, _, _, rfl, hevict _⟩
    | some buffer =>
      have htr : transcriptResult req env =
          some (speechToText (env.recognize buffer) env.sttDuration) := by
        simp [transcriptResult, haudio]
      cases hstt : speechToText (env.recognize buffer) env.sttDuration with
      | failure e t => simp [transcriptionFailed, htr, hstt] at hheard
      | success transcript confidence processingTime =>
        have hne : transcript ≠ "" := by
          simpa [transcriptionFailed, htr, hstt] using hheard
        simp only [hstt, hne, ne_eq, not_false_eq_true, if_true]
        cases hl : (between.duringTranscription (resolveSession mgr req env).1).lookup
            req.callId with
        | none =>
          rw [addMessage_absent _ req.callId "user" (some transcript) _ env.t1 hl]
          exact ⟨_, _, _, _, rfl, hl⟩
        | some c =>
          obtain ⟨ref, ht⟩ := tracks_of_lookup _ req.callId c hl
          have ha := addMessage_tracks _ req.callId ref c "user" transcript
            [("confidence", .num confidence), ("processingTime", .num processingTime)]
            env.t1 ht
          have hpair : (between.duringTranscription (resolveSession mgr req env).1).addMessage
              req.callId "user" (some transcript)
              [("confidence", .num confidence), ("processingTime", .num processingTime)]
              env.t1 =
              (((between.duringTranscription (resolveSession mgr req env).1).addMessage
                req.callId "user" (some transcript)
                [("confidence", .num confidence), ("processingTime", .num processingTime)]
                env.t1).1, .ok _) := Prod.ext rfl ha.1
          rw [hpair]
          simp only
          rw [generateAndReplyInterleaved_evicted _ _ req env between _ _ _ (hevict _)]
          exact ⟨_, _, _, _, rfl, hevict _⟩
  obtain ⟨m, calls, now, invoked, heq, hm⟩ := hshape
  rw [heq]
  exact ⟨⟨_, rfl⟩, rfl, rfl, rfl, rfl, hm⟩

theorem chatHandlerInterleaved_evicted_witness :
    (∃ total, (chatHandlerInterleaved statsStore (sampleRequest none) slowEnv
      (evictDuringGeneration "call-1")).2.response = .internalError total) ∧
    (chatHandlerInterleaved statsStore (sampleRequest none) slowEnv
      (evictDuringGeneration "call-1")).2.response.status = 500 ∧
    (chatHandlerInterleaved statsStore (sampleRequest none) slowEnv
      (evictDuringGeneration "call-1")).2.response.success = false ∧
    (chatHandlerInterleaved statsStore (sampleRequest none) slowEnv
      (evictDuringGeneration "call-1")).2.response.reply = none ∧
    (chatHandlerInterleaved statsStore (sampleRequest none) slowEnv
      (evictDuringGeneration "call-1")).2.scheduledEnd = none ∧
    (chatHandlerInterleaved statsStore (sampleRequest none) slowEnv
      (evictDuringGeneration "call-1")).1.lookup "call-1" = none :=
  chatHandlerInterleaved_evicted statsStore (sampleRequest none) slowEnv
    (evictDuringGeneration "call-1") rfl
    (fun m => endConversation_lookup_self m "call-1" "timeout")


/-! ## Mode is fixed at creation -/

theorem continues_refl (c : Conversation) : c.Continues c :=
  ⟨rfl, rfl, rfl, rfl, List.prefix_refl _⟩

theorem continues_trans (c₃ c₂ c₁ : Conversation) (h₂ : c₃.Continues c₂)
    (h₁ : c₂.Continues c₁) : c₃.Continues c₁ :=
  ⟨h₂.1.trans h₁.1, h₂.2.1.trans h₁.2.1, h₂.2.2.1.trans h₁.2.2.1,
   h₂.2.2.2.1.trans h₁.2.2.2.1, h₁.2.2.2.2.trans h₂.2.2.2.2⟩

theorem extends_refl (m : ConversationManager) : m.Extends m :=
  fun _ c h => ⟨c, h, continues_refl c⟩

theorem extends_trans (m₃ m₂ m₁ : ConversationManager) (h₂ : m₃.Extends m₂)
    (h₁ : m₂.Extends m₁) : m₃.Extends m₁ := by
  intro id c hc
  obtain ⟨c₂, hc₂, hk₂⟩ := h₁ id c hc
  obtain ⟨c₃, hc₃, hk₃⟩ := h₂ id c₂ hc₂
  exact ⟨c₃, hc₃, continues_trans c₃ c₂ c hk₃ hk₂⟩

theorem extends_modifyLive (mgr : ConversationManager) (callId : String)
    (f : Conversation → Conversation) (hf : ∀ x, (f x).Continues x) :
    ({ mgr with cells := modifyLive callId f mgr.cells } : ConversationManager).Extends mgr := by
  intro id c hc
  by_cases hid : id = callId
  · subst hid
    refine ⟨f c, ?_, hf c⟩
    simp only [ConversationManager.lookup] at hc ⊢
    rw [lookupLive_modifyLive id f (fun x => (hf x).1), hc]
    rfl
  · refine ⟨c, ?_, continues_refl c⟩
    simp only [ConversationManager.lookup] at hc ⊢
    rw [lookupLive_modifyLive_other callId f (fun x => (hf x).1) id hid]
    exact hc

theorem getConversation_extends (mgr : ConversationManager) (callId : String) (now : Nat) :
    (mgr.getConversation callId now).1.Extends mgr := by
  unfold ConversationManager.getConversation
  cases findLive callId mgr.cells with
  | none => exact extends_refl mgr
  | some ref =>
    refine extends_modifyLive mgr callId _ ?_
    intro x
    exact ⟨rfl, rfl, rfl, rfl, List.prefix_refl _⟩

theorem addMessage_extends (mgr : ConversationManager) (callId role : String)
    (content : Option String) (metadata : JsObj) (now : Nat) :
    (mgr.addMessage callId role content metadata now).1.Extends mgr := by
  have hg := getConversation_extends mgr callId now
  unfold ConversationManager.addMessage
  cases hget : mgr.getConversation callId now with
  | mk mgr₁ found =>
    rw [hget] at hg
    have hpush : ∀ message : Message,
        ({ mgr₁ with cells := modifyLive callId (fun c => c.push message now) mgr₁.cells } :
          ConversationManager).Extends mgr := by
      intro message
      refine extends_trans _ mgr₁ mgr (extends_modifyLive mgr₁ callId _ ?_) hg
      intro x
      exact ⟨rfl, rfl, rfl, rfl, List.prefix_append _ _⟩
    cases found with
    | none => exact hg
    | some ref =>
      cases content with
      | none => exact hpush _
      | some text => exact hpush _

theorem updateConversationStats_extends (mgr : ConversationManager) (callId : String)
    (patch : StatsPatch) (now : Nat) :
    (mgr.updateConversationStats callId patch now).1.Extends mgr := by
  have hg := getConversation_extends mgr callId now
  unfold ConversationManager.updateConversationStats
  cases hget : mgr.getConversation callId now with
  | mk mgr₁ found =>
    rw [hget] at hg
    cases found with
    | none => exact hg
    | some ref =>
      refine extends_trans _ mgr₁ mgr (extends_modifyLive mgr₁ callId _ ?_) hg
      intro x
      exact ⟨rfl, rfl, rfl, rfl, List.prefix_refl _⟩

theorem lookupLive_append_other (other : String) (cells : List Cell) (c : Cell)
    (hc : c.holds other = false) :
    lookupLive other (cells ++ [c]) = lookupLive other cells := by
  induction cells with
  | nil => simp [lookupLive, hc]
  | cons d rest ih => simp [lookupLive, ih]

theorem createConversation_lookup_other (mgr : ConversationManager)
    (callId mode other : String) (metadata : JsObj) (now : Nat) (hne : other ≠ callId) :
    (mgr.createConversation callId mode metadata now).1.lookup other = mgr.lookup other := by
  simp only [ConversationManager.createConversation, ConversationManager.lookup]
  rw [lookupLive_append_other other _ _ (by
    simp [Cell.holds, newConversation]
    exact fun h => hne h.symm)]
  exact lookupLive_deleteLive_other callId other hne mgr.cells

theorem resolveSession_extends (mgr : ConversationManager) (req : ChatRequest)
    (env : TurnEnv) : (resolveSession mgr req env).1.Extends mgr := by
  cases hl : mgr.lookup req.callId with
  | none =>
    have hres : resolveSession mgr req env =
        mgr.createConversation req.callId req.mode
          [("userAgent", env.userAgent), ("ip", env.ip)] env.t0 := by
      unfold resolveSession
      rw [getConversation_missing mgr req.callId env.t0 hl]
    rw [hres]
    intro id c hc
    have hne : id ≠ req.callId := by
      intro h
      rw [h, hl] at hc
      exact absurd hc (by simp)
    exact ⟨c, by rw [createConversation_lookup_other _ _ _ _ _ _ hne]; exact hc,
      continues_refl c⟩
  | some c₀ =>
    obtain ⟨ref, ht⟩ := tracks_of_lookup mgr req.callId c₀ hl
    have hg := getConversation_tracks mgr req.callId ref c₀ env.t0 ht
    have hres : (resolveSession mgr req env).1 = (mgr.getConversation req.callId env.t0).1 := by
      unfold resolveSession
      have hpair : mgr.getConversation req.callId env.t0 =
          ((mgr.getConversation req.callId env.t0).1, some ref) := Prod.ext rfl hg.1
      rw [hpair]
    rw [hres]
    exact getConversation_extends mgr req.callId env.t0


theorem finishTurn_store (mgr : ConversationManager) (ref : Nat) (req : ChatRequest)
    (env : TurnEnv) (userMessage : String) (stt : Option SttResult) (aiResult : AiResult)
    (aiResponse : String) (tts : TtsResult) (calls : List RemoteCall) :
    (finishTurn mgr ref req env userMessage stt aiResult aiResponse tts calls).1 =
      (mgr.updateConversationStats req.callId (turnStatsPatch env stt tts) env.t3).1 ∧
    (finishTurn mgr ref req env userMessage stt aiResult aiResponse tts calls).2.calls =
      calls := by
  unfold finishTurn
  simp only
  split
  · split <;> exact ⟨rfl, rfl⟩
  · exact ⟨rfl, rfl⟩

theorem generateAndReply_extends (mgr : ConversationManager) (ref : Nat) (req : ChatRequest)
    (env : TurnEnv) (userMessage : String) (stt : Option SttResult)
    (calls : List RemoteCall) :
    (generateAndReply mgr ref req env userMessage stt calls).1.Extends mgr ∧
    (∀ x ∈ generationCalls (mgr.deref ref),
      x ∈ (generateAndReply mgr ref req env userMessage stt calls).2.calls) := by
  unfold generateAndReply
  simp only
  split
  · refine ⟨extends_refl mgr, ?_⟩
    intro x hx
    exact List.mem_append_right _ hx
  · rename_i aiResult _
    have hadd := addMessage_extends mgr req.callId "assistant" aiResult.replyText
      aiResult.annotations env.t2
    split
    · rename_i mgr' _ text hpair _
      have hm : mgr' = (mgr.addMessage req.callId "assistant" aiResult.replyText
          aiResult.annotations env.t2).1 := by rw [hpair]
      have hfin := finishTurn_store mgr' ref req env userMessage stt aiResult text
        (textToSpeech (env.synthesize text) req.callId env.ttsDuration)
        (calls ++ generationCalls (mgr.deref ref) ++ [.synthesize text])
      refine ⟨?_, ?_⟩
      · rw [hfin.1]
        refine extends_trans _ mgr' mgr (updateConversationStats_extends mgr' _ _ _) ?_
        rw [hm]
        exact hadd
      · intro x hx
        rw [hfin.2]
        exact List.mem_append_left _ (List.mem_append_right _ hx)
    · rename_i _ mgr' _ hpair _
      have hm : mgr' = (mgr.addMessage req.callId "assistant" aiResult.replyText
          aiResult.annotations env.t2).1 := by rw [hpair]
      refine ⟨by rw [hm]; exact hadd, ?_⟩
      intro x hx
      exact List.mem_append_right _ hx

theorem chatHandler_extends (mgr : ConversationManager) (req : ChatRequest) (env : TurnEnv) :
    (chatHandler mgr req env).1.Extends mgr := by
  have hres := resolveSession_extends mgr req env
  unfold chatHandler
  cases haudio : req.audio with
  | none =>
    simp only
    exact extends_trans _ _ mgr (generateAndReply_extends _ _ req env _ _ _).1 hres
  | some buffer =>
    simp only
    cases hstt : speechToText (env.recognize buffer) env.sttDuration with
    | failure e t => exact hres
    | success transcript confidence processingTime =>
      simp only
      by_cases hne : transcript = ""
      · simp only [hne, ne_eq, not_true_eq_false, if_false]
        exact hres
      · simp only [hne, ne_eq, not_false_eq_true, if_true]
        have hadd := addMessage_extends (resolveSession mgr req env).1 req.callId "user"
          (some transcript)
          [("confidence", .num confidence), ("processingTime", .num processingTime)] env.t1
        split
        · rename_i mgr₂ _ hpair
          have hm : mgr₂ = ((resolveSession mgr req env).1.addMessage req.callId "user"
              (some transcript)
              [("confidence", .num confidence), ("processingTime", .num processingTime)]
              env.t1).1 := by rw [hpair]
          refine extends_trans _ mgr₂ mgr (generateAndReply_extends _ _ req env _ _ _).1 ?_
          rw [hm]
          exact extends_trans _ _ mgr hadd hres
        · rename_i mgr₂ _ hpair
          have hm : mgr₂ = ((resolveSession mgr req env).1.addMessage req.callId "user"
              (some transcript)
              [("confidence", .num confidence), ("processingTime", .num processingTime)]
              env.t1).1 := by rw [hpair]
          rw [hm]
          exact extends_trans _ _ mgr hadd hres

theorem storeOp_extends (op : StoreOp) (mgr : ConversationManager) :
    (op.apply mgr).Extends mgr := by
  cases op with
  | get callId now => exact getConversation_extends mgr callId now
  | addMessage callId role content metadata now =>
    exact addMessage_extends mgr callId role content metadata now
  | updateStats callId patch now => exact updateConversationStats_extends mgr callId patch now
  | turn req env => exact chatHandler_extends mgr req env

theorem runOps_extends (ops : List StoreOp) :
    ∀ mgr : ConversationManager, (runOps ops mgr).Extends mgr := by
  induction ops with
  | nil => intro mgr; exact extends_refl mgr
  | cons op rest ih =>
    intro mgr
    have h : runOps (op :: rest) mgr = runOps rest (op.apply mgr) := rfl
    rw [h]
    exact extends_trans _ _ mgr (ih (op.apply mgr)) (storeOp_extends op mgr)


theorem chatHandler_generation_call (mgr : ConversationManager) (req : ChatRequest)
    (env : TurnEnv) (c : Conversation)
    (hc : (resolveSession mgr req env).1.Tracks req.callId (resolveSession mgr req env).2 c)
    (hheard : transcriptionFailed req env = false) :
    ∀ x ∈ generationCalls (some (c.atGeneration req env)),
      x ∈ (chatHandler mgr req env).2.calls := by
  cases haudio : req.audio with
  | none =>
    have htr : transcriptResult req env = none := by simp [transcriptResult, haudio]
    have hat : c.atGeneration req env = c := by
      simp [Conversation.atGeneration, userMessages, htr]
    rw [hat, chatHandler_without_audio mgr req env haudio]
    have h := (generateAndReply_extends (resolveSession mgr req env).1
      (resolveSession mgr req env).2 req env "" none []).2
    rw [tracks_deref _ _ _ _ hc] at h
    exact h
  | some buffer =>
    have htr : transcriptResult req env =
        some (speechToText (env.recognize buffer) env.sttDuration) := by
      simp [transcriptResult, haudio]
    cases hstt : speechToText (env.recognize buffer) env.sttDuration with
    | failure e t => simp [transcriptionFailed, htr, hstt] at hheard
    | success transcript confidence processingTime =>
      have hne : transcript ≠ "" := by
        simpa [transcriptionFailed, htr, hstt] using hheard
      have hat : c.atGeneration req env =
          c.push { role := "user", content := some transcript, timestamp := env.t1,
                   metadata := [("confidence", .num confidence),
                                ("processingTime", .num processingTime)] } env.t1 := by
        simp [Conversation.atGeneration, userMessages, htr, hstt, hne]
      have ha := addMessage_tracks (resolveSession mgr req env).1 req.callId
        (resolveSession mgr req env).2 c "user" transcript
        [("confidence", .num confidence), ("processingTime", .num processingTime)] env.t1 hc
      have hpair : (resolveSession mgr req env).1.addMessage req.callId "user" (some transcript)
          [("confidence", .num confidence), ("processingTime", .num processingTime)] env.t1 =
          (((resolveSession mgr req env).1.addMessage req.callId "user" (some transcript)
            [("confidence", .num confidence), ("processingTime", .num processingTime)]
            env.t1).1, .ok _) :=
        Prod.ext rfl ha.1
      have hch : chatHandler mgr req env =
          generateAndReply
            ((resolveSession mgr req env).1.addMessage req.callId "user" (some transcript)
              [("confidence", .num confidence), ("processingTime", .num processingTime)]
              env.t1).1
            (resolveSession mgr req env).2 req env transcript
            (some (.success transcript confidence processingTime)) [.recognize buffer] := by
        unfold chatHandler
        simp only [haudio, hstt, hne, ne_eq, not_false_eq_true, if_true]
        rw [hpair]
      rw [hat, hch]
      have h := (generateAndReply_extends
        ((resolveSession mgr req env).1.addMessage req.callId "user" (some transcript)
          [("confidence", .num confidence), ("processingTime", .num processingTime)]
          env.t1).1
        (resolveSession mgr req env).2 req env transcript
        (some (.success transcript confidence processingTime)) [.recognize buffer]).2
      rw [tracks_deref _ _ _ _ ha.2] at h
      exact h

/-- C20. Mode is fixed at creation: a session held under an identifier is still held under
it after any sequence of `getConversation`, `addMessage`, `updateConversationStats` and chat
turns, with the mode (and id, start time) it had, hence the mode it was created with; this
holds whatever mode the requests of the turns carry, and a turn that reaches generation on a
session of a registered mode sends the system instructions of the session's own mode. -/
theorem mode_fixed_at_creation :
    (∀ (ops : List StoreOp) (mgr : ConversationManager) (id : String) (c : Conversation),
      mgr.lookup id = some c →
      ∃ c', (runOps ops mgr).lookup id = some c' ∧ c'.mode = c.mode ∧ c'.id = c.id ∧
        c'.startTime = c.startTime) ∧
    (∀ (ops : List StoreOp) (mgr : ConversationManager) (id mode : String)
        (metadata : JsObj) (now : Nat),
      ∃ c', (runOps ops (mgr.createConversation id mode metadata now).1).lookup id = some c' ∧
        c'.mode = mode) ∧
    (∀ (mgr : ConversationManager) (req : ChatRequest) (env : TurnEnv) (c : Conversation),
      mgr.lookup req.callId = some c → c.mode ∈ getAvailableModes →
      transcriptionFailed req env = false →
      (∃ c', (chatHandler mgr req env).1.lookup req.callId = some c' ∧ c'.mode = c.mode) ∧
      ∃ prompt rest,
        getSystemPrompt c.mode = .ok (some prompt) ∧
        RemoteCall.complete (({ role := "system", content := some prompt } : ApiMessage) :: rest)
          ∈ (chatHandler mgr req env).2.calls) := by
  refine ⟨?_, ?_, ?_⟩
  · intro ops mgr id c hc
    obtain ⟨c', hc', hk⟩ := runOps_extends ops mgr id c hc
    exact ⟨c', hc', hk.2.1, hk.1, hk.2.2.1⟩
  · intro ops mgr id mode metadata now
    have hnew : (mgr.createConversation id mode metadata now).1.lookup id =
        some (newConversation id mode metadata now) := by
      simp only [ConversationManager.createConversation, ConversationManager.lookup]
      exact lookupLive_create id _ rfl mgr.cells
    obtain ⟨c', hc', hk⟩ := runOps_extends ops _ id _ hnew
    exact ⟨c', hc', hk.2.1⟩
  · intro mgr req env c hc hmode hheard
    refine ⟨?_, ?_⟩
    · obtain ⟨c', hc', hk⟩ := chatHandler_extends mgr req env req.callId c hc
      exact ⟨c', hc', hk.2.1⟩
    · have ht := resolveSession_existing mgr req env c hc
      have hmode' : (({ c with lastActivity := env.t0 } : Conversation).atGeneration req
          env).mode ∈ getAvailableModes := by
        rw [atGeneration_mode]
        exact hmode
      obtain ⟨prompt, hp⟩ := getSystemPrompt_registered _ hmode'
      have hb : ∃ rest, buildMessages
          (({ c with lastActivity := env.t0 } : Conversation).atGeneration req env) =
          .ok (({ role := "system", content := some prompt } : ApiMessage) :: rest) :=
        ⟨_, buildMessages_of_prompt _ (some prompt) hp⟩
      obtain ⟨rest, hb⟩ := hb
      have hcall := chatHandler_generation_call mgr req env _ ht hheard
      refine ⟨prompt, rest, by rw [atGeneration_mode] at hp; exact hp, ?_⟩
      apply hcall
      simp only [generationCalls, hb]
      exact List.mem_singleton.mpr rfl

theorem mode_fixed_at_creation_witness :
    (∃ c', (chatHandler statsStore { callId := "call-1", mode := "tarot", audio := none }
        (sampleEnv (fun _ => .throws serviceError) (fun _ => .reply "Bună ziua!" .null)
          (fun _ => .audio "u1" 10))).1.lookup "call-1" = some c' ∧
      c'.mode = statsSession.mode) ∧
    ∃ prompt rest,
      getSystemPrompt statsSession.mode = .ok (some prompt) ∧
      RemoteCall.complete (({ role := "system", content := some prompt } : ApiMessage) :: rest)
        ∈ (chatHandler statsStore { callId := "call-1", mode := "tarot", audio := none }
            (sampleEnv (fun _ => .throws serviceError) (fun _ => .reply "Bună ziua!" .null)
              (fun _ => .audio "u1" 10))).2.calls :=
  mode_fixed_at_creation.2.2 statsStore { callId := "call-1", mode := "tarot", audio := none }
    (sampleEnv (fun _ => .throws serviceError) (fun _ => .reply "Bună ziua!" .null)
      (fun _ => .audio "u1" 10))
    statsSession (by decide) (by decide) rfl


/-! ## Reachable states hold one conversation per key -/

theorem wellFormed_sweepStep (now : Nat) (acc : ConversationManager × Nat)
    (entry : String × Conversation) (h : acc.1.WellFormed) :
    (sweepStep now acc entry).1.WellFormed := by
  unfold sweepStep
  split
  · exact wellFormed_endConversation acc.1 entry.1 "timeout" h
  · exact h

theorem wellFormed_cleanupOldConversations (mgr : ConversationManager) (now : Nat)
    (h : mgr.WellFormed) : (mgr.cleanupOldConversations now).1.WellFormed := by
  unfold ConversationManager.cleanupOldConversations
  have hfold : ∀ (es : List (String × Conversation)) (acc : ConversationManager × Nat),
      acc.1.WellFormed → (es.foldl (sweepStep now) acc).1.WellFormed := by
    intro es
    induction es with
    | nil => intro acc hacc; exact hacc
    | cons e rest ih =>
      intro acc hacc
      rw [List.foldl_cons]
      exact ih _ (wellFormed_sweepStep now acc e hacc)
  exact hfold _ (mgr, 0) h

theorem wellFormed_resolveSession (mgr : ConversationManager) (req : ChatRequest)
    (env : TurnEnv) (h : mgr.WellFormed) : (resolveSession mgr req env).1.WellFormed := by
  have hg := wellFormed_getConversation mgr req.callId env.t0 h
  unfold resolveSession
  cases hget : mgr.getConversation req.callId env.t0 with
  | mk mgr₁ found =>
    rw [hget] at hg
    cases found with
    | none => exact wellFormed_createConversation mgr₁ _ _ _ _ hg
    | some ref => exact hg

theorem wellFormed_generateAndReply (mgr : ConversationManager) (ref : Nat)
    (req : ChatRequest) (env : TurnEnv) (userMessage : String) (stt : Option SttResult)
    (calls : List RemoteCall) (h : mgr.WellFormed) :
    (generateAndReply mgr ref req env userMessage stt calls).1.WellFormed := by
  unfold generateAndReply
  simp only
  split
  · exact h
  · rename_i aiResult _
    have hadd := wellFormed_addMessage mgr req.callId "assistant" aiResult.replyText
      aiResult.annotations env.t2 h
    split
    · rename_i mgr' _ text hpair _
      have hm : mgr' = (mgr.addMessage req.callId "assistant" aiResult.replyText
          aiResult.annotations env.t2).1 := by rw [hpair]
      rw [(finishTurn_store mgr' ref req env userMessage stt aiResult text _ _).1]
      apply wellFormed_updateConversationStats
      rw [hm]
      exact hadd
    · rename_i _ mgr' _ hpair _
      have hm : mgr' = (mgr.addMessage req.callId "assistant" aiResult.replyText
          aiResult.annotations env.t2).1 := by rw [hpair]
      rw [hm]
      exact hadd

theorem wellFormed_chatHandler (mgr : ConversationManager) (req : ChatRequest)
    (env : TurnEnv) (h : mgr.WellFormed) : (chatHandler mgr req env).1.WellFormed := by
  have hres := wellFormed_resolveSession mgr req env h
  unfold chatHandler
  cases haudio : req.audio with
  | none =>
    simp only
    exact wellFormed_generateAndReply _ _ req env _ _ _ hres
  | some buffer =>
    simp only
    cases hstt : speechToText (env.recognize buffer) env.sttDuration with
    | failure e t => exact hres
    | success transcript confidence processingTime =>
      simp only
      by_cases hne : transcript = ""
      · simp only [hne, ne_eq, not_true_eq_false, if_false]
        exact hres
      · simp only [hne, ne_eq, not_false_eq_true, if_true]
        have hadd := wellFormed_addMessage (resolveSession mgr req env).1 req.callId "user"
          (some transcript)
          [("confidence", .num confidence), ("processingTime", .num processingTime)] env.t1
          hres
        split
        · rename_i mgr₂ _ hpair
          have hm : mgr₂ = ((resolveSession mgr req env).1.addMessage req.callId "user"
              (some transcript)
              [("confidence", .num confidence), ("processingTime", .num processingTime)]
              env.t1).1 := by rw [hpair]
          apply wellFormed_generateAndReply
          rw [hm]
          exact hadd
        · rename_i mgr₂ _ hpair
          have hm : mgr₂ = ((resolveSession mgr req env).1.addMessage req.callId "user"
              (some transcript)
              [("confidence", .num confidence), ("processingTime", .num processingTime)]
              env.t1).1 := by rw [hpair]
          rw [hm]
          exact hadd

theorem wellFormed_resetRoute (mgr : ConversationManager) (callId : Option String)
    (h : mgr.WellFormed) : (resetRoute mgr callId).1.WellFormed := by
  unfold resetRoute
  cases callId with
  | none => exact h
  | some id =>
    simp only
    split
    · exact h
    · exact wellFormed_endConversation mgr id "reset" h


/-! ## Annotations are diagnostic only -/

theorem buildMessages_congr (c₁ c₂ : Conversation) (hmode : c₁.mode = c₂.mode)
    (hdialogue : c₁.messages.map (fun m => (m.role, m.content)) =
      c₂.messages.map (fun m => (m.role, m.content))) :
    buildMessages c₁ = buildMessages c₂ := by
  have hlen : c₁.messages.length = c₂.messages.length := by
    have := congrArg List.length hdialogue
    simpa using this
  have hapi : c₁.messages.map Message.toApi = c₂.messages.map Message.toApi := by
    have := congrArg (List.map (fun p : String × Option String =>
      ({ role := p.1, content := p.2 } : ApiMessage))) hdialogue
    simpa [List.map_map, Function.comp_def, Message.toApi] using this
  unfold buildMessages
  rw [hmode, hlen, hapi]

/-- C21. Annotations are diagnostic only: two sessions with the same mode and the same
sequence of message (role, content) pairs, whatever their message annotations and
timestamps, session timestamps, stats, metadata and ids, give the same generation input
under `buildMessages` and the same result under `extractAppointmentDetails`. -/
theorem annotations_diagnostic_only (c₁ c₂ : Conversation) (hmode : c₁.mode = c₂.mode)
    (hdialogue : c₁.messages.map (fun m => (m.role, m.content)) =
      c₂.messages.map (fun m => (m.role, m.content))) :
    buildMessages c₁ = buildMessages c₂ ∧
    (∀ mode, extractAppointmentDetails c₁ mode = extractAppointmentDetails c₂ mode) := by
  refine ⟨buildMessages_congr c₁ c₂ hmode hdialogue, ?_⟩
  intro mode
  apply extractAppointmentDetails_congr
  have := congrArg (List.map Prod.snd) hdialogue
  simpa [List.map_map, Function.comp_def] using this

theorem annotations_diagnostic_only_witness :
    buildMessages (dentalSession [("assistant", "Cu ce vă pot ajuta?"), ("user", "ora 10")]) =
      buildMessages
        { dentalSession [("assistant", "Cu ce vă pot ajuta?"), ("user", "ora 10")] with
          messages :=
            [{ role := "assistant", content := some "Cu ce vă pot ajuta?", timestamp := 5,
               metadata := [("fallback", .bool true)] },
             { role := "user", content := some "ora 10", timestamp := 9,
               metadata := [("confidence", .num 1)] }]
          lastActivity := 77
          metadata := [("ip", .str "10.0.0.1")]
          stats := { messageCount := 2, audioProcessingTime := 3, totalDuration := 4 } } ∧
    (∀ mode,
      extractAppointmentDetails
        (dentalSession [("assistant", "Cu ce vă pot ajuta?"), ("user", "ora 10")]) mode =
      extractAppointmentDetails
        { dentalSession [("assistant", "Cu ce vă pot ajuta?"), ("user", "ora 10")] with
          messages :=
            [{ role := "assistant", content := some "Cu ce vă pot ajuta?", timestamp := 5,
               metadata := [("fallback", .bool true)] },
             { role := "user", content := some "ora 10", timestamp := 9,
               metadata := [("confidence", .num 1)] }]
          lastActivity := 77
          metadata := [("ip", .str "10.0.0.1")]
          stats := { messageCount := 2, audioProcessingTime := 3, totalDuration := 4 } }
        mode) :=
  annotations_diagnostic_only _ _ rfl rfl

/-! ## Read implies liveness extension -/

/-- C22. Read implies liveness extension: on a live session `c` for `id`, `getConversation`
returns the reference to that session, which now reads as `c` with `lastActivity` set to the
current time and everything else (messages, stats, mode, metadata, start time, id) as it
was; the other sessions and the log are unchanged. On an identifier without session it
returns `undefined` and the store is unchanged. -/
theorem getConversation_touches_only (mgr : ConversationManager) (callId : String)
    (now : Nat) :
    (∀ c, mgr.lookup callId = some c →
      ∃ ref,
        (mgr.getConversation callId now).2 = some ref ∧
        (mgr.getConversation callId now).1.deref ref = some { c with lastActivity := now } ∧
        (mgr.getConversation callId now).1.lookup callId =
          some { c with lastActivity := now } ∧
        ({ c with lastActivity := now } : Conversation).messages = c.messages ∧
        ({ c with lastActivity := now } : Conversation).stats = c.stats ∧
        ({ c with lastActivity := now } : Conversation).mode = c.mode ∧
        ({ c with lastActivity := now } : Conversation).metadata = c.metadata ∧
        ({ c with lastActivity := now } : Conversation).startTime = c.startTime ∧
        ({ c with lastActivity := now } : Conversation).id = c.id) ∧
    (∀ other, other ≠ callId →
      (mgr.getConversation callId now).1.lookup other = mgr.lookup other) ∧
    (mgr.getConversation callId now).1.events = mgr.events ∧
    (mgr.lookup callId = none → mgr.getConversation callId now = (mgr, none)) := by
  refine ⟨?_, ?_, getConversation_events mgr callId now, getConversation_missing mgr callId now⟩
  · intro c hc
    obtain ⟨ref, ht⟩ := tracks_of_lookup mgr callId c hc
    have hg := getConversation_tracks mgr callId ref c now ht
    exact ⟨ref, hg.1, tracks_deref _ _ _ _ hg.2, hg.2.2, rfl, rfl, rfl, rfl, rfl, rfl⟩
  · intro other hne
    exact getConversation_other mgr callId other now hne

theorem getConversation_touches_only_witness :
    (∃ ref,
      (statsStore.getConversation "call-1" 500).2 = some ref ∧
      (statsStore.getConversation "call-1" 500).1.deref ref =
        some { statsSession with lastActivity := 500 } ∧
      (statsStore.getConversation "call-1" 500).1.lookup "call-1" =
        some { statsSession with lastActivity := 500 } ∧
      ({ statsSession with lastActivity := 500 } : Conversation).messages =
        statsSession.messages ∧
      ({ statsSession with lastActivity := 500 } : Conversation).stats = statsSession.stats ∧
      ({ statsSession with lastActivity := 500 } : Conversation).mode = statsSession.mode ∧
      ({ statsSession with lastActivity := 500 } : Conversation).metadata =
        statsSession.metadata ∧
      ({ statsSession with lastActivity := 500 } : Conversation).startTime =
        statsSession.startTime ∧
      ({ statsSession with lastActivity := 500 } : Conversation).id = statsSession.id) ∧
    statsStore.getConversation "call-2" 500 = (statsStore, none) :=
  ⟨(getConversation_touches_only statsStore "call-1" 500).1 statsSession (by decide),
   (getConversation_touches_only statsStore "call-2" 500).2.2.2 (by decide)⟩


/-! ## Fallback replies and the end of the call -/

/-- None of the fallback texts of a mode holds an ending phrase. -/
theorem modeResponses_not_ending (mode : String) (texts : FallbackTexts)
    (h : modeResponses mode = some texts) :
    isConversationEnding texts.timeout = false ∧
    isConversationEnding texts.rateLimit = false ∧
    isConversationEnding texts.defaultText = false := by
  have hd : ∀ t, fallbackResponses "dental" = some t →
      isConversationEnding t.timeout = false ∧ isConversationEnding t.rateLimit = false ∧
      isConversationEnding t.defaultText = false := by
    intro t ht
    have : t = _ := (Option.some.inj ht).symm
    subst this
    decide
  have hs : ∀ t, fallbackResponses "teleshopping" = some t →
      isConversationEnding t.timeout = false ∧ isConversationEnding t.rateLimit = false ∧
      isConversationEnding t.defaultText = false := by
    intro t ht
    have : t = _ := (Option.some.inj ht).symm
    subst this
    decide
  have hta : ∀ t, fallbackResponses "tarot" = some t →
      isConversationEnding t.timeout = false ∧ isConversationEnding t.rateLimit = false ∧
      isConversationEnding t.defaultText = false := by
    intro t ht
    have : t = _ := (Option.some.inj ht).symm
    subst this
    decide
  have hreg : ∀ t, fallbackResponses mode = some t →
      isConversationEnding t.timeout = false ∧ isConversationEnding t.rateLimit = false ∧
      isConversationEnding t.defaultText = false := by
    intro t ht
    by_cases h1 : mode = "dental"
    · subst h1; exact hd t ht
    · by_cases h2 : mode = "teleshopping"
      · subst h2; exact hs t ht
      · by_cases h3 : mode = "tarot"
        · subst h3; exact hta t ht
        · simp [fallbackResponses, h1, h2, h3] at ht
  unfold modeResponses at h
  cases hf : fallbackResponses mode with
  | some t =>
    rw [hf] at h
    have : t = texts := Option.some.inj h
    subst this
    exact hreg t hf
  | none =>
    rw [hf] at h
    by_cases hk : mode ∈ objectPrototypeKeys
    · simp [hk] at h
    · simp only [hk, if_false] at h
      exact hd texts h

/-- A text returned by `generateFallbackResponse` holds no ending phrase. -/
theorem generateFallbackResponse_not_ending (error : JsError) (mode : String) (text : String)
    (h : generateFallbackResponse error mode = .ok (some text)) :
    isConversationEnding text = false := by
  unfold generateFallbackResponse at h
  cases ht : modeResponses mode with
  | none =>
    simp only [ht, Option.map_none'] at h
    split at h
    · simp at h
    · split at h
      · simp at h
      · split at h
        · simp at h
        · split at h <;> simp at h
  | some texts =>
    obtain ⟨h1, h2, h3⟩ := modeResponses_not_ending mode texts ht
    simp only [ht, Option.map_some'] at h
    split at h
    · simp at h; rw [← h]; exact h1
    · split at h
      · simp at h
      · split at h
        · simp at h; rw [← h]; exact h1
        · split at h
          · simp at h; rw [← h]; exact h2
          · simp at h; rw [← h]; exact h3


/-- A turn that resolves the session `c` and is not stopped by the transcription runs the
stages from generation on, on a store that holds `c` with the user message of the turn. -/
theorem chatHandler_at_generation (mgr : ConversationManager) (req : ChatRequest)
    (env : TurnEnv) (c : Conversation)
    (hc : (resolveSession mgr req env).1.Tracks req.callId (resolveSession mgr req env).2 c)
    (hheard : transcriptionFailed req env = false) :
    ∃ (mgrG : ConversationManager) (calls : List RemoteCall),
      mgrG.Tracks req.callId (resolveSession mgr req env).2 (c.atGeneration req env) ∧
      chatHandler mgr req env =
        generateAndReply mgrG (resolveSession mgr req env).2 req env (userMessageText req env)
          (transcriptResult req env) calls := by
  cases haudio : req.audio with
  | none =>
    have htr : transcriptResult req env = none := by simp [transcriptResult, haudio]
    have hum : userMessageText req env = "" := by simp [userMessageText, htr]
    have hat : c.atGeneration req env = c := by
      simp [Conversation.atGeneration, userMessages, htr]
    refine ⟨(resolveSession mgr req env).1, [], ?_, ?_⟩
    · rw [hat]; exact hc
    · rw [htr, hum]
      unfold chatHandler
      simp only [haudio]
  | some buffer =>
    have htr : transcriptResult req env =
        some (speechToText (env.recognize buffer) env.sttDuration) := by
      simp [transcriptResult, haudio]
    cases hstt : speechToText (env.recognize buffer) env.sttDuration with
    | failure e t =>
      simp [transcriptionFailed, htr, hstt] at hheard
    | success transcript confidence processingTime =>
      have hne : transcript ≠ "" := by
        simpa [transcriptionFailed, htr, hstt] using hheard
      have hum : userMessageText req env = transcript := by
        simp [userMessageText, htr, hstt]
      have hat : c.atGeneration req env =
          c.push { role := "user", content := some transcript, timestamp := env.t1,
                   metadata := [("confidence", .num confidence),
                                ("processingTime", .num processingTime)] } env.t1 := by
        simp [Conversation.atGeneration, userMessages, htr, hstt, hne]
      have ha := addMessage_tracks (resolveSession mgr req env).1 req.callId
        (resolveSession mgr req env).2 c "user" transcript
        [("confidence", .num confidence), ("processingTime", .num processingTime)] env.t1 hc
      have hpair : (resolveSession mgr req env).1.addMessage req.callId "user" (some transcript)
          [("confidence", .num confidence), ("processingTime", .num processingTime)] env.t1 =
          (((resolveSession mgr req env).1.addMessage req.callId "user" (some transcript)
            [("confidence", .num confidence), ("processingTime", .num processingTime)]
            env.t1).1, .ok _) :=
        Prod.ext rfl ha.1
      refine ⟨((resolveSession mgr req env).1.addMessage req.callId "user" (some transcript)
              [("confidence", .num confidence), ("processingTime", .num processingTime)]
              env.t1).1, [.recognize buffer], ?_, ?_⟩
      · rw [hat]; exact ha.2
      · rw [htr, hum, hstt]
        unfold chatHandler
        simp only [haudio, hstt, hne, ne_eq, not_false_eq_true, if_true]
        rw [hpair]

/-- Without a reply text (a rejected `getResponse`, or a fallback that is `undefined`) the
stages from generation on end in the `catch` block. -/
theorem generateAndReply_no_reply (mgr : ConversationManager) (ref : Nat) (req : ChatRequest)
    (env : TurnEnv) (userMessage : String) (stt : Option SttResult) (calls : List RemoteCall)
    (h : ∀ aiResult, getResponse env.model env.complete env.aiDuration (mgr.deref ref) =
      .ok aiResult → aiResult.replyText = none) :
    (generateAndReply mgr ref req env userMessage stt calls).2 =
      internalErrorOutcome env env.t2 (calls ++ generationCalls (mgr.deref ref)) true := by
  unfold generateAndReply
  cases hai : getResponse env.model env.complete env.aiDuration (mgr.deref ref) with
  | error e => simp only [hai]
  | ok aiResult =>
    have hr := h aiResult hai
    simp only [hai, hr]
    split
    · rename_i heq
      simp at heq
    · rfl

/-- The fallback text of a failed generation holds no ending phrase. -/
theorem getResponse_failure_not_ending (model : String)
    (complete : List ApiMessage → RemoteOutcome) (duration : Nat)
    (conversation : Option Conversation) (error : Option String) (text : String) (t : Nat)
    (h : getResponse model complete duration conversation = .ok (.failure error (some text) t)) :
    isConversationEnding text = false := by
  have hcatch : ∀ e mode, getResponseCatch e mode duration =
      .ok (.failure error (some text) t) → isConversationEnding text = false := by
    intro e mode hc
    unfold getResponseCatch at hc
    cases hg : generateFallbackResponse e mode with
    | error x => simp [hg] at hc
    | ok fb =>
      simp only [hg] at hc
      have hfb : fb = some text := by
        have := Except.ok.inj hc
        exact (AiResult.failure.inj this).2.1
      rw [hfb] at hg
      exact generateFallbackResponse_not_ending e mode text hg
  unfold getResponse at h
  cases conversation with
  | none => simp at h
  | some conv =>
    simp only at h
    cases hb : buildMessages conv with
    | error e => rw [hb] at h; exact hcatch _ _ h
    | ok messages =>
      rw [hb] at h
      simp only at h
      cases hcm : complete messages with
      | reply content usage => rw [hcm] at h; simp at h
      | throws e => rw [hcm] at h; exact hcatch _ _ h


/-- For a mode that names no inherited key, an error decided by its code or carrying a
message gets a fallback text. -/
theorem generateFallbackResponse_text (error : JsError) (mode : String)
    (hmode : mode ∉ objectPrototypeKeys)
    (herror : error.code = some "ECONNABORTED" ∨ error.message ≠ none) :
    ∃ text, generateFallbackResponse error mode = .ok (some text) := by
  have ht : ∃ texts, modeResponses mode = some texts := by
    unfold modeResponses
    cases hf : fallbackResponses mode with
    | some t => exact ⟨t, rfl⟩
    | none => simp [hmode, fallbackResponses]
  obtain ⟨texts, ht⟩ := ht
  unfold generateFallbackResponse
  simp only [ht, Option.map_some']
  by_cases hc : error.code = some "ECONNABORTED"
  · exact ⟨texts.timeout, by simp [hc]⟩
  · cases hm : error.message with
    | none =>
      rcases herror with h | h
      · exact absurd h hc
      · exact absurd hm h
    | some message =>
      simp only [hc, if_false]
      by_cases hi : includes message "timeout" = true
      · exact ⟨texts.timeout, by simp [hi]⟩
      · by_cases hs : error.status = some 429
        · exact ⟨texts.rateLimit, by simp [hi, hs]⟩
        · exact ⟨texts.defaultText, by simp [hi, hs]⟩

/-- A generation that fails with an error decided by its code or carrying a message, on a
conversation whose mode names no inherited key, yields a fallback text. -/
theorem getResponse_fallback_text (model : String)
    (complete : List ApiMessage → RemoteOutcome) (duration : Nat) (conv : Conversation)
    (hmode : conv.mode ∉ objectPrototypeKeys)
    (hfail : ∀ input, ∃ error, complete input = .throws error ∧
      (error.code = some "ECONNABORTED" ∨ error.message ≠ none)) :
    ∃ e text, getResponse model complete duration (some conv) =
      .ok (.failure e (some text) duration) := by
  have hcatch : ∀ error : JsError,
      (error.code = some "ECONNABORTED" ∨ error.message ≠ none) →
      ∃ e text, getResponseCatch error conv.mode duration =
        .ok (.failure e (some text) duration) := by
    intro error herror
    obtain ⟨text, ht⟩ := generateFallbackResponse_text error conv.mode hmode herror
    exact ⟨error.message, text, by simp [getResponseCatch, ht]⟩
  unfold getResponse
  simp only
  cases hb : buildMessages conv with
  | error e =>
    simp only
    apply hcatch
    right
    cases hp : getSystemPrompt conv.mode with
    | error e' =>
      unfold buildMessages at hb
      rw [hp] at hb
      simp only at hb
      have he : e' = e := Except.error.inj hb
      subst he
      unfold getSystemPrompt at hp
      split_ifs at hp
      have he' := Except.error.inj hp
      rw [← he']
      simp [JsError.ofMessage]
    | ok prompt =>
      rw [buildMessages_of_prompt conv prompt hp] at hb
      cases hb
  | ok messages =>
    simp only
    obtain ⟨error, hthrow, herror⟩ := hfail messages
    rw [hthrow]
    exact hcatch error herror

/-- C25. A fallback reply never ends the call. For every mode, registered or not, and every
error, a text returned by `generateFallbackResponse` is not detected as conversation-ending
by `isConversationEnding`; such a text exists for every mode that names no key inherited
from `Object.prototype` and every error decided by its code or carrying a message. Hence a
turn that reaches generation on the session `c` and whose generation does not succeed
schedules no session destruction and never reports `conversationEnding = true`: when the
failed generation carries a fallback text the result is a success with that text as reply
and `conversationEnding = false`, and every successful result of such a turn reports
`conversationEnding = false`. That is the case whenever the remote generation fails with an
error decided by its code or carrying a message, on a session whose mode names no inherited
key. The turn runs without any other operation on the store between its stages. -/
theorem fallback_never_ends_call :
    (∀ (error : JsError) (mode text : String),
      generateFallbackResponse error mode = .ok (some text) →
        isConversationEnding text = false) ∧
    (∀ (error : JsError) (mode : String), mode ∉ objectPrototypeKeys →
      (error.code = some "ECONNABORTED" ∨ error.message ≠ none) →
      ∃ text, generateFallbackResponse error mode = .ok (some text) ∧
        isConversationEnding text = false) ∧
    (∀ (mgr : ConversationManager) (req : ChatRequest) (env : TurnEnv) (c : Conversation),
      (resolveSession mgr req env).1.lookup req.callId = some c →
      transcriptionFailed req env = false →
      (∀ aiResult,
        getResponse env.model env.complete env.aiDuration (some (c.atGeneration req env)) =
          .ok aiResult → aiResult.succeeded = false) →
      (chatHandler mgr req env).2.scheduledEnd = none ∧
      (chatHandler mgr req env).2.response.conversationEnding ≠ some true ∧
      ((chatHandler mgr req env).2.response.success = true →
        (chatHandler mgr req env).2.response.conversationEnding = some false) ∧
      (∀ error text t,
        getResponse env.model env.complete env.aiDuration (some (c.atGeneration req env)) =
          .ok (.failure error (some text) t) →
        (chatHandler mgr req env).2.response.success = true ∧
        (chatHandler mgr req env).2.response.reply = some text ∧
        (chatHandler mgr req env).2.response.conversationEnding = some false) ∧
      (c.mode ∉ objectPrototypeKeys →
        (∀ input, ∃ error, env.complete input = .throws error ∧
          (error.code = some "ECONNABORTED" ∨ error.message ≠ none)) →
        (chatHandler mgr req env).2.response.success = true ∧
        (chatHandler mgr req env).2.response.conversationEnding = some false)) := by
  refine ⟨generateFallbackResponse_not_ending, ?_, ?_⟩
  · intro error mode hmode herror
    obtain ⟨text, ht⟩ := generateFallbackResponse_text error mode hmode herror
    exact ⟨text, ht, generateFallbackResponse_not_ending error mode text ht⟩
  · intro mgr req env c hsession hheard hfailed
    obtain ⟨htracks, -⟩ := resolveSession_tracks mgr req env c hsession
    have hreply : ∀ error text t,
        getResponse env.model env.complete env.aiDuration (some (c.atGeneration req env)) =
          .ok (.failure error (some text) t) →
        (chatHandler mgr req env).2.scheduledEnd = none ∧
        (chatHandler mgr req env).2.response.success = true ∧
        (chatHandler mgr req env).2.response.reply = some text ∧
        (chatHandler mgr req env).2.response.conversationEnding = some false := by
      intro error text t hai
      have hne := getResponse_failure_not_ending _ _ _ _ error text t hai
      obtain ⟨-, hresp, -, hsched⟩ :=
        chatHandler_reply mgr req env c _ text htracks hheard hai rfl
      rw [hne] at hresp hsched
      refine ⟨by simpa using hsched, ?_, ?_, ?_⟩ <;> rw [hresp] <;> rfl
    have hnone : (∀ aiResult,
        getResponse env.model env.complete env.aiDuration (some (c.atGeneration req env)) =
          .ok aiResult → aiResult.replyText = none) →
        (chatHandler mgr req env).2.scheduledEnd = none ∧
        (chatHandler mgr req env).2.response.success = false ∧
        (chatHandler mgr req env).2.response.conversationEnding = none := by
      intro h
      obtain ⟨mgrG, calls, hG, hch⟩ := chatHandler_at_generation mgr req env c htracks hheard
      have hd := tracks_deref _ _ _ _ hG
      have := generateAndReply_no_reply mgrG (resolveSession mgr req env).2 req env
        (userMessageText req env) (transcriptResult req env) calls (by rw [hd]; exact h)
      rw [hch, this]
      exact ⟨rfl, rfl, rfl⟩
    have hcases : (∃ error text t,
        getResponse env.model env.complete env.aiDuration (some (c.atGeneration req env)) =
          .ok (.failure error (some text) t)) ∨
        (∀ aiResult,
          getResponse env.model env.complete env.aiDuration (some (c.atGeneration req env)) =
            .ok aiResult → aiResult.replyText = none) := by
      cases hai : getResponse env.model env.complete env.aiDuration
          (some (c.atGeneration req env)) with
      | error e => right; intro a ha; cases ha
      | ok aiResult =>
        cases aiResult with
        | success r m t u =>
          have := hfailed _ hai
          simp [AiResult.succeeded] at this
        | failure error fb t =>
          cases fb with
          | none =>
            right
            intro a ha
            cases ha
            rfl
          | some text => left; exact ⟨error, text, t, rfl⟩
    refine ⟨?_, ?_, ?_, ?_, ?_⟩
    · rcases hcases with ⟨error, text, t, hai⟩ | h
      · exact (hreply error text t hai).1
      · exact (hnone h).1
    · rcases hcases with ⟨error, text, t, hai⟩ | h
      · rw [(hreply error text t hai).2.2.2]; simp
      · rw [(hnone h).2.2]; simp
    · intro hs
      rcases hcases with ⟨error, text, t, hai⟩ | h
      · exact (hreply error text t hai).2.2.2
      · rw [(hnone h).2.1] at hs; cases hs
    · intro error text t hai
      exact (hreply error text t hai).2
    · intro hmode hfail
      have hmode' : (c.atGeneration req env).mode ∉ objectPrototypeKeys := by
        rw [atGeneration_mode]; exact hmode
      obtain ⟨e, text, hai⟩ := getResponse_fallback_text env.model env.complete env.aiDuration
        (c.atGeneration req env) hmode' hfail
      exact ⟨(hreply e text _ hai).2.1, (hreply e text _ hai).2.2.2⟩

theorem fallback_never_ends_call_witness :
    isConversationEnding
      "Sistemul este suprasolicitat. Vă rog să încercați din nou în câteva minute." = false ∧
    (∃ text, generateFallbackResponse serviceError "unknown" = .ok (some text) ∧
      isConversationEnding text = false) ∧
    (chatHandler ConversationManager.init (sampleRequest none)
      (sampleEnv (fun _ => .throws serviceError) (fun _ => .throws timeoutError)
        (fun _ => .audio "u1" 10))).2.scheduledEnd = none ∧
    (chatHandler ConversationManager.init (sampleRequest none)
      (sampleEnv (fun _ => .throws serviceError) (fun _ => .throws timeoutError)
        (fun _ => .audio "u1" 10))).2.response.conversationEnding = some false :=
  ⟨fallback_never_ends_call.1 rateLimitError "dental" _ (by decide),
   fallback_never_ends_call.2.1 serviceError "unknown" (by decide) (Or.inr (by decide)),
   (fallback_never_ends_call.2.2 ConversationManager.init (sampleRequest none)
      (sampleEnv (fun _ => .throws serviceError) (fun _ => .throws timeoutError)
        (fun _ => .audio "u1" 10))
      (newConversation "call-1" "dental" [("userAgent", .str "agent"), ("ip", .str "127.0.0.1")]
        100)
      rfl rfl (by intro aiResult h; cases h; rfl)).1,
   ((fallback_never_ends_call.2.2 ConversationManager.init (sampleRequest none)
      (sampleEnv (fun _ => .throws serviceError) (fun _ => .throws timeoutError)
        (fun _ => .audio "u1" 10))
      (newConversation "call-1" "dental" [("userAgent", .str "agent"), ("ip", .str "127.0.0.1")]
        100)
      rfl rfl (by intro aiResult h; cases h; rfl)).2.2.2.2
      (by decide) (fun _ => ⟨timeoutError, rfl, Or.inl rfl⟩)).2⟩


/-! ## Extraction in a turn -/

/-- The extraction of a turn: run on the conversation object as the stats update left it,
with the mode of the request, when the reply is ending. -/
theorem finishTurn_appointment (mgr : ConversationManager) (ref : Nat) (req : ChatRequest)
    (env : TurnEnv) (userMessage : String) (stt : Option SttResult) (aiResult : AiResult)
    (aiResponse : String) (tts : TtsResult) (calls : List RemoteCall) (c : Conversation)
    (h : mgr.Tracks req.callId ref c) :
    (finishTurn mgr ref req env userMessage stt aiResult aiResponse tts calls).2.appointment =
      (if isConversationEnding aiResponse then
        extractAppointmentDetails
          { c with stats := c.stats.assign (turnStatsPatch env stt tts), lastActivity := env.t3 }
          req.mode
      else none) := by
  have ht := updateConversationStats_tracks mgr req.callId ref c (turnStatsPatch env stt tts)
    env.t3 h
  have hd := tracks_deref _ _ _ _ ht
  unfold finishTurn
  by_cases he : isConversationEnding aiResponse = true
  · simp [he, hd]
  · simp [he]

theorem generateAndReply_appointment (mgr : ConversationManager) (ref : Nat)
    (req : ChatRequest) (env : TurnEnv) (userMessage : String) (stt : Option SttResult)
    (calls : List RemoteCall) (c : Conversation) (aiResult : AiResult) (r : String)
    (h : mgr.Tracks req.callId ref c)
    (hai : getResponse env.model env.complete env.aiDuration (some c) = .ok aiResult)
    (hr : aiResult.replyText = some r) :
    (generateAndReply mgr ref req env userMessage stt calls).2.appointment =
      (if isConversationEnding r then
        extractAppointmentDetails
          (c.afterReply env stt (textToSpeech (env.synthesize r) req.callId env.ttsDuration)
            (assistantMessage env.t2 aiResult r))
          req.mode
      else none) := by
  have ha := addMessage_tracks mgr req.callId ref c "assistant" r aiResult.annotations env.t2 h
  have hpair : mgr.addMessage req.callId "assistant" (some r) aiResult.annotations env.t2 =
      ((mgr.addMessage req.callId "assistant" (some r) aiResult.annotations env.t2).1,
        .ok (assistantMessage env.t2 aiResult r)) :=
    Prod.ext rfl ha.1
  have hgen : generateAndReply mgr ref req env userMessage stt calls =
      finishTurn (mgr.addMessage req.callId "assistant" (some r) aiResult.annotations env.t2).1
        ref req env userMessage stt aiResult r
        (textToSpeech (env.synthesize r) req.callId env.ttsDuration)
        (calls ++ generationCalls (some c) ++ [.synthesize r]) := by
    unfold generateAndReply
    simp only [tracks_deref mgr req.callId ref c h, hai, hr]
    rw [hpair]
  rw [hgen]
  exact finishTurn_appointment _ ref req env userMessage stt aiResult r _ _ _ ha.2

/-- The extraction of a turn that obtains the reply text `r`: run on the session as the turn
leaves it, with the mode of the request, when `r` is ending. -/
theorem chatHandler_appointment (mgr : ConversationManager) (req : ChatRequest)
    (env : TurnEnv) (c : Conversation) (aiResult : AiResult) (r : String)
    (hc : (resolveSession mgr req env).1.Tracks req.callId (resolveSession mgr req env).2 c)
    (hheard : transcriptionFailed req env = false)
    (hai : getResponse env.model env.complete env.aiDuration (some (c.atGeneration req env)) =
      .ok aiResult)
    (hr : aiResult.replyText = some r) :
    (chatHandler mgr req env).2.appointment =
      (if isConversationEnding r then
        extractAppointmentDetails
          ((c.atGeneration req env).afterReply env (transcriptResult req env)
            (textToSpeech (env.synthesize r) req.callId env.ttsDuration)
            (assistantMessage env.t2 aiResult r))
          req.mode
      else none) := by
  obtain ⟨mgrG, calls, hG, hch⟩ := chatHandler_at_generation mgr req env c hc hheard
  rw [hch]
  exact generateAndReply_appointment mgrG _ req env _ _ calls _ aiResult r hG hai hr


/-- C26. Extraction in a turn is keyed on the mode of the request, not of the session: for
an ending turn against an existing session `c₀`, the handler runs
`extractAppointmentDetails` on the session as the turn leaves it (the mode of `c₀`, its
messages followed by the messages of the turn) with the mode carried by the request. So a
request with mode "dental" gets what the dental extraction gives for a dental session with
that dialogue, whatever the mode of `c₀`, and a request with another mode extracts nothing,
whatever the mode of `c₀` and the dialogue. The turn runs without any other operation on
the store between its stages. -/
theorem extraction_keyed_on_request_mode (mgr : ConversationManager) (req : ChatRequest)
    (env : TurnEnv) (c₀ : Conversation) (aiResult : AiResult) (r : String)
    (hsession : mgr.lookup req.callId = some c₀)
    (hheard : transcriptionFailed req env = false)
    (hai : getResponse env.model env.complete env.aiDuration
      (some (({ c₀ with lastActivity := env.t0 } : Conversation).atGeneration req env)) =
      .ok aiResult)
    (hr : aiResult.replyText = some r)
    (hending : isConversationEnding r = true) :
    ∃ final : Conversation,
      (chatHandler mgr req env).1.lookup req.callId = some final ∧
      final.mode = c₀.mode ∧
      final.messages =
        c₀.messages ++ userMessages req env ++ [assistantMessage env.t2 aiResult r] ∧
      (chatHandler mgr req env).2.response.conversationEnding = some true ∧
      (chatHandler mgr req env).2.appointment = extractAppointmentDetails final req.mode ∧
      (req.mode = "dental" →
        (chatHandler mgr req env).2.appointment =
          extractAppointmentDetails { final with mode := "dental" } "dental") ∧
      (req.mode ≠ "dental" → (chatHandler mgr req env).2.appointment = none) := by
  have htracks := resolveSession_existing mgr req env c₀ hsession
  obtain ⟨hlook, hresp, -, -⟩ :=
    chatHandler_reply mgr req env _ aiResult r htracks hheard hai hr
  have happ := chatHandler_appointment mgr req env _ aiResult r htracks hheard hai hr
  rw [hending] at hresp
  simp only [hending, if_true] at happ
  refine ⟨_, hlook, ?_, ?_, ?_, happ, ?_, ?_⟩
  · simp [Conversation.afterReply, Conversation.push, atGeneration_mode]
  · simp [Conversation.afterReply, Conversation.push, atGeneration_messages]
  · rw [hresp]; rfl
  · intro hm
    rw [happ, hm]
    exact extractAppointmentDetails_congr _ _ "dental" rfl
  · intro hm
    rw [happ]
    simp [extractAppointmentDetails, hm]

set_option maxRecDepth 100000 in
theorem extraction_keyed_on_request_mode_witness :
    (∃ final : Conversation,
      (chatHandler (bookingStore "teleshopping") (modeRequest "dental")
        closingEnv).1.lookup "call-1" = some final ∧
      final.mode = "teleshopping" ∧
      (chatHandler (bookingStore "teleshopping") (modeRequest "dental")
        closingEnv).2.appointment = extractAppointmentDetails final "dental") ∧
    (chatHandler (bookingStore "teleshopping") (modeRequest "dental")
      closingEnv).2.appointment =
      some { date := some "5 martie", time := none, service := "consultație",
             confirmed := false } ∧
    (chatHandler (bookingStore "dental") (modeRequest "tarot") closingEnv).2.appointment =
      none :=
  ⟨(extraction_keyed_on_request_mode (bookingStore "teleshopping") (modeRequest "dental")
      closingEnv (bookingSession "teleshopping") _ "La revedere!" rfl rfl rfl rfl
      (by decide)).imp
      (fun _ h => ⟨h.1, h.2.1, h.2.2.2.2.1⟩),
   by decide,
   (extraction_keyed_on_request_mode (bookingStore "dental") (modeRequest "tarot")
      closingEnv (bookingSession "dental") _ "La revedere!" rfl rfl rfl rfl
      (by decide)).elim
      (fun _ h => h.2.2.2.2.2.2 (by decide))⟩


/-! ## Deferred destruction -/

/-- C23. Deferred destruction is unconditional: when the reply of a turn is detected as
conversation-ending, the session is still held under the call identifier when the turn
result (with `conversationEnding = true`) is returned, and the handler has scheduled
`endConversation(callId, "completed")` after 5000 ms. Whatever store the timer finds when it
fires, the callback leaves no session under that identifier, logs the end with reason
"completed" of the session it found there, and leaves the other sessions alone; in
particular after any sequence of further turns and resets served during the grace delay,
which may have appended messages to the session or replaced it by a new one. -/
theorem deferred_destruction_unconditional (mgr : ConversationManager) (req : ChatRequest)
    (env : TurnEnv) (c : Conversation) (aiResult : AiResult) (r : String)
    (hsession : (resolveSession mgr req env).1.lookup req.callId = some c)
    (hheard : transcriptionFailed req env = false)
    (hai : getResponse env.model env.complete env.aiDuration (some (c.atGeneration req env)) =
      .ok aiResult)
    (hr : aiResult.replyText = some r)
    (hending : isConversationEnding r = true) :
    ∃ (final : Conversation) (s : ScheduledEnd),
      (chatHandler mgr req env).1.lookup req.callId = some final ∧
      (chatHandler mgr req env).2.response.conversationEnding = some true ∧
      (chatHandler mgr req env).2.scheduledEnd = some s ∧
      s = { callId := req.callId, reason := "completed", delay := 5000 } ∧
      (∀ later : ConversationManager,
        (s.fire later).lookup req.callId = none ∧
        (∀ c', later.lookup req.callId = some c' →
          Event.convEnd req.callId "completed" c'.stats.messageCount ∈
            (s.fire later).events) ∧
        (∀ other, other ≠ req.callId → (s.fire later).lookup other = later.lookup other)) ∧
      (∀ ops : List GraceOp,
        (s.fire (runGrace ops (chatHandler mgr req env).1)).lookup req.callId = none) := by
  obtain ⟨htracks, -⟩ := resolveSession_tracks mgr req env c hsession
  obtain ⟨hlook, hresp, -, hsched⟩ :=
    chatHandler_reply mgr req env c aiResult r htracks hheard hai hr
  rw [hending] at hresp
  simp only [hending, if_true] at hsched
  refine ⟨_, { callId := req.callId, reason := "completed", delay := 5000 }, hlook, ?_, hsched,
    rfl, ?_, ?_⟩
  · rw [hresp]; rfl
  · intro later
    exact ⟨endConversation_lookup_self later req.callId "completed",
      fun c' hc' => endConversation_logs later req.callId "completed" c' hc',
      fun other hne => endConversation_lookup_other later req.callId "completed" other hne⟩
  · intro ops
    exact endConversation_lookup_self _ req.callId "completed"

set_option maxRecDepth 100000 in
theorem deferred_destruction_unconditional_witness :
    (∃ (final : Conversation) (s : ScheduledEnd),
      (chatHandler (bookingStore "dental") (modeRequest "dental") closingEnv).1.lookup
        "call-1" = some final ∧
      (chatHandler (bookingStore "dental") (modeRequest "dental")
        closingEnv).2.scheduledEnd = some s ∧
      (s.fire (runGrace [.turn (modeRequest "dental") greetingEnv]
        (chatHandler (bookingStore "dental") (modeRequest "dental")
          closingEnv).1)).lookup "call-1" = none ∧
      (s.fire (runGrace [.reset (some "call-1"), .turn (modeRequest "tarot") greetingEnv]
        (chatHandler (bookingStore "dental") (modeRequest "dental")
          closingEnv).1)).lookup "call-1" = none) ∧
    ((chatHandler (bookingStore "dental") (modeRequest "dental") closingEnv).1.lookup
      "call-1").map (fun c => c.messages.length) = some 2 ∧
    ((runGrace [.turn (modeRequest "dental") greetingEnv]
      (chatHandler (bookingStore "dental") (modeRequest "dental") closingEnv).1).lookup
      "call-1").map (fun c => c.messages.length) = some 3 ∧
    ((runGrace [.reset (some "call-1"), .turn (modeRequest "tarot") greetingEnv]
      (chatHandler (bookingStore "dental") (modeRequest "dental") closingEnv).1).lookup
      "call-1").map (fun c => (c.mode, c.messages.length)) = some ("tarot", 1) :=
  ⟨(deferred_destruction_unconditional (bookingStore "dental") (modeRequest "dental")
      closingEnv { bookingSession "dental" with lastActivity := 100 } _ "La revedere!"
      rfl rfl rfl rfl (by decide)).imp
      (fun _ h => h.imp (fun _ h => ⟨h.1, h.2.2.1, h.2.2.2.2.2 _, h.2.2.2.2.2 _⟩)),
   by decide, by decide, by decide⟩


/-! ## Message count -/

theorem countedAt_modifyLive (mgr : ConversationManager) (callId : String)
    (f : Conversation → Conversation) (hid : ∀ x, (f x).id = x.id)
    (hf : ∀ x : Conversation, x.stats.messageCount = x.messages.length →
      (f x).stats.messageCount = (f x).messages.length)
    (id : String) (h : mgr.CountedAt id) :
    ({ mgr with cells := modifyLive callId f mgr.cells } : ConversationManager).CountedAt id := by
  intro c hc
  by_cases hne : id = callId
  · subst hne
    simp only [ConversationManager.lookup] at hc
    rw [lookupLive_modifyLive id f hid] at hc
    cases hl : lookupLive id mgr.cells with
    | none => rw [hl] at hc; cases hc
    | some c₀ =>
      rw [hl] at hc
      have hc' : f c₀ = c := Option.some.inj hc
      rw [← hc']
      exact hf c₀ (h c₀ hl)
  · simp only [ConversationManager.lookup] at hc
    rw [lookupLive_modifyLive_other callId f hid id hne] at hc
    exact h c hc

theorem countedAt_getConversation (mgr : ConversationManager) (callId : String) (now : Nat)
    (id : String) (h : mgr.CountedAt id) : (mgr.getConversation callId now).1.CountedAt id := by
  unfold ConversationManager.getConversation
  cases findLive callId mgr.cells with
  | none => exact h
  | some ref =>
    refine countedAt_modifyLive mgr callId _ ?_ ?_ id h
    · intro x; rfl
    · intro x hx; exact hx

theorem countedAt_addMessage (mgr : ConversationManager) (callId role : String)
    (content : Option String) (metadata : JsObj) (now : Nat) (id : String)
    (h : mgr.CountedAt id) :
    (mgr.addMessage callId role content metadata now).1.CountedAt id := by
  have hg := countedAt_getConversation mgr callId now id h
  unfold ConversationManager.addMessage
  cases hget : mgr.getConversation callId now with
  | mk mgr₁ found =>
    rw [hget] at hg
    have hpush : ∀ message : Message,
        ({ mgr₁ with cells := modifyLive callId (fun c => c.push message now) mgr₁.cells } :
          ConversationManager).CountedAt id := by
      intro message
      refine countedAt_modifyLive mgr₁ callId _ ?_ ?_ id hg
      · intro x; rfl
      · intro x hx
        simp [Conversation.push, hx]
    cases found with
    | none => exact hg
    | some ref =>
      cases content with
      | none => exact hpush _
      | some text => exact hpush _

theorem countedAt_updateConversationStats (mgr : ConversationManager) (callId : String)
    (patch : StatsPatch) (now : Nat) (hpatch : patch.messageCount = none) (id : String)
    (h : mgr.CountedAt id) :
    (mgr.updateConversationStats callId patch now).1.CountedAt id := by
  have hg := countedAt_getConversation mgr callId now id h
  unfold ConversationManager.updateConversationStats
  cases hget : mgr.getConversation callId now with
  | mk mgr₁ found =>
    rw [hget] at hg
    cases found with
    | none => exact hg
    | some ref =>
      refine countedAt_modifyLive mgr₁ callId _ ?_ ?_ id hg
      · intro x; rfl
      · intro x hx
        simp [Stats.assign, hpatch, hx]

theorem createConversation_lookup_self (mgr : ConversationManager) (callId mode : String)
    (metadata : JsObj) (now : Nat) :
    (mgr.createConversation callId mode metadata now).1.lookup callId =
      some (newConversation callId mode metadata now) := by
  simp only [ConversationManager.createConversation, ConversationManager.lookup]
  exact lookupLive_create callId _ rfl mgr.cells

theorem countedAt_createConversation (mgr : ConversationManager) (callId mode : String)
    (metadata : JsObj) (now : Nat) (id : String) (h : mgr.CountedAt id) :
    (mgr.createConversation callId mode metadata now).1.CountedAt id := by
  intro c hc
  by_cases hne : id = callId
  · subst hne
    rw [createConversation_lookup_self] at hc
    have : newConversation id mode metadata now = c := Option.some.inj hc
    rw [← this]
    rfl
  · rw [createConversation_lookup_other _ _ _ _ _ _ hne] at hc
    exact h c hc

theorem countedAt_resolveSession (mgr : ConversationManager) (req : ChatRequest)
    (env : TurnEnv) (id : String) (h : mgr.CountedAt id) :
    (resolveSession mgr req env).1.CountedAt id := by
  have hg := countedAt_getConversation mgr req.callId env.t0 id h
  unfold resolveSession
  cases hget : mgr.getConversation req.callId env.t0 with
  | mk mgr₁ found =>
    rw [hget] at hg
    cases found with
    | none => exact countedAt_createConversation mgr₁ _ _ _ _ id hg
    | some ref => exact hg

theorem countedAt_generateAndReply (mgr : ConversationManager) (ref : Nat) (req : ChatRequest)
    (env : TurnEnv) (userMessage : String) (stt : Option SttResult)
    (calls : List RemoteCall) (id : String) (h : mgr.CountedAt id) :
    (generateAndReply mgr ref req env userMessage stt calls).1.CountedAt id := by
  unfold generateAndReply
  simp only
  split
  · exact h
  · rename_i aiResult _
    have hadd := countedAt_addMessage mgr req.callId "assistant" aiResult.replyText
      aiResult.annotations env.t2 id h
    split
    · rename_i mgr' _ text hpair _
      have hm : mgr' = (mgr.addMessage req.callId "assistant" aiResult.replyText
          aiResult.annotations env.t2).1 := by rw [hpair]
      have hfin := finishTurn_store mgr' ref req env userMessage stt aiResult text
        (textToSpeech (env.synthesize text) req.callId env.ttsDuration)
        (calls ++ generationCalls (mgr.deref ref) ++ [.synthesize text])
      rw [hfin.1]
      refine countedAt_updateConversationStats mgr' _ _ _ rfl id ?_
      rw [hm]
      exact hadd
    · rename_i _ mgr' _ hpair _
      have hm : mgr' = (mgr.addMessage req.callId "assistant" aiResult.replyText
          aiResult.annotations env.t2).1 := by rw [hpair]
      rw [hm]
      exact hadd

theorem countedAt_chatHandler (mgr : ConversationManager) (req : ChatRequest) (env : TurnEnv)
    (id : String) (h : mgr.CountedAt id) : (chatHandler mgr req env).1.CountedAt id := by
  have hres := countedAt_resolveSession mgr req env id h
  unfold chatHandler
  cases haudio : req.audio with
  | none =>
    simp only
    exact countedAt_generateAndReply _ _ req env _ _ _ id hres
  | some buffer =>
    simp only
    cases hstt : speechToText (env.recognize buffer) env.sttDuration with
    | failure e t => exact hres
    | success transcript confidence processingTime =>
      simp only
      by_cases hne : transcript = ""
      · simp only [hne, ne_eq, not_true_eq_false, if_false]
        exact hres
      · simp only [hne, ne_eq, not_false_eq_true, if_true]
        have hadd := countedAt_addMessage (resolveSession mgr req env).1 req.callId "user"
          (some transcript)
          [("confidence", .num confidence), ("processingTime", .num processingTime)] env.t1
          id hres
        split
        · rename_i mgr₂ _ hpair
          have hm : mgr₂ = ((resolveSession mgr req env).1.addMessage req.callId "user"
              (some transcript)
              [("confidence", .num confidence), ("processingTime", .num processingTime)]
              env.t1).1 := by rw [hpair]
          refine countedAt_generateAndReply _ _ req env _ _ _ id ?_
          rw [hm]
          exact hadd
        · rename_i mgr₂ _ hpair
          have hm : mgr₂ = ((resolveSession mgr req env).1.addMessage req.callId "user"
              (some transcript)
              [("confidence", .num confidence), ("processingTime", .num processingTime)]
              env.t1).1 := by rw [hpair]
          rw [hm]
          exact hadd

theorem countedAt_runOps (id : String) (ops : List StoreOp) :
    ∀ mgr : ConversationManager,
      (∀ callId patch now, StoreOp.updateStats callId patch now ∈ ops →
        patch.messageCount = none) →
      mgr.CountedAt id → (runOps ops mgr).CountedAt id := by
  induction ops with
  | nil => intro mgr _ h; exact h
  | cons op rest ih =>
    intro mgr hops h
    have hrun : runOps (op :: rest) mgr = runOps rest (op.apply mgr) := rfl
    rw [hrun]
    refine ih (op.apply mgr)
      (fun callId patch now hmem => hops callId patch now (List.mem_cons_of_mem _ hmem)) ?_
    cases op with
    | get callId now => exact countedAt_getConversation mgr callId now id h
    | addMessage callId role content metadata now =>
      exact countedAt_addMessage mgr callId role content metadata now id h
    | updateStats callId patch now =>
      exact countedAt_updateConversationStats mgr callId patch now
        (hops callId patch now (List.mem_cons_self _ _)) id h
    | turn req env => exact countedAt_chatHandler mgr req env id h


/-- C24. Message-count invariant: the stats update of a chat turn sets only `totalDuration`
and `audioProcessingTime`; and after `createConversation` followed by any sequence of
`getConversation`, `addMessage`, chat turns and stats updates that carry no `messageCount`,
the session held under the created identifier (there is one, continuing the created one)
has `stats.messageCount` equal to the number of its messages. The same holds under every
other identifier whose session, if any, had the two equal before. -/
theorem messageCount_invariant (mgr : ConversationManager) (callId mode : String)
    (metadata : JsObj) (now : Nat) (ops : List StoreOp)
    (hops : ∀ id patch t, StoreOp.updateStats id patch t ∈ ops → patch.messageCount = none) :
    (∀ env stt tts, (turnStatsPatch env stt tts).messageCount = none) ∧
    (∃ c,
      (runOps ops (mgr.createConversation callId mode metadata now).1).lookup callId = some c ∧
      c.Continues (newConversation callId mode metadata now) ∧
      c.stats.messageCount = c.messages.length) ∧
    (∀ id, mgr.CountedAt id →
      (runOps ops (mgr.createConversation callId mode metadata now).1).CountedAt id) := by
  refine ⟨fun _ _ _ => rfl, ?_, ?_⟩
  · have hnew : (mgr.createConversation callId mode metadata now).1.CountedAt callId := by
      intro c hc
      rw [createConversation_lookup_self] at hc
      have : newConversation callId mode metadata now = c := Option.some.inj hc
      rw [← this]
      rfl
    obtain ⟨c, hc, hcont⟩ := runOps_extends ops (mgr.createConversation callId mode metadata now).1
      callId _ (createConversation_lookup_self mgr callId mode metadata now)
    exact ⟨c, hc, hcont, countedAt_runOps callId ops _ hops hnew c hc⟩
  · intro id h
    exact countedAt_runOps id ops _ hops
      (countedAt_createConversation mgr callId mode metadata now id h)

set_option maxRecDepth 100000 in
theorem messageCount_invariant_witness :
    (∃ c,
      (runOps
        [.addMessage "call-1" "user" (some "Bună ziua") [] 5,
         .turn (modeRequest "dental") greetingEnv,
         .updateStats "call-1"
           { messageCount := none, audioProcessingTime := some 7, totalDuration := none } 200,
         .turn (modeRequest "dental") closingEnv]
        (ConversationManager.init.createConversation "call-1" "dental" [] 0).1).lookup
        "call-1" = some c ∧
      c.stats.messageCount = c.messages.length) ∧
    ((runOps
        [.addMessage "call-1" "user" (some "Bună ziua") [] 5,
         .turn (modeRequest "dental") greetingEnv,
         .updateStats "call-1"
           { messageCount := none, audioProcessingTime := some 7, totalDuration := none } 200,
         .turn (modeRequest "dental") closingEnv]
        (ConversationManager.init.createConversation "call-1" "dental" [] 0).1).lookup
        "call-1").map (fun c => (c.stats.messageCount, c.messages.length)) = some (3, 3) :=
  ⟨(messageCount_invariant ConversationManager.init "call-1" "dental" [] 0
      [.addMessage "call-1" "user" (some "Bună ziua") [] 5,
       .turn (modeRequest "dental") greetingEnv,
       .updateStats "call-1"
         { messageCount := none, audioProcessingTime := some 7, totalDuration := none } 200,
       .turn (modeRequest "dental") closingEnv]
      (by
        intro id patch t h
        simp at h
        rw [h.2.1])).2.1.imp
      (fun _ h => ⟨h.1, h.2.2⟩),
   by decide⟩


end DentalAss
